import Mathlib

/-!
# comms_stack: correlation table, RpcClient, server-side dispatch, Publisher, Subscriber

A shallow embedding of `comms_stack/src/rpc_client.cpp`,
`comms_stack/src/communication_manager.cpp` (the handlers installed by
`registerRpcService`), `comms_stack/src/my_sample_rpc_impl.cpp`,
`comms_stack/src/publisher.cpp` and `comms_stack/src/subscriber.cpp`.

Conventions of the embedding

* Shared mutable objects are passed explicitly: an operation takes the object
  and returns its new content together with what it did to promises.
* `std::cout` / `std::cerr` output is not part of the state and is left out.
* A `std::promise` is named by a number chosen by the caller of `Echo` / `Add`
  (the local variable `promise` of the call); the `std::future` of the call is
  observed through the resolutions reported for that number.
* A callback (`std::function`) handed to a subscriber is named by a number; an
  empty `std::function` is `none`.
* The protobuf codec and the vsomeip runtime are collaborators that are not
  part of the repository; they are parameters (`Protos`, `Runtime`).
-/

namespace comms_stack

/-! ## Transport boundary -/

/-- The message kinds of `vsomeip::message_type_e` the code distinguishes. -/
inductive message_type_e
  | MT_REQUEST
  | MT_REQUEST_NO_RETURN
  | MT_NOTIFICATION
  | MT_RESPONSE
  | MT_ERROR
  | MT_UNKNOWN
  deriving DecidableEq, Repr

/-- The return codes of `vsomeip::return_code_e` (those the code names, and two others). -/
inductive return_code_e
  | E_OK
  | E_NOT_OK
  | E_MALFORMED_MESSAGE
  | E_SERIALIZATION
  | E_UNKNOWN
  deriving DecidableEq, Repr

/-- A `vsomeip::message`: header fields read or written by the code, and the payload
(`none` is a null payload pointer, `some bytes` a payload object holding `bytes`). -/
structure Message where
  service : Nat
  instance_ : Nat
  method : Nat
  client : Nat
  session : Nat
  message_type : message_type_e
  return_code : return_code_e
  payload : Option (List Nat)
  deriving DecidableEq, Repr

/-- Constant `vsomeip::ANY_SERVICE`. -/
def ANY_SERVICE : Nat := 0xFFFF

/-- Constant `vsomeip::ANY_INSTANCE`. -/
def ANY_INSTANCE : Nat := 0xFFFF

/-- Constant `vsomeip::ANY_METHOD`. -/
def ANY_METHOD : Nat := 0xFFFF

/-- Constant `#define METHOD_ID_ECHO 0x0001`. -/
def METHOD_ID_ECHO : Nat := 0x0001

/-- Constant `#define METHOD_ID_ADD 0x0002`. -/
def METHOD_ID_ADD : Nat := 0x0002

/-- The calls the RPC code issues on the `vsomeip::application` handle. -/
inductive AppCall
  | register_availability_handler (service instance_ : Nat)
  | unregister_availability_handler (service instance_ : Nat)
  | register_message_handler (service instance_ method : Nat)
  | unregister_message_handler (service instance_ method : Nat)
  | request_service (service instance_ : Nat)
  | release_service (service instance_ : Nat)
  | offer_service (service instance_ : Nat)
  | send (wire : Message)
  | offer_event (service instance_ event : Nat) (eventgroups : List Nat)
  | stop_offer_event (service instance_ event : Nat)
  | fire_event (service instance_ event : Nat) (payload : List Nat)
  | notify (service instance_ event : Nat) (payload : List Nat)
  | request_event (service instance_ event : Nat) (eventgroups : List Nat)
  | release_event (service instance_ event : Nat) (eventgroups : List Nat)
  | init
  | start
  | stop
  | stop_offer_service (service instance_ : Nat)
  deriving DecidableEq, Repr

/-- Modelled from the spec: the `vsomeip::application` object behind the handle (the
Transport Facade of spec section 6), which is not part of the repository. `client` is
what `get_client()` returns (the caller-id "assigned once ... by the transport"),
`session` is the exchange-id the transport gives the next outbound call, and `calls`
records the calls issued on the handle, oldest first. -/
structure Application where
  client : Nat
  session : Nat
  calls : List AppCall
  deriving DecidableEq, Repr

/-- Modelled from the spec: record a call on the application handle. -/
def Application.call (app : Application) (c : AppCall) : Application :=
  { app with calls := app.calls ++ [c] }

/-- Modelled from the spec: whether a message is an outbound call (a request). -/
def Message.is_request (msg : Message) : Bool :=
  msg.message_type = .MT_REQUEST || msg.message_type = .MT_REQUEST_NO_RETURN

/-- Modelled from the spec: the message as it leaves through `send`. Spec section 3:
"exchange-id is assigned per outbound call by the transport at send time"; the caller-id
is the one the transport gave the application. Replies are sent as they are. -/
def Application.wire (app : Application) (msg : Message) : Message :=
  if msg.is_request then { msg with client := app.client, session := app.session } else msg

/-- Modelled from the spec: `application::send`. The message goes out in its wire form;
sending a request consumes one exchange-id (16 bit, never 0). -/
def Application.send (app : Application) (msg : Message) : Application :=
  { app with
    session := if msg.is_request then app.session % 0xFFFF + 1 else app.session
    calls := app.calls ++ [.send (app.wire msg)] }

/-- The messages that went out through `send`, oldest first. -/
def sentMessages : List AppCall → List Message
  | [] => []
  | .send wire :: rest => wire :: sentMessages rest
  | _ :: rest => sentMessages rest

/-- The part of `vsomeip::runtime::get()` the code uses. It is not part of the repository,
so it is a parameter: `create_request` is the message `create_request()` returns and
`create_response` is `create_response(request)`. -/
structure Runtime where
  create_request : Message
  create_response : Message → Message

/-- Modelled from the spec: a runtime in which a fresh request carries no caller-id and
no exchange-id yet (both 0, they are "assigned ... by the transport at send time"), and a
response is created for the request's endpoint and ExchangeKey with return code OK and
an empty payload object. -/
def vsomeip_runtime : Runtime where
  create_request :=
    { service := 0, instance_ := 0, method := 0, client := 0, session := 0,
      message_type := .MT_REQUEST, return_code := .E_OK, payload := some [] }
  create_response := fun request =>
    { service := request.service, instance_ := request.instance_, method := request.method,
      client := request.client, session := request.session,
      message_type := .MT_RESPONSE, return_code := .E_OK, payload := some [] }

/-! ## Protobuf messages and codec -/

namespace protos

/-- Message `EchoRequest` of `sample_rpc_service.proto`. -/
structure EchoRequest where
  request_message : String
  deriving DecidableEq, Repr

/-- Message `EchoResponse` of `sample_rpc_service.proto`. -/
structure EchoResponse where
  response_message : String
  deriving DecidableEq, Repr

/-- Message `AddRequest` of `sample_rpc_service.proto` (`int32` fields). -/
structure AddRequest where
  a : Int
  b : Int
  deriving DecidableEq, Repr

/-- Message `AddResponse` of `sample_rpc_service.proto` (`int32` field). -/
structure AddResponse where
  sum : Int
  deriving DecidableEq, Repr

end protos

/-- The two codec entry points the code calls on a protobuf message type:
`SerializeToString` (`none` when it returns false) and `ParseFromArray`
(`none` when it returns false). -/
structure Proto (α : Type) where
  SerializeToString : α → Option (List Nat)
  ParseFromArray : List Nat → Option α

/-- The codec of the four RPC message types (generated code, not part of the repository). -/
structure Protos where
  EchoRequest : Proto protos.EchoRequest
  EchoResponse : Proto protos.EchoResponse
  AddRequest : Proto protos.AddRequest
  AddResponse : Proto protos.AddResponse

/-! ## Promises and the correlation table -/

/-- What a future is resolved with when it is resolved with an error. Each fault is one
`std::runtime_error` of `rpc_client.cpp`:
`ServiceUnavailable` is "Service not available or app not ready",
`EncodeFailed` is "Failed to serialize request",
`Rejected code` is "RPC Error: Received non-OK return code: " followed by the code,
`Malformed` is "RPC Error: Received empty payload for response.",
`DecodeFailed` is "RPC Error: Failed to parse response payload into " followed by the type,
and `Cancelled` is the fault of the spec for teardown, which no line of the code raises. -/
inductive RpcFault
  | ServiceUnavailable
  | EncodeFailed
  | Rejected (code : return_code_e)
  | Malformed
  | DecodeFailed
  | Cancelled
  deriving DecidableEq, Repr

/-- One call of `set_value` or `set_exception` on a promise. -/
inductive Resolution
  | EchoValue (response : protos.EchoResponse)
  | AddValue (response : protos.AddResponse)
  | Exception (fault : RpcFault)
  deriving DecidableEq, Repr

/-- The two instantiations of the template parameter `ResProto` of `registerPromise`. -/
inductive ResProto
  | EchoResponse
  | AddResponse
  deriving DecidableEq, Repr

/-- Type `struct PromiseContext`: the stored closure (member `response_parser`), given by
the response type it was instantiated for and the promise it captured. -/
structure PromiseContext where
  res_proto : ResProto
  promise : Nat
  deriving DecidableEq, Repr

/-- Type `std::pair<vsomeip::client_t, vsomeip::session_t>`. -/
abbrev ExchangeKey := Nat × Nat

/-- Type `std::map<std::pair<client_t, session_t>, PromiseContext>`: entries with pairwise
distinct keys. -/
structure PendingMap where
  entries : List (ExchangeKey × PromiseContext)
  nodup : (entries.map Prod.fst).Nodup

instance : DecidableEq PendingMap := fun m₁ m₂ =>
  decidable_of_iff (m₁.entries = m₂.entries)
    (by cases m₁; cases m₂; simp)

/-- The empty map. -/
def PendingMap.empty : PendingMap := ⟨[], List.nodup_nil⟩

/-- Method `map::find(key)`: the context stored under `key`, if any. -/
def PendingMap.find (m : PendingMap) (key : ExchangeKey) : Option PromiseContext :=
  (m.entries.find? (fun e => decide (e.1 = key))).map Prod.snd

/-- Method `map::erase(it)` for the iterator `find(key)` returned: the entry under `key`
is removed. -/
def PendingMap.erase (m : PendingMap) (key : ExchangeKey) : PendingMap :=
  ⟨m.entries.filter (fun e => decide (e.1 ≠ key)),
    m.nodup.sublist (List.Sublist.map Prod.fst (List.filter_sublist m.entries))⟩

/-- The assignment `map[key] = ctx`: the value under `key` is replaced when the key is
present, and a new entry is made otherwise. -/
def PendingMap.assign (m : PendingMap) (key : ExchangeKey) (ctx : PromiseContext) : PendingMap :=
  ⟨(key, ctx) :: (m.erase key).entries,
    List.nodup_cons.mpr ⟨by simp [PendingMap.erase, List.mem_filter], (m.erase key).nodup⟩⟩

/-- Method `map::clear()`. -/
def PendingMap.clear (_m : PendingMap) : PendingMap := PendingMap.empty

/-- Method `map::size()`. -/
def PendingMap.size (m : PendingMap) : Nat := m.entries.length

/-- The keys of the map. -/
def PendingMap.keys (m : PendingMap) : List ExchangeKey := m.entries.map Prod.fst

/-- The closure `registerPromise` stores as `response_parser` (`rpc_client.cpp` lines
100-123), applied to a message: the one `set_value` / `set_exception` it performs on its
promise. -/
def responseParser (pb : Protos) (ctx : PromiseContext) (msg : Message) : Resolution :=
  if msg.return_code ≠ .E_OK then
    .Exception (.Rejected msg.return_code)
  else
    match msg.payload with
    | none => .Exception .Malformed
    | some data =>
      if data.length = 0 then
        .Exception .Malformed
      else
        match ctx.res_proto with
        | .EchoResponse =>
          match pb.EchoResponse.ParseFromArray data with
          | some response_proto => .EchoValue response_proto
          | none => .Exception .DecodeFailed
        | .AddResponse =>
          match pb.AddResponse.ParseFromArray data with
          | some response_proto => .AddValue response_proto
          | none => .Exception .DecodeFailed

/-! ## RpcClient -/

/-- The data members of `class RpcClient`. `vsomeip_app_` is `none` for a null handle and
otherwise holds the content of the application object behind the handle. -/
structure RpcClient where
  service_name_ : String
  vsomeip_app_ : Option Application
  service_id_ : Nat
  instance_id_ : Nat
  client_id_ : Nat
  service_available_ : Bool
  pending_requests_ : PendingMap
  deriving DecidableEq

/-- What an operation of the client leaves behind: the client after the operation and the
promise resolutions it performed, in order, each with the promise it was performed on. -/
structure Outcome where
  client : RpcClient
  resolved : List (Nat × Resolution)
  deriving DecidableEq

/-- Constructor `RpcClient::RpcClient`. With a null handle the constructor returns early and
`client_id_` keeps an indeterminate content, given here by `uninit`. -/
def RpcClient.new (service_name : String) (app : Option Application)
    (service_id instance_id : Nat) (uninit : Nat) : RpcClient :=
  match app with
  | none =>
    { service_name_ := service_name, vsomeip_app_ := none, service_id_ := service_id,
      instance_id_ := instance_id, client_id_ := uninit, service_available_ := false,
      pending_requests_ := PendingMap.empty }
  | some app =>
    let app₁ := app.call (.register_availability_handler service_id instance_id)
    let app₂ := app₁.call (.register_message_handler ANY_SERVICE ANY_INSTANCE ANY_METHOD)
    let app₃ := app₂.call (.request_service service_id instance_id)
    { service_name_ := service_name, vsomeip_app_ := some app₃, service_id_ := service_id,
      instance_id_ := instance_id, client_id_ := app.client, service_available_ := false,
      pending_requests_ := PendingMap.empty }

/-- Destructor `RpcClient::~RpcClient` (its body). The loop over the pending entries only
writes a log line per entry, so no promise is touched before the table is cleared. -/
def RpcClient.destructor (c : RpcClient) : Outcome :=
  match c.vsomeip_app_ with
  | some app =>
    let app₁ := app.call (.unregister_availability_handler c.service_id_ c.instance_id_)
    let app₂ := app₁.call (.unregister_message_handler ANY_SERVICE ANY_INSTANCE ANY_METHOD)
    let app₃ := app₂.call (.release_service c.service_id_ c.instance_id_)
    { client := { c with vsomeip_app_ := some app₃,
                         pending_requests_ := c.pending_requests_.clear },
      resolved := [] }
  | none => { client := c, resolved := [] }

/-- Method `RpcClient::registerPromise<ResProto>`. -/
def RpcClient.registerPromise (c : RpcClient) (res_proto : ResProto)
    (client_id session_id : Nat) (promise : Nat) : RpcClient :=
  { c with pending_requests_ :=
      c.pending_requests_.assign (client_id, session_id) ⟨res_proto, promise⟩ }

/-- Method `RpcClient::fulfillPromiseWithError`: the entry is erased, the promise is not set. -/
def RpcClient.fulfillPromiseWithError (c : RpcClient) (client_id session_id : Nat) : RpcClient :=
  match c.pending_requests_.find (client_id, session_id) with
  | some _ => { c with pending_requests_ := c.pending_requests_.erase (client_id, session_id) }
  | none => c

/-- Method `RpcClient::Echo`. -/
def RpcClient.Echo (pb : Protos) (rt : Runtime) (c : RpcClient) (promise : Nat)
    (request : protos.EchoRequest) : Outcome :=
  match c.vsomeip_app_ with
  | none => { client := c, resolved := [(promise, .Exception .ServiceUnavailable)] }
  | some app =>
    if !c.service_available_ then
      { client := c, resolved := [(promise, .Exception .ServiceUnavailable)] }
    else
      let rpc_request := { rt.create_request with
        service := c.service_id_, instance_ := c.instance_id_, method := METHOD_ID_ECHO }
      match pb.EchoRequest.SerializeToString request with
      | none => { client := c, resolved := [(promise, .Exception .EncodeFailed)] }
      | some serialized_data =>
        let rpc_request := { rpc_request with payload := some serialized_data }
        let c₁ := c.registerPromise .EchoResponse rpc_request.client rpc_request.session promise
        { client := { c₁ with vsomeip_app_ := some (app.send rpc_request) }, resolved := [] }

/-- Method `RpcClient::Add`. -/
def RpcClient.Add (pb : Protos) (rt : Runtime) (c : RpcClient) (promise : Nat)
    (request : protos.AddRequest) : Outcome :=
  match c.vsomeip_app_ with
  | none => { client := c, resolved := [(promise, .Exception .ServiceUnavailable)] }
  | some app =>
    if !c.service_available_ then
      { client := c, resolved := [(promise, .Exception .ServiceUnavailable)] }
    else
      let rpc_request := { rt.create_request with
        service := c.service_id_, instance_ := c.instance_id_, method := METHOD_ID_ADD }
      match pb.AddRequest.SerializeToString request with
      | none => { client := c, resolved := [(promise, .Exception .EncodeFailed)] }
      | some serialized_data =>
        let rpc_request := { rpc_request with payload := some serialized_data }
        let c₁ := c.registerPromise .AddResponse rpc_request.client rpc_request.session promise
        { client := { c₁ with vsomeip_app_ := some (app.send rpc_request) }, resolved := [] }

/-- Method `RpcClient::onAvailabilityChanged`. -/
def RpcClient.onAvailabilityChanged (c : RpcClient) (service instance_ : Nat)
    (is_available : Bool) : RpcClient :=
  if service = c.service_id_ ∧ instance_ = c.instance_id_ then
    { c with service_available_ := is_available }
  else c

/-- Method `RpcClient::onMessageReceived`. -/
def RpcClient.onMessageReceived (pb : Protos) (c : RpcClient) (msg : Message) : Outcome :=
  if msg.client = c.client_id_ ∧
      (msg.message_type = .MT_RESPONSE ∨ msg.message_type = .MT_ERROR) then
    let key : ExchangeKey := (c.client_id_, msg.session)
    match c.pending_requests_.find key with
    | some ctx =>
      { client := { c with pending_requests_ := c.pending_requests_.erase key },
        resolved := [(ctx.promise, responseParser pb ctx msg)] }
    | none => { client := c, resolved := [] }
  else { client := c, resolved := [] }

/-- Method `RpcClient::isServiceAvailable`. -/
def RpcClient.isServiceAvailable (c : RpcClient) : Bool := c.service_available_

/-- One thing a client can be asked to do between its construction and its destruction. -/
inductive ClientEvent
  | Echo (promise : Nat) (request : protos.EchoRequest)
  | Add (promise : Nat) (request : protos.AddRequest)
  | onAvailabilityChanged (service instance_ : Nat) (is_available : Bool)
  | onMessageReceived (msg : Message)

/-- The client after one event. -/
def RpcClient.step (pb : Protos) (rt : Runtime) (c : RpcClient) : ClientEvent → RpcClient
  | .Echo promise request => (c.Echo pb rt promise request).client
  | .Add promise request => (c.Add pb rt promise request).client
  | .onAvailabilityChanged service instance_ is_available =>
    c.onAvailabilityChanged service instance_ is_available
  | .onMessageReceived msg => (c.onMessageReceived pb msg).client

/-- The client after a sequence of events, first event first. -/
def RpcClient.run (pb : Protos) (rt : Runtime) (c : RpcClient) (events : List ClientEvent) :
    RpcClient :=
  events.foldl (RpcClient.step pb rt) c

/-- The messages the client has sent through its application handle, oldest first. -/
def RpcClient.sent (c : RpcClient) : List Message :=
  match c.vsomeip_app_ with
  | none => []
  | some app => sentMessages app.calls

/-- Inbound messages handed to `onMessageReceived` one after the other. -/
def RpcClient.deliver (pb : Protos) (c : RpcClient) : List Message → Outcome
  | [] => { client := c, resolved := [] }
  | msg :: rest =>
    let first := c.onMessageReceived pb msg
    let others := RpcClient.deliver pb first.client rest
    { client := others.client, resolved := first.resolved ++ others.resolved }

/-- A client without a transport handle has an empty table (the invariant of the client's
reachable states that teardown relies on). -/
def RpcClient.NullHandleHasNoEntries (c : RpcClient) : Prop :=
  c.vsomeip_app_ = none → c.pending_requests_ = PendingMap.empty

/-! ## Server side: the sample service and the handlers of `registerRpcService` -/

/-- The value an `int32` holds after a computation whose mathematical result is `x`
(two's complement wrap-around). -/
def wrapInt32 (x : Int) : Int := (x + 2 ^ 31) % 2 ^ 32 - 2 ^ 31

/-- The interface `protos::SampleRpc` as the handlers use it: a method is given the decoded
request, a default response object and a completion closure. The result is the response
object as it is when the method runs the closure, or `none` when the method returns
without running it. -/
structure SampleRpc where
  Echo : protos.EchoRequest → Option protos.EchoResponse
  Add : protos.AddRequest → Option protos.AddResponse

/-- Method `MySampleRpcImpl::Echo`: the response it writes, and how often it runs `done`
(`done` tells whether a closure was supplied). -/
def MySampleRpcImpl.Echo (request : protos.EchoRequest) (done : Bool) :
    protos.EchoResponse × Nat :=
  ({ response_message := "Echo from server: " ++ request.request_message },
    if done then 1 else 0)

/-- Method `MySampleRpcImpl::Add`: the response it writes, and how often it runs `done`
(`done` tells whether a closure was supplied). -/
def MySampleRpcImpl.Add (request : protos.AddRequest) (done : Bool) :
    protos.AddResponse × Nat :=
  ({ sum := wrapInt32 (request.a + request.b) }, if done then 1 else 0)

/-- Class `MySampleRpcImpl` behind the interface `protos::SampleRpc`, called with a closure. -/
def MySampleRpcImpl : SampleRpc where
  Echo := fun request => some (MySampleRpcImpl.Echo request true).1
  Add := fun request => some (MySampleRpcImpl.Add request true).1

/-- What a handler of `registerRpcService` does, in order: calls of the service
implementation and calls of `vsomeip_app_->send`. -/
inductive ServerEffect
  | invoke_Echo (request : protos.EchoRequest)
  | invoke_Add (request : protos.AddRequest)
  | send (msg : Message)
  deriving DecidableEq, Repr

/-- The messages a handler passed to `send`, in order. -/
def sentByHandler : List ServerEffect → List Message
  | [] => []
  | .send msg :: rest => msg :: sentByHandler rest
  | _ :: rest => sentByHandler rest

/-- The fault reply of the handlers: `create_response(req_msg)` with
`set_return_code(E_MALFORMED_MESSAGE)`. -/
def CommunicationManager.malformed_reply (rt : Runtime) (req_msg : Message) : Message :=
  { rt.create_response req_msg with return_code := .E_MALFORMED_MESSAGE }

/-- The closure `dummy_done` of the Echo handler (`communication_manager.cpp` lines 220-240). -/
def CommunicationManager.Echo_done (pb : Protos) (rt : Runtime) (req_msg : Message)
    (response : protos.EchoResponse) : List ServerEffect :=
  match pb.EchoResponse.SerializeToString response with
  | none => [.send { rt.create_response req_msg with return_code := .E_SERIALIZATION }]
  | some serialized_response =>
    [.send { rt.create_response req_msg with payload := some serialized_response }]

/-- The handler `registerRpcService` installs for `METHOD_ID_ECHO`. -/
def CommunicationManager.Echo_handler (pb : Protos) (rt : Runtime) (service_impl : SampleRpc)
    (req_msg : Message) : List ServerEffect :=
  match req_msg.payload with
  | none => [.send (CommunicationManager.malformed_reply rt req_msg)]
  | some data =>
    if data.length > 0 then
      match pb.EchoRequest.ParseFromArray data with
      | none => [.send (CommunicationManager.malformed_reply rt req_msg)]
      | some request =>
        .invoke_Echo request ::
          (match service_impl.Echo request with
           | some response => CommunicationManager.Echo_done pb rt req_msg response
           | none => [])
    else [.send (CommunicationManager.malformed_reply rt req_msg)]

/-- The closure `dummy_done` of the Add handler (`communication_manager.cpp` lines 272-290). -/
def CommunicationManager.Add_done (pb : Protos) (rt : Runtime) (req_msg : Message)
    (response : protos.AddResponse) : List ServerEffect :=
  match pb.AddResponse.SerializeToString response with
  | none => [.send { rt.create_response req_msg with return_code := .E_SERIALIZATION }]
  | some serialized_response =>
    [.send { rt.create_response req_msg with payload := some serialized_response }]

/-- The handler `registerRpcService` installs for `METHOD_ID_ADD`. -/
def CommunicationManager.Add_handler (pb : Protos) (rt : Runtime) (service_impl : SampleRpc)
    (req_msg : Message) : List ServerEffect :=
  match req_msg.payload with
  | none => [.send (CommunicationManager.malformed_reply rt req_msg)]
  | some data =>
    if data.length > 0 then
      match pb.AddRequest.ParseFromArray data with
      | none => [.send (CommunicationManager.malformed_reply rt req_msg)]
      | some request =>
        .invoke_Add request ::
          (match service_impl.Add request with
           | some response => CommunicationManager.Add_done pb rt req_msg response
           | none => [])
    else [.send (CommunicationManager.malformed_reply rt req_msg)]

/-- The Add exchange of `rpc_client_test.cpp` (`make_add_call`) against
`rpc_server_test.cpp`: the client calls `Add`, every request that call put on the wire is
handled by the Add handler of a server whose application object is `server`, and every
message the handler sends is delivered, in its wire form, to the client's
`onMessageReceived`. The outcome lists the resolutions of the call and of the deliveries. -/
def Add_round_trip (pb : Protos) (rt : Runtime) (service_impl : SampleRpc)
    (server : Application) (c : RpcClient) (promise : Nat) (request : protos.AddRequest) :
    Outcome :=
  let call := c.Add pb rt promise request
  let requests := call.client.sent.drop c.sent.length
  let replies := requests.flatMap fun req_msg =>
    (sentByHandler (CommunicationManager.Add_handler pb rt service_impl req_msg)).map server.wire
  let delivered := call.client.deliver pb replies
  { client := delivered.client, resolved := call.resolved ++ delivered.resolved }

/-! ## A concrete codec for evaluating the definitions

The generated protobuf code is not part of the repository. `wire_codec` follows the
protobuf wire format with proto3 field presence: a field is written as its tag followed
by its value, and a field holding its default value (0, the empty string) is not written
at all, so a message of default values is encoded as zero bytes. -/

/-- Base-128 varint of `n`, least significant group first (`fuel` bounds the groups). -/
def WireCodec.varint : Nat → Nat → List Nat
  | 0, _ => []
  | fuel + 1, n => if n < 128 then [n] else (n % 128 + 128) :: WireCodec.varint fuel (n / 128)

/-- Reads one varint from the front of the bytes. -/
def WireCodec.read_varint : List Nat → Option (Nat × List Nat)
  | [] => none
  | b :: rest =>
    if b < 128 then some (b, rest)
    else
      match WireCodec.read_varint rest with
      | some (v, rest₁) => some (b - 128 + 128 * v, rest₁)
      | none => none

/-- An `int32` field value as a varint: the 64-bit two's complement of the value. -/
def WireCodec.int32_field (tag : Nat) (x : Int) : List Nat :=
  if x = 0 then [] else tag :: WireCodec.varint 10 (x % 2 ^ 64).toNat

/-- The `int32` a varint value stands for. -/
def WireCodec.to_int32 (v : Nat) : Int := wrapInt32 (v % 2 ^ 32 : Nat)

/-- A `string` field: tag, length, then one byte per character (the characters of the
messages evaluated here are ASCII). -/
def WireCodec.string_field (tag : Nat) (s : String) : List Nat :=
  if s.data = [] then []
  else tag :: (WireCodec.varint 10 s.data.length ++ s.data.map Char.toNat)

/-- Parses the fields of a message of `int32` fields with tags `8` (field 1) and `16`
(field 2); yields the two field values. -/
def WireCodec.parse_int32s : Nat → List Nat → Int × Int → Option (Int × Int)
  | 0, bytes, acc => if bytes = [] then some acc else none
  | _ + 1, [], acc => some acc
  | fuel + 1, tag :: rest, acc =>
    match WireCodec.read_varint rest with
    | none => none
    | some (v, rest₁) =>
      if tag = 8 then WireCodec.parse_int32s fuel rest₁ (WireCodec.to_int32 v, acc.2)
      else if tag = 16 then WireCodec.parse_int32s fuel rest₁ (acc.1, WireCodec.to_int32 v)
      else none

/-- Parses a message with one `string` field with tag `10` (field 1). -/
def WireCodec.parse_string (bytes : List Nat) : Option String :=
  match bytes with
  | [] => some ""
  | tag :: rest =>
    if tag = 10 then
      match WireCodec.read_varint rest with
      | some (len, body) =>
        if body.length = len then some (String.mk (body.map Char.ofNat)) else none
      | none => none
    else none

/-- The codec used to evaluate the definitions on concrete inputs. -/
def wire_codec : Protos where
  EchoRequest :=
    { SerializeToString := fun m => some (WireCodec.string_field 10 m.request_message)
      ParseFromArray := fun bytes => (WireCodec.parse_string bytes).map fun s => ⟨s⟩ }
  EchoResponse :=
    { SerializeToString := fun m => some (WireCodec.string_field 10 m.response_message)
      ParseFromArray := fun bytes => (WireCodec.parse_string bytes).map fun s => ⟨s⟩ }
  AddRequest :=
    { SerializeToString := fun m =>
        some (WireCodec.int32_field 8 m.a ++ WireCodec.int32_field 16 m.b)
      ParseFromArray := fun bytes =>
        (WireCodec.parse_int32s bytes.length bytes (0, 0)).map fun p => ⟨p.1, p.2⟩ }
  AddResponse :=
    { SerializeToString := fun m => some (WireCodec.int32_field 8 m.sum)
      ParseFromArray := fun bytes =>
        (WireCodec.parse_int32s bytes.length bytes (0, 0)).map fun p => ⟨p.1⟩ }

/-- The client of `rpc_client_test.cpp` (service 0x2222, instance 1) on an application
whose caller-id is 7 and whose next exchange-id is 41, once the service is available. -/
def test_client : RpcClient :=
  (RpcClient.new "SampleRpc" (some { client := 7, session := 41, calls := [] }) 0x2222 0x0001 0
    ).onAvailabilityChanged 0x2222 0x0001 true

/-- The application object of the server of `rpc_server_test.cpp`. -/
def test_server : Application := { client := 9, session := 1, calls := [] }

/-- The client `test_client` with one outstanding Add call, promise 0, under the key `(7, 41)`. -/
def pending_client : RpcClient := test_client.registerPromise .AddResponse 7 41 0

/-- The request `Add(10, 32)` of the exchange `(7, 41)` as it arrives at the server. -/
def request_7_41 : Message :=
  { service := 0x2222, instance_ := 0x0001, method := METHOD_ID_ADD, client := 7, session := 41,
    message_type := .MT_REQUEST, return_code := .E_OK, payload := some [8, 10, 16, 32] }

/-- A reply to the exchange `(7, 41)` carrying `sum = 42`. -/
def reply_7_41 : Message :=
  { service := 0x2222, instance_ := 0x0001, method := METHOD_ID_ADD, client := 7, session := 41,
    message_type := .MT_RESPONSE, return_code := .E_OK, payload := some [8, 42] }

/-! ## Publisher (`publisher.cpp`) -/

namespace protos

/-- Message `SimpleNotification` of `common_messages.proto` (`id` is unsigned). -/
structure SimpleNotification where
  id : Nat
  message_content : String
  timestamp : Int
  deriving DecidableEq, Repr

end protos

/-- The data members of `class Publisher`. `vsomeip_app_` is `none` for a null handle and
otherwise holds the content of the application object behind the handle. -/
structure Publisher where
  topic_name_ : String
  vsomeip_app_ : Option Application
  service_id_ : Nat
  instance_id_ : Nat
  event_id_or_group_ : Nat
  is_eventgroup_ : Bool
  is_offered_ : Bool
  deriving DecidableEq, Repr

/-- The four ways `publishGeneric` returns: `published` is `return true`; the other three
are the `return false` statements, in the order of the source (null handle, offer failed,
serialization failed). -/
inductive PublishResult
  | published
  | no_application
  | not_offered
  | serialize_failed
  deriving DecidableEq, Repr

/-- The `bool` that `publishGeneric` returns. -/
def PublishResult.toBool : PublishResult → Bool
  | .published => true
  | _ => false

/-- What a call of `publish` / `publishGeneric` leaves behind. -/
structure PublishOutcome where
  publisher : Publisher
  result : PublishResult
  deriving DecidableEq, Repr

/-- Method `Publisher::offer`. The constant argument `ET_EVENT` of `offer_event` is left out. -/
def Publisher.offer (p : Publisher) : Publisher :=
  match p.vsomeip_app_ with
  | none => p
  | some app =>
    if p.is_offered_ then p
    else
      let event_groups : List Nat := if p.is_eventgroup_ then [p.event_id_or_group_] else []
      { p with
        vsomeip_app_ := some (app.call
          (.offer_event p.service_id_ p.instance_id_ p.event_id_or_group_ event_groups))
        is_offered_ := true }

/-- Constructor `Publisher::Publisher`. -/
def Publisher.new (topic_name : String) (app : Option Application)
    (service_id instance_id eventgroup_id_or_event_id : Nat) (is_eventgroup : Bool) : Publisher :=
  let p : Publisher :=
    { topic_name_ := topic_name, vsomeip_app_ := app, service_id_ := service_id,
      instance_id_ := instance_id, event_id_or_group_ := eventgroup_id_or_event_id,
      is_eventgroup_ := is_eventgroup, is_offered_ := false }
  match app with
  | none => p
  | some _ => p.offer

/-- Destructor `Publisher::~Publisher` (its body). -/
def Publisher.destructor (p : Publisher) : Publisher :=
  match p.vsomeip_app_ with
  | some app =>
    if p.is_offered_ then
      { p with
        vsomeip_app_ := some (app.call
          (.stop_offer_event p.service_id_ p.instance_id_ p.event_id_or_group_))
        is_offered_ := false }
    else p
  | none => p

/-- Method `Publisher::publishGeneric`. The message is given by what its
`SerializeToString` yields (`none` when it returns false); the constant argument
`UNRELIABLE` of `fire_event` / `notify` is left out. The handle is read again after `offer`,
which never changes whether it is null, so the inner `none` case does not occur. -/
def Publisher.publishGeneric (p : Publisher) (serialized : Option (List Nat)) : PublishOutcome :=
  match p.vsomeip_app_ with
  | none => { publisher := p, result := .no_application }
  | some _ =>
    let p₁ := if !p.is_offered_ then p.offer else p
    if !p₁.is_offered_ then { publisher := p₁, result := .not_offered }
    else
      match serialized with
      | none => { publisher := p₁, result := .serialize_failed }
      | some serialized_data =>
        match p₁.vsomeip_app_ with
        | none => { publisher := p₁, result := .no_application }
        | some app₁ =>
          if p₁.is_eventgroup_ then
            { publisher := { p₁ with vsomeip_app_ := some (app₁.call
                (.fire_event p₁.service_id_ p₁.instance_id_ p₁.event_id_or_group_
                  serialized_data)) },
              result := .published }
          else
            { publisher := { p₁ with vsomeip_app_ := some (app₁.call
                (.notify p₁.service_id_ p₁.instance_id_ p₁.event_id_or_group_
                  serialized_data)) },
              result := .published }

/-- Method `Publisher::publish`. -/
def Publisher.publish (pb : Proto protos.SimpleNotification) (p : Publisher)
    (message : protos.SimpleNotification) : PublishOutcome :=
  p.publishGeneric (pb.SerializeToString message)

/-- Method `Publisher::isOffered`. -/
def Publisher.isOffered (p : Publisher) : Bool := p.is_offered_

/-- The calls issued so far on the publisher's application handle (none for a null handle). -/
def Publisher.calls (p : Publisher) : List AppCall :=
  match p.vsomeip_app_ with
  | none => []
  | some app => app.calls

/-- Whether a call is an `offer_event`. -/
def AppCall.is_offer_event : AppCall → Bool
  | .offer_event _ _ _ _ => true
  | _ => false

/-- Whether a call is a `fire_event` or a `notify`. -/
def AppCall.is_event_send : AppCall → Bool
  | .fire_event _ _ _ _ => true
  | .notify _ _ _ _ => true
  | _ => false

/-- The publisher after a sequence of `publishGeneric` calls, each given by what the
serialization of its message yields. -/
def Publisher.run (p : Publisher) (messages : List (Option (List Nat))) : Publisher :=
  messages.foldl (fun q serialized => (q.publishGeneric serialized).publisher) p

/-! ## Subscriber (`subscriber.cpp`) -/

/-- The data members of `class Subscriber`. A callback (`std::function`) is `none` when
empty and otherwise named by a number; `subscribed_eventgroups_` is the `std::set` of
eventgroups, in increasing order. -/
structure Subscriber where
  topic_name_ : String
  vsomeip_app_ : Option Application
  service_id_ : Nat
  instance_id_ : Nat
  event_id_or_group_ : Nat
  is_eventgroup_ : Bool
  notification_callback_ : Option Nat
  generic_callback_ : Option Nat
  is_subscribed_ : Bool
  service_available_ : Bool
  subscribed_eventgroups_ : List Nat
  deriving DecidableEq, Repr

/-- One call of a callback by the subscriber. -/
inductive CallbackCall
  | notification (callback : Nat) (message : protos.SimpleNotification)
  | generic (callback : Nat) (topic_name : String) (message : protos.SimpleNotification)
  deriving DecidableEq, Repr

/-- What `subscribe`, `subscribeGeneric` and `unsubscribe` leave behind: the subscriber
and the `bool` returned. -/
structure SubscribeOutcome where
  subscriber : Subscriber
  result : Bool
  deriving DecidableEq, Repr

/-- What `onMessageReceived` leaves behind: the subscriber and the callbacks it called. -/
structure DispatchOutcome where
  subscriber : Subscriber
  called : List CallbackCall
  deriving DecidableEq, Repr

/-- Constructor `Subscriber::Subscriber`. -/
def Subscriber.new (topic_name : String) (app : Option Application)
    (service_id instance_id event_id_or_group : Nat) (is_eventgroup : Bool) : Subscriber :=
  let s : Subscriber :=
    { topic_name_ := topic_name, vsomeip_app_ := app, service_id_ := service_id,
      instance_id_ := instance_id, event_id_or_group_ := event_id_or_group,
      is_eventgroup_ := is_eventgroup, notification_callback_ := none,
      generic_callback_ := none, is_subscribed_ := false, service_available_ := false,
      subscribed_eventgroups_ := [] }
  match app with
  | none => s
  | some _ =>
    if is_eventgroup then { s with subscribed_eventgroups_ := [event_id_or_group] } else s

/-- The three transport calls of a first `subscribe` / `subscribeGeneric`, in order. The
constant argument `ET_EVENT` of `request_event` is left out. -/
def Subscriber.register (s : Subscriber) (app : Application) : Application :=
  let app₁ := app.call (.register_availability_handler s.service_id_ s.instance_id_)
  let app₂ := app₁.call
    (.register_message_handler s.service_id_ s.instance_id_ s.event_id_or_group_)
  if s.is_eventgroup_ then
    app₂.call (.request_event s.service_id_ s.instance_id_ s.event_id_or_group_
      s.subscribed_eventgroups_)
  else
    app₂.call (.request_event s.service_id_ s.instance_id_ s.event_id_or_group_ [])

/-- Method `Subscriber::subscribe`. -/
def Subscriber.subscribe (s : Subscriber) (callback : Option Nat) : SubscribeOutcome :=
  match s.vsomeip_app_ with
  | none => { subscriber := s, result := false }
  | some app =>
    if s.is_subscribed_ then
      { subscriber := { s with notification_callback_ := callback, generic_callback_ := none },
        result := true }
    else
      let s₁ := { s with notification_callback_ := callback, generic_callback_ := none }
      { subscriber := { s₁ with vsomeip_app_ := some (s₁.register app), is_subscribed_ := true },
        result := true }

/-- Method `Subscriber::subscribeGeneric`. -/
def Subscriber.subscribeGeneric (s : Subscriber) (callback : Option Nat) : SubscribeOutcome :=
  match s.vsomeip_app_ with
  | none => { subscriber := s, result := false }
  | some app =>
    if s.is_subscribed_ then
      { subscriber := { s with generic_callback_ := callback, notification_callback_ := none },
        result := true }
    else
      let s₁ := { s with generic_callback_ := callback, notification_callback_ := none }
      { subscriber := { s₁ with vsomeip_app_ := some (s₁.register app), is_subscribed_ := true },
        result := true }

/-- Method `Subscriber::unsubscribe`. -/
def Subscriber.unsubscribe (s : Subscriber) : SubscribeOutcome :=
  match s.vsomeip_app_ with
  | none => { subscriber := s, result := !s.is_subscribed_ }
  | some app =>
    if !s.is_subscribed_ then { subscriber := s, result := true }
    else
      let app₁ := app.call
        (.unregister_message_handler s.service_id_ s.instance_id_ s.event_id_or_group_)
      let app₂ :=
        if s.is_eventgroup_ then
          app₁.call (.release_event s.service_id_ s.instance_id_ s.event_id_or_group_
            s.subscribed_eventgroups_)
        else
          app₁.call (.release_event s.service_id_ s.instance_id_ s.event_id_or_group_ [])
      let app₃ := app₂.call (.unregister_availability_handler s.service_id_ s.instance_id_)
      { subscriber := { s with
          vsomeip_app_ := some app₃, notification_callback_ := none,
          generic_callback_ := none, is_subscribed_ := false, service_available_ := false },
        result := true }

/-- Destructor `Subscriber::~Subscriber` (its body). -/
def Subscriber.destructor (s : Subscriber) : Subscriber :=
  if s.is_subscribed_ ∧ s.vsomeip_app_.isSome then s.unsubscribe.subscriber else s

/-- Method `Subscriber::onAvailabilityChanged`. -/
def Subscriber.onAvailabilityChanged (s : Subscriber) (service instance_ : Nat)
    (is_available : Bool) : Subscriber :=
  if service = s.service_id_ ∧ instance_ = s.instance_id_ then
    { s with service_available_ := is_available }
  else s

/-- The event id `msg->get_event()` reads: the id in the method field of the message. -/
def Message.get_event (msg : Message) : Nat := msg.method

/-- Method `Subscriber::onMessageReceived`. -/
def Subscriber.onMessageReceived (pb : Proto protos.SimpleNotification) (s : Subscriber)
    (msg : Message) : DispatchOutcome :=
  if msg.service = s.service_id_ ∧
      (s.is_eventgroup_ = true ∨ msg.get_event = s.event_id_or_group_) then
    match msg.payload with
    | none => { subscriber := s, called := [] }
    | some data =>
      if data.length = 0 then { subscriber := s, called := [] }
      else
        match s.notification_callback_ with
        | some notification_callback =>
          match pb.ParseFromArray data with
          | some notification =>
            { subscriber := s, called := [.notification notification_callback notification] }
          | none => { subscriber := s, called := [] }
        | none => { subscriber := s, called := [] }
  else { subscriber := s, called := [] }

/-- Method `Subscriber::isSubscribed`. -/
def Subscriber.isSubscribed (s : Subscriber) : Bool := s.is_subscribed_

/-- The calls issued so far on the subscriber's application handle (none for a null handle). -/
def Subscriber.calls (s : Subscriber) : List AppCall :=
  match s.vsomeip_app_ with
  | none => []
  | some app => app.calls

/-- One thing a subscriber can be asked to do between its construction and its destruction. -/
inductive SubscriberEvent
  | subscribe (callback : Option Nat)
  | subscribeGeneric (callback : Option Nat)
  | unsubscribe
  | onAvailabilityChanged (service instance_ : Nat) (is_available : Bool)
  | onMessageReceived (msg : Message)
  deriving DecidableEq, Repr

/-- The subscriber after one event. -/
def Subscriber.step (pb : Proto protos.SimpleNotification) (s : Subscriber) :
    SubscriberEvent → Subscriber
  | .subscribe callback => (s.subscribe callback).subscriber
  | .subscribeGeneric callback => (s.subscribeGeneric callback).subscriber
  | .unsubscribe => s.unsubscribe.subscriber
  | .onAvailabilityChanged service instance_ is_available =>
    s.onAvailabilityChanged service instance_ is_available
  | .onMessageReceived msg => (s.onMessageReceived pb msg).subscriber

/-- The subscriber after a sequence of events, first event first. -/
def Subscriber.run (pb : Proto protos.SimpleNotification) (s : Subscriber)
    (events : List SubscriberEvent) : Subscriber :=
  events.foldl (Subscriber.step pb) s

/-- Whether a call is a `register_availability_handler`. -/
def AppCall.is_register_availability_handler : AppCall → Bool
  | .register_availability_handler _ _ => true
  | _ => false

/-- Whether a call is a `register_message_handler`. -/
def AppCall.is_register_message_handler : AppCall → Bool
  | .register_message_handler _ _ _ => true
  | _ => false

/-- Whether a call is a `request_event`. -/
def AppCall.is_request_event : AppCall → Bool
  | .request_event _ _ _ _ => true
  | _ => false

/-- Whether a call is a `release_event`. -/
def AppCall.is_release_event : AppCall → Bool
  | .release_event _ _ _ _ => true
  | _ => false

/-! ## Concrete inputs for the publisher and the subscriber -/

/-- Parses the fields of a `SimpleNotification`: tag `8` is `id` (varint), tag `18` is
`message_content` (length, then one byte per character), tag `24` is `timestamp`
(varint, 64-bit two's complement). -/
def WireCodec.parse_notification :
    Nat → List Nat → protos.SimpleNotification → Option protos.SimpleNotification
  | 0, bytes, acc => if bytes = [] then some acc else none
  | _ + 1, [], acc => some acc
  | fuel + 1, tag :: rest, acc =>
    match WireCodec.read_varint rest with
    | none => none
    | some (v, rest₁) =>
      if tag = 8 then
        WireCodec.parse_notification fuel rest₁ { acc with id := v % 2 ^ 32 }
      else if tag = 24 then
        WireCodec.parse_notification fuel rest₁
          { acc with timestamp := ((v % 2 ^ 64 + 2 ^ 63) % 2 ^ 64 : Nat) - 2 ^ 63 }
      else if tag = 18 then
        if v ≤ rest₁.length then
          WireCodec.parse_notification fuel (rest₁.drop v)
            { acc with message_content := String.mk ((rest₁.take v).map Char.ofNat) }
        else none
      else none

/-- The codec of `SimpleNotification` used to evaluate the definitions on concrete inputs;
like `wire_codec`, it writes no byte for a field that holds its default value. -/
def notification_codec : Proto protos.SimpleNotification where
  SerializeToString := fun m =>
    some ((if m.id = 0 then [] else 8 :: WireCodec.varint 10 m.id) ++
      WireCodec.string_field 18 m.message_content ++
      WireCodec.int32_field 24 m.timestamp)
  ParseFromArray := fun bytes =>
    WireCodec.parse_notification bytes.length bytes
      { id := 0, message_content := "", timestamp := 0 }

/-- The application object of `publisher_test.cpp` / `subscriber_test.cpp`. -/
def test_app : Application := { client := 0x0101, session := 1, calls := [] }

/-- The publisher of `publisher_test.cpp`: topic "TestTopic", service 0x1111, instance 1,
eventgroup 0x9100. -/
def test_publisher : Publisher :=
  Publisher.new "TestTopic" (some test_app) 0x1111 0x0001 0x9100 true

/-- The same publisher constructed with a null application handle. -/
def null_publisher : Publisher := Publisher.new "TestTopic" none 0x1111 0x0001 0x9100 true

/-- The subscriber of `subscriber_test.cpp` as constructed: topic "TestTopic", service
0x1111, instance 1, eventgroup 0x9100. -/
def test_subscriber : Subscriber :=
  Subscriber.new "TestTopic" (some test_app) 0x1111 0x0001 0x9100 true

/-- The subscriber of `subscriber_test.cpp` after `subscribe` with the callback 1. -/
def subscribed_subscriber : Subscriber := (test_subscriber.subscribe (some 1)).subscriber

/-- A subscriber bound to the single event 0x8001 of service 0x1111, instance 1, after
`subscribe` with the callback 1. -/
def event_subscriber : Subscriber :=
  ((Subscriber.new "TestTopic" (some test_app) 0x1111 0x0001 0x8001 false).subscribe
    (some 1)).subscriber

/-- The notification with `id = 3` and the content "Hi". -/
def notification_3 : protos.SimpleNotification :=
  { id := 3, message_content := "Hi", timestamp := 0 }

/-- A message of service 0x1111, instance 1, event 0x8001 that carries `notification_3`. -/
def notification_message : Message :=
  { service := 0x1111, instance_ := 0x0001, method := 0x8001, client := 0, session := 0,
    message_type := .MT_NOTIFICATION, return_code := .E_OK,
    payload := some [8, 3, 18, 2, 72, 105] }

/-! ## Predicates used to state the properties -/

/-- Whether an effect of a handler is a call of the service implementation. -/
def ServerEffect.is_invoke : ServerEffect → Bool
  | .invoke_Echo _ => true
  | .invoke_Add _ => true
  | .send _ => false

/-- A publisher that is offered holds a transport handle (true after construction and
kept by `publishGeneric`). -/
def Publisher.LiveWhenOffered (p : Publisher) : Prop :=
  p.is_offered_ = true → p.vsomeip_app_.isSome = true

/-- A subscriber that is subscribed holds a transport handle (true after construction and
kept by every operation). -/
def Subscriber.LiveWhenSubscribed (s : Subscriber) : Prop :=
  s.is_subscribed_ = true → s.vsomeip_app_.isSome = true

/-- Two subscribers agree on what the constructor fixes: topic, endpoint, binding, the
set of eventgroups, and whether the handle is null. -/
def Subscriber.SameBinding (s t : Subscriber) : Prop :=
  s.topic_name_ = t.topic_name_ ∧ s.service_id_ = t.service_id_ ∧
  s.instance_id_ = t.instance_id_ ∧ s.event_id_or_group_ = t.event_id_or_group_ ∧
  s.is_eventgroup_ = t.is_eventgroup_ ∧
  s.subscribed_eventgroups_ = t.subscribed_eventgroups_ ∧
  s.vsomeip_app_.isSome = t.vsomeip_app_.isSome

/-- Two publishers agree on what the constructor fixes: topic, endpoint and binding. -/
def Publisher.SameBinding (p q : Publisher) : Prop :=
  p.topic_name_ = q.topic_name_ ∧ p.service_id_ = q.service_id_ ∧
  p.instance_id_ = q.instance_id_ ∧ p.event_id_or_group_ = q.event_id_or_group_ ∧
  p.is_eventgroup_ = q.is_eventgroup_

/-- The number of `offer_event` calls among the calls. -/
def offerEventCount (calls : List AppCall) : Nat := (calls.filter AppCall.is_offer_event).length

/-- What holds of a publisher constructed on a live handle `app`, at every point of its
life before destruction: it holds a handle, it is offered, its binding is the one it
was constructed with, and it has issued one `offer_event` more than `app` had seen. -/
def Publisher.OfferedOnce (app : Application) (origin p : Publisher) : Prop :=
  p.vsomeip_app_.isSome = true ∧ p.is_offered_ = true ∧ p.SameBinding origin ∧
  offerEventCount p.calls = offerEventCount app.calls + 1

/-- The promises held by the entries of the table. -/
def PendingMap.promises (m : PendingMap) : List Nat := m.entries.map fun e => e.2.promise

/-- The entry a call registers: the response type of the method and the promise of the
call (`none` for an event that is not a call). -/
def ClientEvent.context : ClientEvent → Option PromiseContext
  | .Echo promise _ => some ⟨.EchoResponse, promise⟩
  | .Add promise _ => some ⟨.AddResponse, promise⟩
  | _ => none

/-- Whether the request of a call is encoded by `SerializeToString`. -/
def ClientEvent.encodes (pb : Protos) : ClientEvent → Bool
  | .Echo _ request => (pb.EchoRequest.SerializeToString request).isSome
  | .Add _ request => (pb.AddRequest.SerializeToString request).isSome
  | _ => false

/-- Whether a call is an `unregister_message_handler`. -/
def AppCall.is_unregister_message_handler : AppCall → Bool
  | .unregister_message_handler _ _ _ => true
  | _ => false

/-- Whether a call is an `unregister_availability_handler`. -/
def AppCall.is_unregister_availability_handler : AppCall → Bool
  | .unregister_availability_handler _ _ => true
  | _ => false

/-- The number of calls of one kind among the calls. -/
def callCount (kind : AppCall → Bool) (calls : List AppCall) : Nat := (calls.filter kind).length

/-- The calls the subscriber itself has issued, `base` being the calls its handle had
already seen when the subscriber was constructed. -/
def Subscriber.ownCalls (base : List AppCall) (s : Subscriber) : List AppCall :=
  s.calls.drop base.length

/-- The subscriber's own registrations exceed its own releases by one when it is
subscribed and by none otherwise: for `request_event` against `release_event`, for the
message handler and for the availability handler. -/
def Subscriber.Balanced (base : List AppCall) (s : Subscriber) : Prop :=
  callCount AppCall.is_request_event (s.ownCalls base)
    = callCount AppCall.is_release_event (s.ownCalls base)
      + (if s.is_subscribed_ then 1 else 0) ∧
  callCount AppCall.is_register_message_handler (s.ownCalls base)
    = callCount AppCall.is_unregister_message_handler (s.ownCalls base)
      + (if s.is_subscribed_ then 1 else 0) ∧
  callCount AppCall.is_register_availability_handler (s.ownCalls base)
    = callCount AppCall.is_unregister_availability_handler (s.ownCalls base)
      + (if s.is_subscribed_ then 1 else 0)

/-- The counts of `Subscriber.Balanced` for a given list of own calls. -/
def balancedCalls (own : List AppCall) (subscribed : Bool) : Prop :=
  callCount AppCall.is_request_event own
    = callCount AppCall.is_release_event own + (if subscribed then 1 else 0) ∧
  callCount AppCall.is_register_message_handler own
    = callCount AppCall.is_unregister_message_handler own + (if subscribed then 1 else 0) ∧
  callCount AppCall.is_register_availability_handler own
    = callCount AppCall.is_unregister_availability_handler own
      + (if subscribed then 1 else 0)

/-- The calls of the subscriber are `base` followed by balanced own calls. -/
def Subscriber.BalancedFrom (base : List AppCall) (s : Subscriber) : Prop :=
  ∃ own, s.calls = base ++ own ∧ balancedCalls own s.is_subscribed_

/-- At most one of the two callbacks of a subscriber is bound. -/
def Subscriber.AtMostOneCallback (s : Subscriber) : Prop :=
  s.notification_callback_ = none ∨ s.generic_callback_ = none

/-- Whether a callback call is a call of a generic callback. -/
def CallbackCall.is_generic : CallbackCall → Bool
  | .generic _ _ _ => true
  | .notification _ _ => false

/-! ## CommunicationManager (`communication_manager.cpp`): caches, registration, shutdown

The manager owns the application object; a component it creates shares it. In a cached
component the field `vsomeip_app_` only tells whether the component's handle is null: the
content of the shared application object is the one the manager holds, and an operation of
a cached component is run on that content (`attach`). A cache shares each instance with the
callers that obtained it; whether a caller still holds one when `shutdown` runs is given
by `CacheClearing`. -/

/-- What the two-argument constructors `Publisher(topic, app)`, `Subscriber(topic, app)`
and `RpcClient(name, app)` that the manager calls take for the identifiers. These
constructors are not declared in the headers of the repository, so the identifiers they
use are a parameter. -/
structure Bindings where
  publisher : String → Nat × Nat × Nat × Bool
  subscriber : String → Nat × Nat × Nat × Bool
  rpc_client : String → Nat × Nat

/-- The data members of `class CommunicationManager`. A `std::map` keyed by name is a list
of entries; a service implementation (`shared_ptr<protos::SampleRpc>`) is named by a
number. The member `rpc_service_registry_`, which `shutdown` clears, is not declared in
the header of the repository and no operation adds to it. -/
structure CommunicationManager where
  is_initialized_ : Bool
  app_name_ : String
  vsomeip_app_ : Option Application
  publisher_cache_ : List (String × Publisher)
  subscriber_cache_ : List (String × Subscriber)
  rpc_client_cache_ : List (String × RpcClient)
  actual_rpc_services_ : List (String × Nat)
  rpc_service_registry_ : List (String × Nat)
  deriving DecidableEq

/-- Method `map::find(name)` on a cache: the entry stored under `name`, if any. -/
def cacheFind {α : Type} (name : String) (cache : List (String × α)) : Option α :=
  (cache.find? fun e => decide (e.1 = name)).map Prod.snd

/-- The assignment `cache[name] = value`: the value under `name` is replaced when the
name is present, and a new entry is made otherwise. -/
def cacheAssign {α : Type} (name : String) (value : α) (cache : List (String × α)) :
    List (String × α) :=
  if (cache.find? fun e => decide (e.1 = name)).isSome then
    cache.map fun e => if e.1 = name then (name, value) else e
  else cache ++ [(name, value)]

/-- Constructor `CommunicationManager::CommunicationManager`. -/
def CommunicationManager.new : CommunicationManager :=
  { is_initialized_ := false, app_name_ := "", vsomeip_app_ := none, publisher_cache_ := [],
    subscriber_cache_ := [], rpc_client_cache_ := [], actual_rpc_services_ := [],
    rpc_service_registry_ := [] }

/-- Method `CommunicationManager::init`. `created` is what `create_application` returns
(`none` for a null pointer) and `init_ok` is what `init()` of the application returns;
the configuration path is only logged. -/
def CommunicationManager.init (m : CommunicationManager) (app_name : String)
    (created : Option Application) (init_ok : Bool) : CommunicationManager × Bool :=
  if m.is_initialized_ then (m, true)
  else
    match created with
    | none => ({ m with app_name_ := app_name, vsomeip_app_ := none }, false)
    | some app =>
      if !init_ok then
        ({ m with app_name_ := app_name, vsomeip_app_ := none }, false)
      else
        ({ m with app_name_ := app_name,
                  vsomeip_app_ := some ((app.call .init).call .start),
                  is_initialized_ := true }, true)

/-- Method `CommunicationManager::getVsomeipApplication`. -/
def CommunicationManager.getVsomeipApplication (m : CommunicationManager) :
    Option Application := m.vsomeip_app_

/-- Method `CommunicationManager::getPublisher`. -/
def CommunicationManager.getPublisher (cfg : Bindings) (m : CommunicationManager)
    (topic_name : String) : CommunicationManager × Option Publisher :=
  if !m.is_initialized_ || m.vsomeip_app_.isNone then (m, none)
  else
    match cacheFind topic_name m.publisher_cache_ with
    | some publisher => (m, some publisher)
    | none =>
      let ids := cfg.publisher topic_name
      let publisher := Publisher.new topic_name m.vsomeip_app_ ids.1 ids.2.1 ids.2.2.1 ids.2.2.2
      ({ m with vsomeip_app_ := publisher.vsomeip_app_,
                publisher_cache_ := cacheAssign topic_name publisher m.publisher_cache_ },
        some publisher)

/-- Method `CommunicationManager::getSubscriber`. -/
def CommunicationManager.getSubscriber (cfg : Bindings) (m : CommunicationManager)
    (topic_name : String) : CommunicationManager × Option Subscriber :=
  if !m.is_initialized_ || m.vsomeip_app_.isNone then (m, none)
  else
    match cacheFind topic_name m.subscriber_cache_ with
    | some subscriber => (m, some subscriber)
    | none =>
      let ids := cfg.subscriber topic_name
      let subscriber :=
        Subscriber.new topic_name m.vsomeip_app_ ids.1 ids.2.1 ids.2.2.1 ids.2.2.2
      ({ m with vsomeip_app_ := subscriber.vsomeip_app_,
                subscriber_cache_ := cacheAssign topic_name subscriber m.subscriber_cache_ },
        some subscriber)

/-- Method `CommunicationManager::getRpcClient`. -/
def CommunicationManager.getRpcClient (cfg : Bindings) (m : CommunicationManager)
    (service_name : String) : CommunicationManager × Option RpcClient :=
  if !m.is_initialized_ || m.vsomeip_app_.isNone then (m, none)
  else
    match cacheFind service_name m.rpc_client_cache_ with
    | some client => (m, some client)
    | none =>
      let ids := cfg.rpc_client service_name
      let client := RpcClient.new service_name m.vsomeip_app_ ids.1 ids.2 0
      ({ m with vsomeip_app_ := client.vsomeip_app_,
                rpc_client_cache_ := cacheAssign service_name client m.rpc_client_cache_ },
        some client)

/-- Method `CommunicationManager::registerRpcService`: the implementation is stored, the
service is offered and the two handlers (`Echo_handler`, `Add_handler`) are registered.
`service_impl` is `none` for a null pointer. -/
def CommunicationManager.registerRpcService (m : CommunicationManager)
    (user_service_name : String) (service_id instance_id : Nat) (service_impl : Option Nat) :
    CommunicationManager :=
  match m.vsomeip_app_ with
  | none => m
  | some app =>
    if !m.is_initialized_ then m
    else
      match service_impl with
      | none => m
      | some impl =>
        let app₁ := app.call (.offer_service service_id instance_id)
        let app₂ := app₁.call (.register_message_handler service_id ANY_INSTANCE METHOD_ID_ECHO)
        let app₃ := app₂.call (.register_message_handler service_id ANY_INSTANCE METHOD_ID_ADD)
        { m with
          actual_rpc_services_ := cacheAssign user_service_name impl m.actual_rpc_services_
          vsomeip_app_ := some app₃ }

/-- One step of `shutdown`: the destruction of a cached instance (named by its cache and
its key), the clearing of `rpc_service_registry_`, or the stop of the application. -/
inductive TeardownStep
  | rpc_client (name : String)
  | subscriber (name : String)
  | publisher (name : String)
  | rpc_service_registry
  | stop
  deriving DecidableEq, Repr

/-- What the clearing of the caches depends on beyond the members of the manager. A cache
holds a `shared_ptr` to each instance and a getter hands out another one: `held_...` tells,
for the instance cached under a name, whether a caller still holds it when `shutdown`
runs; clearing the cache then only drops the reference of the cache ("will trigger their
destructors if their ref count becomes 0"). The order in which `std::map::clear()`
destroys the elements of a map is not fixed by the language: `order_...` gives it, as a
rearrangement of the entries. -/
structure CacheClearing where
  held_rpc_client : String → Bool
  held_subscriber : String → Bool
  held_publisher : String → Bool
  order_rpc_clients : List (String × RpcClient) → List (String × RpcClient)
  order_subscribers : List (String × Subscriber) → List (String × Subscriber)
  order_publishers : List (String × Publisher) → List (String × Publisher)
  perm_rpc_clients : ∀ cache, (order_rpc_clients cache).Perm cache
  perm_subscribers : ∀ cache, (order_subscribers cache).Perm cache
  perm_publishers : ∀ cache, (order_publishers cache).Perm cache

/-- What `shutdown` has done so far: the content of the shared application object and the
steps taken, oldest first. -/
structure Teardown where
  app : Application
  steps : List TeardownStep
  deriving DecidableEq

/-- The handle of a cached component on the current content of the shared application
object: null stays null. -/
def attach (handle : Option Application) (app : Application) : Option Application :=
  handle.map fun _ => app

/-- The content of the shared application object after a component ran on it. -/
def detach (handle : Option Application) (app : Application) : Application :=
  handle.getD app

/-- The call `rpc_client_cache_.clear()`, on the entries in the order of their removal:
the cache drops its reference to each client, and a client no caller holds is destroyed
at that point. -/
def destroyClients (held : String → Bool) (t : Teardown) :
    List (String × RpcClient) → Teardown
  | [] => t
  | (name, client) :: rest =>
    if held name then destroyClients held t rest
    else
      destroyClients held
        { app := detach ({ client with vsomeip_app_ := attach client.vsomeip_app_ t.app } :
            RpcClient).destructor.client.vsomeip_app_ t.app,
          steps := t.steps ++ [.rpc_client name] } rest

/-- The call `subscriber_cache_.clear()`, on the entries in the order of their removal. -/
def destroySubscribers (held : String → Bool) (t : Teardown) :
    List (String × Subscriber) → Teardown
  | [] => t
  | (name, subscriber) :: rest =>
    if held name then destroySubscribers held t rest
    else
      destroySubscribers held
        { app := detach ({ subscriber with
            vsomeip_app_ := attach subscriber.vsomeip_app_ t.app } :
            Subscriber).destructor.vsomeip_app_ t.app,
          steps := t.steps ++ [.subscriber name] } rest

/-- The call `publisher_cache_.clear()`, on the entries in the order of their removal. -/
def destroyPublishers (held : String → Bool) (t : Teardown) :
    List (String × Publisher) → Teardown
  | [] => t
  | (name, publisher) :: rest =>
    if held name then destroyPublishers held t rest
    else
      destroyPublishers held
        { app := detach ({ publisher with
            vsomeip_app_ := attach publisher.vsomeip_app_ t.app } :
            Publisher).destructor.vsomeip_app_ t.app,
          steps := t.steps ++ [.publisher name] } rest

/-- What `shutdown` leaves behind: the manager, the content of the application object the
manager held (it drops its handle at the end), and the steps it took, in order. -/
structure ShutdownOutcome where
  manager : CommunicationManager
  app : Option Application
  steps : List TeardownStep
  deriving DecidableEq

/-- Method `CommunicationManager::shutdown`. -/
def CommunicationManager.shutdown (env : CacheClearing) (m : CommunicationManager) :
    ShutdownOutcome :=
  match m.vsomeip_app_ with
  | none => { manager := m, app := none, steps := [] }
  | some app =>
    if !m.is_initialized_ then { manager := m, app := some app, steps := [] }
    else
      let t₁ := destroyClients env.held_rpc_client { app := app, steps := [] }
        (env.order_rpc_clients m.rpc_client_cache_)
      let t₂ := destroySubscribers env.held_subscriber t₁
        (env.order_subscribers m.subscriber_cache_)
      let t₃ := destroyPublishers env.held_publisher t₂
        (env.order_publishers m.publisher_cache_)
      let t₄ : Teardown := { t₃ with steps := t₃.steps ++ [.rpc_service_registry] }
      let t₅ : Teardown := { app := t₄.app.call .stop, steps := t₄.steps ++ [.stop] }
      { manager := { m with
          rpc_client_cache_ := [], subscriber_cache_ := [], publisher_cache_ := [],
          rpc_service_registry_ := [], vsomeip_app_ := none, is_initialized_ := false },
        app := some t₅.app,
        steps := t₅.steps }

/-- The identifiers of `publisher_test.cpp`, `subscriber_test.cpp` and
`rpc_client_test.cpp`: "TestTopic" is the eventgroup 0x9100 of service 0x1111, instance 1,
and an RPC client is for service 0x2222, instance 1. -/
def test_bindings : Bindings where
  publisher := fun _ => (0x1111, 0x0001, 0x9100, true)
  subscriber := fun _ => (0x1111, 0x0001, 0x9100, true)
  rpc_client := fun _ => (0x2222, 0x0001)

/-- The manager of the tests after a successful `init`. -/
def test_manager : CommunicationManager :=
  (CommunicationManager.new.init "CommsStackApp" (some test_app) true).1

/-- The manager of `rpc_server_test.cpp` after `registerRpcService("SampleRpc", 0x2222, 1,
impl)`, with the implementation named 1, and after a subscriber and a publisher for
"TestTopic" were obtained from it. -/
def server_manager : CommunicationManager :=
  (((test_manager.registerRpcService "SampleRpc" 0x2222 0x0001 (some 1)).getSubscriber
    test_bindings "TestTopic").1.getPublisher test_bindings "TestTopic").1

/-- The calls recorded on the application object the manager holds. -/
def CommunicationManager.calls (m : CommunicationManager) : List AppCall :=
  match m.vsomeip_app_ with
  | some app => app.calls
  | none => []

/-- The calls recorded on the application object when `shutdown` returns. -/
def ShutdownOutcome.calls (o : ShutdownOutcome) : List AppCall :=
  match o.app with
  | some app => app.calls
  | none => []

/-- The manager of `rpc_server_test.cpp` right after
`registerRpcService("SampleRpc", 0x2222, 1, impl)`, with the implementation named 1. -/
def registered_manager : CommunicationManager :=
  test_manager.registerRpcService "SampleRpc" 0x2222 0x0001 (some 1)

end comms_stack

/-! # Theorems -/

namespace comms_stack

/-! ## The correlation table -/

theorem PendingMap.ext_entries {m₁ m₂ : PendingMap} (h : m₁.entries = m₂.entries) : m₁ = m₂ := by
  cases m₁; cases m₂; simp_all

theorem PendingMap.find_erase_self (m : PendingMap) (key : ExchangeKey) :
    (m.erase key).find key = none := by
  simp only [PendingMap.find, PendingMap.erase, Option.map_eq_none']
  rw [List.find?_eq_none]
  intro e he
  have := (List.mem_filter.mp he).2
  simpa using this

theorem find_filter_of_imp {α : Type} (p q : α → Bool) (h : ∀ x, p x = true → q x = true)
    (l : List α) : (l.filter q).find? p = l.find? p := by
  induction l with
  | nil => rfl
  | cons x rest ih =>
    by_cases hq : q x = true
    · rw [List.filter_cons_of_pos hq, List.find?_cons, List.find?_cons, ih]
    · have hp : p x = false := by
        cases hpx : p x with
        | false => rfl
        | true => exact absurd (h x hpx) hq
      rw [List.filter_cons_of_neg hq, List.find?_cons, hp, ih]

theorem PendingMap.find_erase_of_ne (m : PendingMap) {key other : ExchangeKey}
    (h : other ≠ key) : (m.erase key).find other = m.find other := by
  simp only [PendingMap.find, PendingMap.erase]
  rw [find_filter_of_imp]
  intro e he
  have : e.1 = other := by simpa using he
  simpa [this] using h

theorem PendingMap.erase_of_find_none (m : PendingMap) {key : ExchangeKey}
    (h : m.find key = none) : m.erase key = m := by
  apply PendingMap.ext_entries
  simp only [PendingMap.find, Option.map_eq_none', List.find?_eq_none] at h
  simp only [PendingMap.erase]
  rw [List.filter_eq_self]
  intro e he
  simpa using h e he

theorem PendingMap.erase_erase (m : PendingMap) (key : ExchangeKey) :
    (m.erase key).erase key = m.erase key :=
  PendingMap.erase_of_find_none _ (PendingMap.find_erase_self m key)

theorem PendingMap.find_assign_self (m : PendingMap) (key : ExchangeKey) (ctx : PromiseContext) :
    (m.assign key ctx).find key = some ctx := by
  simp [PendingMap.find, PendingMap.assign]

theorem PendingMap.find_empty (key : ExchangeKey) : PendingMap.empty.find key = none := rfl

theorem PendingMap.size_erase_of_find (m : PendingMap) {key : ExchangeKey} {ctx : PromiseContext}
    (h : m.find key = some ctx) : (m.erase key).size + 1 = m.size := by
  obtain ⟨entries, nodup⟩ := m
  simp only [PendingMap.find, PendingMap.erase, PendingMap.size] at h ⊢
  induction entries with
  | nil => simp at h
  | cons e rest ih =>
    have hnd : e.1 ∉ rest.map Prod.fst ∧ (rest.map Prod.fst).Nodup := List.nodup_cons.mp nodup
    by_cases hk : e.1 = key
    · have hrest : rest.filter (fun e => decide (e.1 ≠ key)) = rest := by
        rw [List.filter_eq_self]
        intro x hx
        have : x.1 ≠ e.1 := fun hxe => hnd.1 (hxe ▸ List.mem_map_of_mem Prod.fst hx)
        simpa [hk] using this
      rw [List.filter_cons_of_neg (by simp [hk]), hrest]
      rfl
    · rw [List.find?_cons_of_neg _ (by simpa using hk)] at h
      rw [List.filter_cons_of_pos (by simpa using hk)]
      simpa using ih hnd.2 h

/-! ## RpcClient: inbound messages -/

theorem RpcClient.onMessageReceived_hit (pb : Protos) (c : RpcClient) (m : Message)
    (ctx : PromiseContext) (hclient : m.client = c.client_id_)
    (hkind : m.message_type = .MT_RESPONSE ∨ m.message_type = .MT_ERROR)
    (hfind : c.pending_requests_.find (c.client_id_, m.session) = some ctx) :
    c.onMessageReceived pb m =
      { client := { c with pending_requests_ := c.pending_requests_.erase (c.client_id_, m.session) },
        resolved := [(ctx.promise, responseParser pb ctx m)] } := by
  simp only [RpcClient.onMessageReceived, hclient, hkind, and_self, if_true, hfind]

theorem RpcClient.onMessageReceived_miss (pb : Protos) (c : RpcClient) (m : Message)
    (hfind : c.pending_requests_.find (c.client_id_, m.session) = none) :
    c.onMessageReceived pb m = { client := c, resolved := [] } := by
  unfold RpcClient.onMessageReceived
  split
  · simp only [hfind]
  · rfl

theorem RpcClient.onMessageReceived_other (pb : Protos) (c : RpcClient) (m : Message)
    (h : ¬ (m.client = c.client_id_ ∧
      (m.message_type = .MT_RESPONSE ∨ m.message_type = .MT_ERROR))) :
    c.onMessageReceived pb m = { client := c, resolved := [] } := by
  simp only [RpcClient.onMessageReceived, h, if_false]

/-- C1: a reply or fault with the client's own caller-id, delivered twice in a row. The
second delivery resolves nothing and leaves the client (hence the table) as the first
delivery left it. If the key was pending, the first delivery runs the stored operation of
that entry once, on the entry's own promise, and removes exactly that entry. -/
theorem onMessageReceived_exactly_once (pb : Protos) (c : RpcClient) (m : Message)
    (hclient : m.client = c.client_id_)
    (hkind : m.message_type = .MT_RESPONSE ∨ m.message_type = .MT_ERROR) :
    (c.onMessageReceived pb m).client.onMessageReceived pb m
        = { client := (c.onMessageReceived pb m).client, resolved := [] } ∧
    ∀ ctx, c.pending_requests_.find (m.client, m.session) = some ctx →
      (c.onMessageReceived pb m).resolved = [(ctx.promise, responseParser pb ctx m)] ∧
      (c.onMessageReceived pb m).client.pending_requests_.find (m.client, m.session) = none ∧
      (∀ other, other ≠ (m.client, m.session) →
        (c.onMessageReceived pb m).client.pending_requests_.find other
          = c.pending_requests_.find other) ∧
      (c.onMessageReceived pb m).client.pending_requests_.size + 1 = c.pending_requests_.size := by
  constructor
  · cases hfind : c.pending_requests_.find (c.client_id_, m.session) with
    | none =>
      rw [RpcClient.onMessageReceived_miss pb c m hfind]
      exact RpcClient.onMessageReceived_miss pb c m hfind
    | some ctx =>
      rw [RpcClient.onMessageReceived_hit pb c m ctx hclient hkind hfind]
      exact RpcClient.onMessageReceived_miss pb _ m (PendingMap.find_erase_self _ _)
  · intro ctx hfind
    rw [hclient] at hfind ⊢
    rw [RpcClient.onMessageReceived_hit pb c m ctx hclient hkind hfind]
    exact ⟨rfl, PendingMap.find_erase_self _ _,
      fun other hne => PendingMap.find_erase_of_ne _ hne,
      PendingMap.size_erase_of_find _ hfind⟩

/-- C1, at a concrete input: the reply `(7, 41)` delivered twice to a client on which
`(7, 41)` is pending. -/
theorem onMessageReceived_exactly_once_witness :
    (pending_client.onMessageReceived wire_codec reply_7_41).resolved
        = [(0, .AddValue { sum := 42 })] ∧
    (pending_client.onMessageReceived wire_codec reply_7_41).client.pending_requests_.size = 0 ∧
    (pending_client.onMessageReceived wire_codec reply_7_41).client.onMessageReceived
        wire_codec reply_7_41
      = { client := (pending_client.onMessageReceived wire_codec reply_7_41).client,
          resolved := [] } :=
  have h := onMessageReceived_exactly_once wire_codec pending_client reply_7_41
    (by decide) (by decide)
  ⟨(h.2 ⟨.AddResponse, 0⟩ (by decide)).1, by decide, h.1⟩

/-- C8: a reply or fault with the client's own caller-id whose key is not in the table
leaves the client exactly as it was and resolves nothing. -/
theorem unknown_key_reply_dropped (pb : Protos) (c : RpcClient) (m : Message)
    (hclient : m.client = c.client_id_)
    (_hkind : m.message_type = .MT_RESPONSE ∨ m.message_type = .MT_ERROR)
    (hmiss : c.pending_requests_.find (m.client, m.session) = none) :
    c.onMessageReceived pb m = { client := c, resolved := [] } ∧
    ∀ key, (c.onMessageReceived pb m).client.pending_requests_.find key
      = c.pending_requests_.find key := by
  rw [hclient] at hmiss
  rw [RpcClient.onMessageReceived_miss pb c m hmiss]
  exact ⟨rfl, fun _ => rfl⟩

/-- C8, at a concrete input: a reply tagged `(7, 999)` while only `(7, 41)` is pending. -/
theorem unknown_key_reply_dropped_witness :
    pending_client.onMessageReceived wire_codec { reply_7_41 with session := 999 }
      = { client := pending_client, resolved := [] } :=
  (unknown_key_reply_dropped wire_codec pending_client { reply_7_41 with session := 999 }
    (by decide) (by decide) (by decide)).1

/-- C9: a message whose caller-id is not the client's own, or whose kind is neither reply
nor fault, leaves the client exactly as it was and resolves nothing, whatever its
exchange-id. -/
theorem onMessageReceived_filters_foreign (pb : Protos) (c : RpcClient) (m : Message)
    (h : m.client ≠ c.client_id_ ∨
      (m.message_type ≠ .MT_RESPONSE ∧ m.message_type ≠ .MT_ERROR)) :
    c.onMessageReceived pb m = { client := c, resolved := [] } := by
  apply RpcClient.onMessageReceived_other
  rintro ⟨h₁, h₂⟩
  rcases h with h | h
  · exact h h₁
  · rcases h₂ with h₂ | h₂
    · exact h.1 h₂
    · exact h.2 h₂

/-- C9, at concrete inputs: the exchange-id 41 is pending, one message has a foreign
caller-id and one is a notification. -/
theorem onMessageReceived_filters_foreign_witness :
    pending_client.onMessageReceived wire_codec { reply_7_41 with client := 8 }
      = { client := pending_client, resolved := [] } ∧
    pending_client.onMessageReceived wire_codec { reply_7_41 with message_type := .MT_NOTIFICATION }
      = { client := pending_client, resolved := [] } :=
  ⟨onMessageReceived_filters_foreign wire_codec pending_client { reply_7_41 with client := 8 }
      (Or.inl (by decide)),
   onMessageReceived_filters_foreign wire_codec pending_client
      { reply_7_41 with message_type := .MT_NOTIFICATION } (Or.inr (by decide))⟩

/-- C10: classification by the stored operation. (i) A return code other than OK gives
`Rejected` with that code whatever the codec and the payload are, so the decoder plays no
part. (ii) Otherwise an absent or zero-length payload gives `Malformed`. (iii) Otherwise
bytes the decoder rejects give `DecodeFailed`. (iv) Otherwise the decoded value is the
result. A matched reply resolves the promise of its entry with that one result, once. -/
theorem responseParser_classification (pb : Protos) (ctx : PromiseContext) (msg : Message) :
    (msg.return_code ≠ .E_OK →
      ∀ (pb₁ : Protos) (payload : Option (List Nat)),
        responseParser pb₁ ctx { msg with payload := payload }
          = .Exception (.Rejected msg.return_code)) ∧
    (msg.return_code = .E_OK → (msg.payload = none ∨ msg.payload = some []) →
      responseParser pb ctx msg = .Exception .Malformed) ∧
    (∀ data, msg.return_code = .E_OK → msg.payload = some data → data.length ≠ 0 →
      (ctx.res_proto = .EchoResponse →
        (pb.EchoResponse.ParseFromArray data = none →
          responseParser pb ctx msg = .Exception .DecodeFailed) ∧
        (∀ value, pb.EchoResponse.ParseFromArray data = some value →
          responseParser pb ctx msg = .EchoValue value)) ∧
      (ctx.res_proto = .AddResponse →
        (pb.AddResponse.ParseFromArray data = none →
          responseParser pb ctx msg = .Exception .DecodeFailed) ∧
        (∀ value, pb.AddResponse.ParseFromArray data = some value →
          responseParser pb ctx msg = .AddValue value))) ∧
    (∀ c : RpcClient, msg.client = c.client_id_ →
      (msg.message_type = .MT_RESPONSE ∨ msg.message_type = .MT_ERROR) →
      c.pending_requests_.find (msg.client, msg.session) = some ctx →
      (c.onMessageReceived pb msg).resolved = [(ctx.promise, responseParser pb ctx msg)]) := by
  refine ⟨?_, ?_, ?_, ?_⟩
  · intro hrc pb₁ payload
    simp only [responseParser, ne_eq, hrc, not_false_eq_true, if_true]
  · intro hrc hpayload
    rcases hpayload with hp | hp <;> simp [responseParser, hrc, hp]
  · intro data hrc hp hlen
    refine ⟨fun hkind => ⟨fun hparse => ?_, fun value hparse => ?_⟩,
      fun hkind => ⟨fun hparse => ?_, fun value hparse => ?_⟩⟩ <;>
      simp [responseParser, hrc, hp, hlen, hkind, hparse]
  · intro c hclient hkind hfind
    rw [hclient] at hfind
    rw [RpcClient.onMessageReceived_hit pb c msg ctx hclient hkind hfind]

/-- C10, at concrete inputs: a rejected reply whose payload would decode, a reply without
payload bytes, a reply whose bytes the decoder rejects, and a reply that decodes to 42. -/
theorem responseParser_classification_witness :
    responseParser wire_codec ⟨.AddResponse, 0⟩
        { reply_7_41 with return_code := .E_NOT_OK, payload := some [8, 42] }
      = .Exception (.Rejected .E_NOT_OK) ∧
    responseParser wire_codec ⟨.AddResponse, 0⟩ { reply_7_41 with payload := some [] }
      = .Exception .Malformed ∧
    responseParser wire_codec ⟨.AddResponse, 0⟩ { reply_7_41 with payload := some [99, 1] }
      = .Exception .DecodeFailed ∧
    responseParser wire_codec ⟨.AddResponse, 0⟩ reply_7_41 = .AddValue { sum := 42 } ∧
    (pending_client.onMessageReceived wire_codec reply_7_41).resolved
      = [(0, .AddValue { sum := 42 })] :=
  ⟨(responseParser_classification wire_codec ⟨.AddResponse, 0⟩
      { reply_7_41 with return_code := .E_NOT_OK }).1 (by decide) wire_codec (some [8, 42]),
   (responseParser_classification wire_codec ⟨.AddResponse, 0⟩
      { reply_7_41 with payload := some [] }).2.1 rfl (Or.inr rfl),
   (((responseParser_classification wire_codec ⟨.AddResponse, 0⟩
      { reply_7_41 with payload := some [99, 1] }).2.2.1 [99, 1] rfl rfl (by decide)).2 rfl).1
      (by decide),
   (((responseParser_classification wire_codec ⟨.AddResponse, 0⟩
      reply_7_41).2.2.1 [8, 42] rfl rfl (by decide)).2 rfl).2 ⟨42⟩ (by decide),
   (responseParser_classification wire_codec ⟨.AddResponse, 0⟩
      reply_7_41).2.2.2 pending_client (by decide) (by decide) (by decide)⟩

/-! ## RpcClient: outbound calls -/

/-- C2: a call made while the availability flag is false, or while the transport handle is
null, reports exactly one resolution, `ServiceUnavailable` on the promise of the call, and
returns the client as it was: the table is unchanged and nothing was called on the
transport handle (no send). -/
theorem call_fails_fast_when_unavailable (pb : Protos) (rt : Runtime) (c : RpcClient)
    (promise : Nat)
    (hun : c.service_available_ = false ∨ c.vsomeip_app_ = none) :
    (∀ request,
      (c.Echo pb rt promise request).resolved = [(promise, .Exception .ServiceUnavailable)] ∧
      (c.Echo pb rt promise request).client.pending_requests_ = c.pending_requests_ ∧
      (c.Echo pb rt promise request).client.sent = c.sent ∧
      (c.Echo pb rt promise request).client = c) ∧
    (∀ request,
      (c.Add pb rt promise request).resolved = [(promise, .Exception .ServiceUnavailable)] ∧
      (c.Add pb rt promise request).client.pending_requests_ = c.pending_requests_ ∧
      (c.Add pb rt promise request).client.sent = c.sent ∧
      (c.Add pb rt promise request).client = c) := by
  have hE : ∀ request, c.Echo pb rt promise request
      = { client := c, resolved := [(promise, .Exception .ServiceUnavailable)] } := by
    intro request
    unfold RpcClient.Echo
    rcases hun with h | h
    · cases happ : c.vsomeip_app_ <;> simp [h]
    · simp [h]
  have hA : ∀ request, c.Add pb rt promise request
      = { client := c, resolved := [(promise, .Exception .ServiceUnavailable)] } := by
    intro request
    unfold RpcClient.Add
    rcases hun with h | h
    · cases happ : c.vsomeip_app_ <;> simp [h]
    · simp [h]
  exact ⟨fun request => by rw [hE request]; exact ⟨rfl, rfl, rfl, rfl⟩,
    fun request => by rw [hA request]; exact ⟨rfl, rfl, rfl, rfl⟩⟩

/-- C2, at concrete inputs: `Add` on a freshly constructed client (availability still
false), and `Echo` on a client constructed with a null handle. -/
theorem call_fails_fast_when_unavailable_witness :
    ((RpcClient.new "SampleRpc" (some test_server) 0x2222 0x0001 0).Add wire_codec
        vsomeip_runtime 5 ⟨10, 32⟩).resolved = [(5, .Exception .ServiceUnavailable)] ∧
    ((RpcClient.new "SampleRpc" none 0x2222 0x0001 0).Echo wire_codec
        vsomeip_runtime 6 ⟨"Hello RPC World!"⟩).client.pending_requests_ = PendingMap.empty :=
  ⟨((call_fails_fast_when_unavailable wire_codec vsomeip_runtime
      (RpcClient.new "SampleRpc" (some test_server) 0x2222 0x0001 0) 5 (Or.inl rfl)).2
        ⟨10, 32⟩).1,
   ((call_fails_fast_when_unavailable wire_codec vsomeip_runtime
      (RpcClient.new "SampleRpc" none 0x2222 0x0001 0) 6 (Or.inr rfl)).1
        ⟨"Hello RPC World!"⟩).2.1⟩

/-- C3, evaluated at the failing input: the available test client (caller-id 7, next
exchange-id 41) calls `Add` with `a = 10`, `b = 32`. The request goes out tagged `(7, 41)`,
but the only key in the table is `(0, 0)`, the pair the request carried before `send`; no
entry exists under `(7, 41)`, the reply tagged `(7, 41)` resolves nothing, and the whole
exchange with the sample server resolves nothing. `Echo` registers in the same way. -/
theorem Add_registers_under_presend_key :
    (test_client.Echo wire_codec vsomeip_runtime 1
        ⟨"Hello RPC World!"⟩).client.pending_requests_.keys = [(0, 0)] ∧
    ((test_client.Echo wire_codec vsomeip_runtime 1 ⟨"Hello RPC World!"⟩).client.sent.map
        fun m => (m.client, m.session)) = [(7, 41)] ∧
    (test_client.Add wire_codec vsomeip_runtime 0 ⟨10, 32⟩).client.pending_requests_.keys
      = [(0, 0)] ∧
    ((test_client.Add wire_codec vsomeip_runtime 0 ⟨10, 32⟩).client.sent.map
        fun m => (m.client, m.session)) = [(7, 41)] ∧
    (test_client.Add wire_codec vsomeip_runtime 0 ⟨10, 32⟩).client.pending_requests_.find (7, 41)
      = none ∧
    ((test_client.Add wire_codec vsomeip_runtime 0 ⟨10, 32⟩).client.onMessageReceived
        wire_codec reply_7_41).resolved = [] ∧
    (Add_round_trip wire_codec vsomeip_runtime MySampleRpcImpl test_server test_client 0
        ⟨10, 32⟩).resolved = [] := by
  decide

/-! ## RpcClient: teardown -/

/-- C4, evaluated at the failing input: the test client with one outstanding call (N = 1)
is destroyed. The table is emptied, but no resolution is performed on any promise, so the
outstanding promise is not resolved with `Cancelled`. The same holds for every client:
the destructor performs no resolution at all. -/
theorem destructor_resolves_no_promise :
    pending_client.pending_requests_.size = 1 ∧
    pending_client.destructor.client.pending_requests_.size = 0 ∧
    pending_client.destructor.resolved = [] ∧
    (0, Resolution.Exception .Cancelled) ∉ pending_client.destructor.resolved ∧
    ∀ c : RpcClient, c.destructor.resolved = [] := by
  refine ⟨by decide, by decide, by decide, by decide, fun c => ?_⟩
  unfold RpcClient.destructor
  cases c.vsomeip_app_ <;> rfl

theorem RpcClient.new_inv (service_name : String) (app : Option Application)
    (service_id instance_id uninit : Nat) :
    (RpcClient.new service_name app service_id instance_id uninit).NullHandleHasNoEntries := by
  intro _
  cases app <;> rfl

theorem RpcClient.Echo_inv (pb : Protos) (rt : Runtime) (c : RpcClient) (promise : Nat)
    (request : protos.EchoRequest) (h : c.NullHandleHasNoEntries) :
    (c.Echo pb rt promise request).client.NullHandleHasNoEntries := by
  unfold RpcClient.Echo
  cases happ : c.vsomeip_app_ with
  | none => exact h
  | some app =>
    dsimp only
    split
    · exact h
    · split
      · exact h
      · intro hnone
        simp at hnone

theorem RpcClient.Add_inv (pb : Protos) (rt : Runtime) (c : RpcClient) (promise : Nat)
    (request : protos.AddRequest) (h : c.NullHandleHasNoEntries) :
    (c.Add pb rt promise request).client.NullHandleHasNoEntries := by
  unfold RpcClient.Add
  cases happ : c.vsomeip_app_ with
  | none => exact h
  | some app =>
    dsimp only
    split
    · exact h
    · split
      · exact h
      · intro hnone
        simp at hnone

theorem RpcClient.onAvailabilityChanged_inv (c : RpcClient) (service instance_ : Nat)
    (is_available : Bool) (h : c.NullHandleHasNoEntries) :
    (c.onAvailabilityChanged service instance_ is_available).NullHandleHasNoEntries := by
  unfold RpcClient.onAvailabilityChanged
  split
  · exact h
  · exact h

theorem RpcClient.onMessageReceived_inv (pb : Protos) (c : RpcClient) (msg : Message)
    (h : c.NullHandleHasNoEntries) :
    (c.onMessageReceived pb msg).client.NullHandleHasNoEntries := by
  intro hnone
  have happ : c.vsomeip_app_ = none := by
    rw [← hnone]
    by_cases hf : msg.client = c.client_id_ ∧
        (msg.message_type = .MT_RESPONSE ∨ msg.message_type = .MT_ERROR)
    · cases hfind : c.pending_requests_.find (c.client_id_, msg.session) with
      | none => rw [RpcClient.onMessageReceived_miss pb c msg hfind]
      | some ctx => rw [RpcClient.onMessageReceived_hit pb c msg ctx hf.1 hf.2 hfind]
    · rw [RpcClient.onMessageReceived_other pb c msg hf]
  have hempty := h happ
  rw [RpcClient.onMessageReceived_miss pb c msg (by rw [hempty]; rfl)]
  exact hempty

theorem RpcClient.step_inv (pb : Protos) (rt : Runtime) (c : RpcClient) (event : ClientEvent)
    (h : c.NullHandleHasNoEntries) : (c.step pb rt event).NullHandleHasNoEntries := by
  cases event with
  | Echo promise request => exact RpcClient.Echo_inv pb rt c promise request h
  | Add promise request => exact RpcClient.Add_inv pb rt c promise request h
  | onAvailabilityChanged service instance_ is_available =>
    exact RpcClient.onAvailabilityChanged_inv c service instance_ is_available h
  | onMessageReceived msg => exact RpcClient.onMessageReceived_inv pb c msg h

theorem RpcClient.run_inv (pb : Protos) (rt : Runtime) (events : List ClientEvent) :
    ∀ c : RpcClient, c.NullHandleHasNoEntries → (c.run pb rt events).NullHandleHasNoEntries := by
  induction events with
  | nil => exact fun c h => h
  | cons event rest ih => exact fun c h => ih _ (RpcClient.step_inv pb rt c event h)

/-- C5: whatever handle (null or not) the client was constructed with and whatever
sequence of `Echo` / `Add` calls, availability notifications and inbound messages it went
through, its table is empty after the destructor body has run. -/
theorem destructor_leaves_table_empty (pb : Protos) (rt : Runtime) (service_name : String)
    (app : Option Application) (service_id instance_id uninit : Nat)
    (events : List ClientEvent) :
    ((RpcClient.new service_name app service_id instance_id uninit).run pb rt
        events).destructor.client.pending_requests_ = PendingMap.empty := by
  have hinv := RpcClient.run_inv pb rt events _
    (RpcClient.new_inv service_name app service_id instance_id uninit)
  generalize (RpcClient.new service_name app service_id instance_id uninit).run pb rt events
    = c at hinv
  unfold RpcClient.destructor
  cases happ : c.vsomeip_app_ with
  | none => exact hinv happ
  | some app => rfl

/-! ## Server side -/

/-- C6: provided `create_response` copies the caller-id and the exchange-id of the request
it is given, every message the Echo handler or the Add handler sends for a request is
`create_response` of that request with only the return code or the payload set, and so
carries the request's caller-id and exchange-id. -/
theorem handler_replies_carry_request_key (pb : Protos) (rt : Runtime)
    (service_impl : SampleRpc) (req_msg : Message)
    (hcopy : ∀ request, (rt.create_response request).client = request.client ∧
      (rt.create_response request).session = request.session) :
    (∀ msg ∈ sentByHandler (CommunicationManager.Echo_handler pb rt service_impl req_msg),
      (∃ return_code payload, msg = { rt.create_response req_msg with
          return_code := return_code, payload := payload }) ∧
      msg.client = req_msg.client ∧ msg.session = req_msg.session) ∧
    (∀ msg ∈ sentByHandler (CommunicationManager.Add_handler pb rt service_impl req_msg),
      (∃ return_code payload, msg = { rt.create_response req_msg with
          return_code := return_code, payload := payload }) ∧
      msg.client = req_msg.client ∧ msg.session = req_msg.session) := by
  have hbuilt : ∀ (return_code : return_code_e) (payload : Option (List Nat)),
      (∃ return_code₁ payload₁, ({ rt.create_response req_msg with
          return_code := return_code, payload := payload } : Message)
        = { rt.create_response req_msg with return_code := return_code₁, payload := payload₁ }) ∧
      ({ rt.create_response req_msg with
          return_code := return_code, payload := payload } : Message).client = req_msg.client ∧
      ({ rt.create_response req_msg with
          return_code := return_code, payload := payload } : Message).session = req_msg.session :=
    fun return_code payload => ⟨⟨return_code, payload, rfl⟩, (hcopy req_msg).1, (hcopy req_msg).2⟩
  have hmal := hbuilt .E_MALFORMED_MESSAGE (rt.create_response req_msg).payload
  have hser := hbuilt .E_SERIALIZATION (rt.create_response req_msg).payload
  have hok := fun bytes => hbuilt (rt.create_response req_msg).return_code (some bytes)
  constructor
  · intro msg hmem
    unfold CommunicationManager.Echo_handler at hmem
    split at hmem
    · simp only [sentByHandler, List.mem_singleton] at hmem
      subst hmem
      exact hmal
    · split at hmem
      · split at hmem
        · simp only [sentByHandler, List.mem_singleton] at hmem
          subst hmem
          exact hmal
        · simp only [sentByHandler] at hmem
          split at hmem
          · unfold CommunicationManager.Echo_done at hmem
            split at hmem
            · simp only [sentByHandler, List.mem_singleton] at hmem
              subst hmem
              exact hser
            · simp only [sentByHandler, List.mem_singleton] at hmem
              subst hmem
              exact hok _
          · simp [sentByHandler] at hmem
      · simp only [sentByHandler, List.mem_singleton] at hmem
        subst hmem
        exact hmal
  · intro msg hmem
    unfold CommunicationManager.Add_handler at hmem
    split at hmem
    · simp only [sentByHandler, List.mem_singleton] at hmem
      subst hmem
      exact hmal
    · split at hmem
      · split at hmem
        · simp only [sentByHandler, List.mem_singleton] at hmem
          subst hmem
          exact hmal
        · simp only [sentByHandler] at hmem
          split at hmem
          · unfold CommunicationManager.Add_done at hmem
            split at hmem
            · simp only [sentByHandler, List.mem_singleton] at hmem
              subst hmem
              exact hser
            · simp only [sentByHandler, List.mem_singleton] at hmem
              subst hmem
              exact hok _
          · simp [sentByHandler] at hmem
      · simp only [sentByHandler, List.mem_singleton] at hmem
        subst hmem
        exact hmal

/-- C6, at a concrete input: the Add handler over the sample implementation answers the
request `Add(10, 32)` tagged `(7, 41)` with one reply, tagged `(7, 41)`. -/
theorem handler_replies_carry_request_key_witness :
    sentByHandler (CommunicationManager.Add_handler wire_codec vsomeip_runtime MySampleRpcImpl
      request_7_41) = [reply_7_41] ∧
    reply_7_41.client = request_7_41.client ∧ reply_7_41.session = request_7_41.session :=
  ⟨by decide,
   ((handler_replies_carry_request_key wire_codec vsomeip_runtime MySampleRpcImpl request_7_41
      (fun _ => ⟨rfl, rfl⟩)).2 reply_7_41 (by decide)).2⟩

/-! ## End to end -/

theorem sentMessages_append_send (calls : List AppCall) (wire : Message) :
    sentMessages (calls ++ [.send wire]) = sentMessages calls ++ [wire] := by
  induction calls with
  | nil => rfl
  | cons call rest ih => cases call <;> simp [sentMessages, ih]

theorem wrapInt32_of_fits (x : Int) (hlo : -2 ^ 31 ≤ x) (hhi : x < 2 ^ 31) : wrapInt32 x = x := by
  unfold wrapInt32
  norm_num at hlo hhi ⊢
  omega

/-! ## RpcClient: availability -/

/-- C11: an availability notification sets the flag to `is_available` when service and
instance are the client's own and leaves it as it is otherwise. In both cases nothing
else in the client changes: the pending table is the same, and the operation performs no
resolution (it yields only the client), so every inbound message resolves afterwards
exactly what it would have resolved before. -/
theorem onAvailabilityChanged_sets_flag_only (c : RpcClient) (service instance_ : Nat)
    (is_available : Bool) :
    (c.onAvailabilityChanged service instance_ is_available).service_available_
      = (if service = c.service_id_ ∧ instance_ = c.instance_id_ then is_available
         else c.service_available_) ∧
    c.onAvailabilityChanged service instance_ is_available
      = { c with service_available_ :=
            (c.onAvailabilityChanged service instance_ is_available).service_available_ } ∧
    (c.onAvailabilityChanged service instance_ is_available).pending_requests_
      = c.pending_requests_ ∧
    c.onAvailabilityChanged c.service_id_ c.instance_id_ false
      = { c with service_available_ := false } ∧
    ∀ (pb : Protos) (msg : Message),
      ((c.onAvailabilityChanged service instance_ is_available).onMessageReceived pb msg).resolved
        = (c.onMessageReceived pb msg).resolved := by
  have hframe : ∀ flag : Bool, ∀ (pb : Protos) (msg : Message),
      (({ c with service_available_ := flag } : RpcClient).onMessageReceived pb msg).resolved
        = (c.onMessageReceived pb msg).resolved := by
    intro flag pb msg
    unfold RpcClient.onMessageReceived
    dsimp only
    split
    · cases c.pending_requests_.find (c.client_id_, msg.session) <;> rfl
    · rfl
  have hown : c.onAvailabilityChanged c.service_id_ c.instance_id_ false
      = { c with service_available_ := false } := by
    simp [RpcClient.onAvailabilityChanged]
  refine ⟨?_, ?_, ?_, hown, ?_⟩ <;>
    (unfold RpcClient.onAvailabilityChanged
     split)
  · rfl
  · rfl
  · rfl
  · rfl
  · rfl
  · rfl
  · exact hframe is_available
  · exact fun _ _ => rfl

/-! ## Server side: decoding the request -/

/-- C19: when the request decoder rejects the payload bytes of an Echo or Add request,
all the handler does is send one message, the fault reply built from the request with the
return code `E_MALFORMED_MESSAGE`; the service implementation is not called. -/
theorem handler_rejects_undecodable_request (pb : Protos) (rt : Runtime)
    (service_impl : SampleRpc) (req_msg : Message) :
    (CommunicationManager.malformed_reply rt req_msg).return_code = .E_MALFORMED_MESSAGE ∧
    (∀ data, req_msg.payload = some data → pb.EchoRequest.ParseFromArray data = none →
      CommunicationManager.Echo_handler pb rt service_impl req_msg
        = [.send (CommunicationManager.malformed_reply rt req_msg)] ∧
      (CommunicationManager.Echo_handler pb rt service_impl req_msg).filter
        ServerEffect.is_invoke = []) ∧
    (∀ data, req_msg.payload = some data → pb.AddRequest.ParseFromArray data = none →
      CommunicationManager.Add_handler pb rt service_impl req_msg
        = [.send (CommunicationManager.malformed_reply rt req_msg)] ∧
      (CommunicationManager.Add_handler pb rt service_impl req_msg).filter
        ServerEffect.is_invoke = []) := by
  refine ⟨rfl, ?_, ?_⟩
  · intro data hpayload hparse
    have h : CommunicationManager.Echo_handler pb rt service_impl req_msg
        = [.send (CommunicationManager.malformed_reply rt req_msg)] := by
      unfold CommunicationManager.Echo_handler
      rw [hpayload]
      dsimp only
      split
      · rw [hparse]
      · rfl
    rw [h]
    exact ⟨rfl, rfl⟩
  · intro data hpayload hparse
    have h : CommunicationManager.Add_handler pb rt service_impl req_msg
        = [.send (CommunicationManager.malformed_reply rt req_msg)] := by
      unfold CommunicationManager.Add_handler
      rw [hpayload]
      dsimp only
      split
      · rw [hparse]
      · rfl
    rw [h]
    exact ⟨rfl, rfl⟩

/-- C19, at a concrete input: an Add request whose bytes `[99, 1]` the decoder rejects. -/
theorem handler_rejects_undecodable_request_witness :
    CommunicationManager.Add_handler wire_codec vsomeip_runtime MySampleRpcImpl
        { request_7_41 with payload := some [99, 1] }
      = [.send { reply_7_41 with return_code := .E_MALFORMED_MESSAGE, payload := some [] }] :=
  ((handler_rejects_undecodable_request wire_codec vsomeip_runtime MySampleRpcImpl
    { request_7_41 with payload := some [99, 1] }).2.2 [99, 1] rfl (by decide)).1

/-- C20 (counterexample): the decoder accepts the zero-length payload (it decodes to the
request `a = 0`, `b = 0`, and to the empty Echo message), yet for a request with a
zero-length payload the Add handler and the Echo handler send the `E_MALFORMED_MESSAGE`
fault and do not call the service implementation. -/
theorem handler_rejects_empty_decodable_request :
    wire_codec.AddRequest.ParseFromArray [] = some ⟨0, 0⟩ ∧
    CommunicationManager.Add_handler wire_codec vsomeip_runtime MySampleRpcImpl
        { request_7_41 with payload := some [] }
      = [.send { reply_7_41 with return_code := .E_MALFORMED_MESSAGE, payload := some [] }] ∧
    wire_codec.EchoRequest.ParseFromArray [] = some ⟨""⟩ ∧
    CommunicationManager.Echo_handler wire_codec vsomeip_runtime MySampleRpcImpl
        { request_7_41 with method := METHOD_ID_ECHO, payload := some [] }
      = [.send { reply_7_41 with method := METHOD_ID_ECHO,
                                 return_code := .E_MALFORMED_MESSAGE, payload := some [] }] := by
  decide

/-- C20 (amended): for every codec, runtime, service implementation and Echo or Add
request with a payload. (1) When the payload has at least one byte and the request decoder
accepts it, the handler calls the service implementation exactly once, with the decoded
request, before anything is sent; what it sends afterwards is what the completion closure
sends, and that is no `E_MALFORMED_MESSAGE` fault unless `create_response` itself hands
out that return code. (2) When the payload has length 0, all the handler does is send the
`E_MALFORMED_MESSAGE` fault built from the request, and it does not call the service
implementation, whatever the decoder would make of zero bytes. -/
theorem handler_invokes_on_decodable_request (pb : Protos) (rt : Runtime)
    (service_impl : SampleRpc) (req_msg : Message) (data : List Nat)
    (hpayload : req_msg.payload = some data) :
    (data.length ≠ 0 →
      (∀ request, pb.EchoRequest.ParseFromArray data = some request →
        CommunicationManager.Echo_handler pb rt service_impl req_msg
          = .invoke_Echo request ::
              (match service_impl.Echo request with
               | some response => CommunicationManager.Echo_done pb rt req_msg response
               | none => []) ∧
        (CommunicationManager.Echo_handler pb rt service_impl req_msg).filter
          ServerEffect.is_invoke = [.invoke_Echo request] ∧
        ((rt.create_response req_msg).return_code ≠ .E_MALFORMED_MESSAGE →
          ∀ msg ∈ sentByHandler (CommunicationManager.Echo_handler pb rt service_impl req_msg),
            msg.return_code ≠ .E_MALFORMED_MESSAGE)) ∧
      (∀ request, pb.AddRequest.ParseFromArray data = some request →
        CommunicationManager.Add_handler pb rt service_impl req_msg
          = .invoke_Add request ::
              (match service_impl.Add request with
               | some response => CommunicationManager.Add_done pb rt req_msg response
               | none => []) ∧
        (CommunicationManager.Add_handler pb rt service_impl req_msg).filter
          ServerEffect.is_invoke = [.invoke_Add request] ∧
        ((rt.create_response req_msg).return_code ≠ .E_MALFORMED_MESSAGE →
          ∀ msg ∈ sentByHandler (CommunicationManager.Add_handler pb rt service_impl req_msg),
            msg.return_code ≠ .E_MALFORMED_MESSAGE))) ∧
    (data.length = 0 →
      CommunicationManager.Echo_handler pb rt service_impl req_msg
        = [.send (CommunicationManager.malformed_reply rt req_msg)] ∧
      (CommunicationManager.Echo_handler pb rt service_impl req_msg).filter
        ServerEffect.is_invoke = [] ∧
      CommunicationManager.Add_handler pb rt service_impl req_msg
        = [.send (CommunicationManager.malformed_reply rt req_msg)] ∧
      (CommunicationManager.Add_handler pb rt service_impl req_msg).filter
        ServerEffect.is_invoke = [] ∧
      (CommunicationManager.malformed_reply rt req_msg).return_code
        = .E_MALFORMED_MESSAGE) := by
  refine ⟨fun hlength => ?_, fun hlength => ?_⟩
  swap
  · have hecho : CommunicationManager.Echo_handler pb rt service_impl req_msg
        = [.send (CommunicationManager.malformed_reply rt req_msg)] := by
      simp only [CommunicationManager.Echo_handler, hpayload, hlength, gt_iff_lt,
        Nat.lt_irrefl, if_false]
    have hadd : CommunicationManager.Add_handler pb rt service_impl req_msg
        = [.send (CommunicationManager.malformed_reply rt req_msg)] := by
      simp only [CommunicationManager.Add_handler, hpayload, hlength, gt_iff_lt,
        Nat.lt_irrefl, if_false]
    rw [hecho, hadd]
    exact ⟨rfl, rfl, rfl, rfl, rfl⟩
  have hlen : data.length > 0 := Nat.pos_of_ne_zero hlength
  constructor
  · intro request hparse
    have h : CommunicationManager.Echo_handler pb rt service_impl req_msg
        = .invoke_Echo request ::
            (match service_impl.Echo request with
             | some response => CommunicationManager.Echo_done pb rt req_msg response
             | none => []) := by
      simp only [CommunicationManager.Echo_handler, hpayload, hlen, if_true, hparse]
    rw [h]
    refine ⟨rfl, ?_, ?_⟩
    · cases service_impl.Echo request with
      | none => rfl
      | some response =>
        simp only [CommunicationManager.Echo_done]
        cases pb.EchoResponse.SerializeToString response <;> rfl
    · intro hcode msg hmem
      cases himpl : service_impl.Echo request with
      | none => simp [himpl, sentByHandler] at hmem
      | some response =>
        simp only [himpl, CommunicationManager.Echo_done, sentByHandler] at hmem
        cases hser : pb.EchoResponse.SerializeToString response with
        | none =>
          simp only [hser, sentByHandler, List.mem_singleton] at hmem
          subst hmem
          simp
        | some bytes =>
          simp only [hser, sentByHandler, List.mem_singleton] at hmem
          subst hmem
          exact hcode
  · intro request hparse
    have h : CommunicationManager.Add_handler pb rt service_impl req_msg
        = .invoke_Add request ::
            (match service_impl.Add request with
             | some response => CommunicationManager.Add_done pb rt req_msg response
             | none => []) := by
      simp only [CommunicationManager.Add_handler, hpayload, hlen, if_true, hparse]
    rw [h]
    refine ⟨rfl, ?_, ?_⟩
    · cases service_impl.Add request with
      | none => rfl
      | some response =>
        simp only [CommunicationManager.Add_done]
        cases pb.AddResponse.SerializeToString response <;> rfl
    · intro hcode msg hmem
      cases himpl : service_impl.Add request with
      | none => simp [himpl, sentByHandler] at hmem
      | some response =>
        simp only [himpl, CommunicationManager.Add_done, sentByHandler] at hmem
        cases hser : pb.AddResponse.SerializeToString response with
        | none =>
          simp only [hser, sentByHandler, List.mem_singleton] at hmem
          subst hmem
          simp
        | some bytes =>
          simp only [hser, sentByHandler, List.mem_singleton] at hmem
          subst hmem
          exact hcode

/-- C20 (amended), at concrete inputs: the Add request `(10, 32)` of the exchange
`(7, 41)` is decoded, the sample implementation is called once, and the reply is sent; the
same request with a zero-length payload, which the decoder accepts as `(0, 0)`, is answered
with the fault. -/
theorem handler_invokes_on_decodable_request_witness :
    CommunicationManager.Add_handler wire_codec vsomeip_runtime MySampleRpcImpl request_7_41
      = [.invoke_Add ⟨10, 32⟩, .send reply_7_41] ∧
    wire_codec.AddRequest.ParseFromArray [] = some ⟨0, 0⟩ ∧
    CommunicationManager.Add_handler wire_codec vsomeip_runtime MySampleRpcImpl
        { request_7_41 with payload := some [] }
      = [.send (CommunicationManager.malformed_reply vsomeip_runtime
          { request_7_41 with payload := some [] })] :=
  ⟨(((handler_invokes_on_decodable_request wire_codec vsomeip_runtime MySampleRpcImpl
      request_7_41 [8, 10, 16, 32] rfl).1 (by decide)).2 ⟨10, 32⟩ (by decide)).1,
    by decide,
    ((handler_invokes_on_decodable_request wire_codec vsomeip_runtime MySampleRpcImpl
      { request_7_41 with payload := some [] } [] rfl).2 rfl).2.2.1⟩

/-! ## Publisher -/

theorem Publisher.offer_of_not_offered (p : Publisher) (app : Application)
    (happ : p.vsomeip_app_ = some app) (hoff : p.is_offered_ = false) :
    p.offer = { p with
      vsomeip_app_ := some (app.call (.offer_event p.service_id_ p.instance_id_
        p.event_id_or_group_ (if p.is_eventgroup_ then [p.event_id_or_group_] else [])))
      is_offered_ := true } := by
  simp [Publisher.offer, happ, hoff]

theorem Publisher.new_null (topic_name : String) (service_id instance_id event : Nat)
    (is_eventgroup : Bool) :
    Publisher.new topic_name none service_id instance_id event is_eventgroup =
      { topic_name_ := topic_name, vsomeip_app_ := none, service_id_ := service_id,
        instance_id_ := instance_id, event_id_or_group_ := event,
        is_eventgroup_ := is_eventgroup, is_offered_ := false } := rfl

theorem Publisher.new_of_handle (topic_name : String) (app : Application)
    (service_id instance_id event : Nat) (is_eventgroup : Bool) :
    Publisher.new topic_name (some app) service_id instance_id event is_eventgroup =
      { topic_name_ := topic_name,
        vsomeip_app_ := some (app.call (.offer_event service_id instance_id event
          (if is_eventgroup then [event] else []))),
        service_id_ := service_id, instance_id_ := instance_id, event_id_or_group_ := event,
        is_eventgroup_ := is_eventgroup, is_offered_ := true } := by
  simp [Publisher.new, Publisher.offer]

theorem Publisher.publishGeneric_null (p : Publisher) (serialized : Option (List Nat))
    (happ : p.vsomeip_app_ = none) :
    p.publishGeneric serialized = { publisher := p, result := .no_application } := by
  simp [Publisher.publishGeneric, happ]

theorem Publisher.publishGeneric_offered (p : Publisher) (app : Application)
    (serialized : Option (List Nat))
    (happ : p.vsomeip_app_ = some app) (hoff : p.is_offered_ = true) :
    p.publishGeneric serialized =
      match serialized with
      | none => { publisher := p, result := .serialize_failed }
      | some serialized_data =>
        { publisher := { p with vsomeip_app_ := some (app.call
            (if p.is_eventgroup_ then
              .fire_event p.service_id_ p.instance_id_ p.event_id_or_group_ serialized_data
             else .notify p.service_id_ p.instance_id_ p.event_id_or_group_ serialized_data)) },
          result := .published } := by
  cases serialized with
  | none => simp [Publisher.publishGeneric, happ, hoff]
  | some serialized_data =>
    cases hgroup : p.is_eventgroup_ <;> simp [Publisher.publishGeneric, happ, hoff, hgroup]

theorem Publisher.publishGeneric_not_offered (p : Publisher) (app : Application)
    (serialized : Option (List Nat))
    (happ : p.vsomeip_app_ = some app) (hoff : p.is_offered_ = false) :
    p.publishGeneric serialized = p.offer.publishGeneric serialized := by
  have hoffer := Publisher.offer_of_not_offered p app happ hoff
  have h₁ : p.offer.is_offered_ = true := by rw [hoffer]
  have h₂ : p.offer.vsomeip_app_ = some (app.call (.offer_event p.service_id_ p.instance_id_
      p.event_id_or_group_ (if p.is_eventgroup_ then [p.event_id_or_group_] else []))) := by
    rw [hoffer]
  rw [Publisher.publishGeneric_offered p.offer _ serialized h₂ h₁]
  cases serialized with
  | none => simp [Publisher.publishGeneric, happ, hoff, h₁]
  | some serialized_data =>
    cases hgroup : p.offer.is_eventgroup_ <;>
      simp [Publisher.publishGeneric, happ, hoff, h₁, h₂, hgroup]

theorem Publisher.publishGeneric_inv (p : Publisher) (serialized : Option (List Nat))
    (h : p.LiveWhenOffered) : (p.publishGeneric serialized).publisher.LiveWhenOffered := by
  cases happ : p.vsomeip_app_ with
  | none =>
    rw [Publisher.publishGeneric_null p serialized happ]
    exact h
  | some app =>
    have hoffered : ∀ (q : Publisher) (app₁ : Application), q.vsomeip_app_ = some app₁ →
        q.is_offered_ = true → (q.publishGeneric serialized).publisher.LiveWhenOffered := by
      intro q app₁ hq hoff
      rw [Publisher.publishGeneric_offered q app₁ serialized hq hoff]
      cases serialized with
      | none => intro _; simp [hq]
      | some serialized_data => intro _; rfl
    cases hoff : p.is_offered_ with
    | true => exact hoffered p app happ hoff
    | false =>
      rw [Publisher.publishGeneric_not_offered p app serialized happ hoff]
      have hoffer := Publisher.offer_of_not_offered p app happ hoff
      exact hoffered p.offer _ (by rw [hoffer]) (by rw [hoffer])

theorem Publisher.run_live_when_offered (messages : List (Option (List Nat))) :
    ∀ p : Publisher, p.LiveWhenOffered → (p.run messages).LiveWhenOffered := by
  induction messages with
  | nil => exact fun p h => h
  | cons serialized rest ih =>
    exact fun p h => ih _ (Publisher.publishGeneric_inv p serialized h)

theorem Publisher.new_live_when_offered (topic_name : String) (app : Option Application)
    (service_id instance_id event : Nat) (is_eventgroup : Bool) :
    (Publisher.new topic_name app service_id instance_id event is_eventgroup).LiveWhenOffered := by
  cases app with
  | none => intro h; simp [Publisher.new_null] at h
  | some app => intro _; rw [Publisher.new_of_handle]; rfl

/-- C12 (counterexample): the publisher constructed with a null handle is not offered
after construction; a call to `publish` on it issues no transport call at all, so it
attempts no offer (not one), and it returns false through the null-handle exit. -/
theorem publish_on_null_handle_attempts_no_offer :
    null_publisher.isOffered = false ∧
    (null_publisher.publish notification_codec notification_3).result = .no_application ∧
    (null_publisher.publish notification_codec notification_3).result.toBool = false ∧
    (null_publisher.publish notification_codec notification_3).publisher = null_publisher ∧
    ((null_publisher.publish notification_codec notification_3).publisher.calls.filter
        AppCall.is_offer_event).length = 0 := by
  decide

/-- C12 (amended): a publisher is not offered after construction only when its handle is
null, and then `publishGeneric` issues no transport call (no offer, no send), leaves the
publisher as it is and returns false. A publisher that holds a handle and is not offered
issues exactly one `offer_event` for its binding, is offered afterwards, and goes on to
serialize and send; the failure exit of a failed offer is not taken. -/
theorem publish_when_not_offered (serialized : Option (List Nat)) :
    (∀ (topic_name : String) (app : Option Application) (service_id instance_id event : Nat)
        (is_eventgroup : Bool),
      (Publisher.new topic_name app service_id instance_id event is_eventgroup).is_offered_
          = false →
        app = none ∧
        (Publisher.new topic_name app service_id instance_id event is_eventgroup).publishGeneric
            serialized
          = { publisher :=
                Publisher.new topic_name app service_id instance_id event is_eventgroup,
              result := .no_application } ∧
        PublishResult.no_application.toBool = false) ∧
    (∀ (p : Publisher) (app : Application),
      p.vsomeip_app_ = some app → p.is_offered_ = false →
        (p.publishGeneric serialized).publisher.is_offered_ = true ∧
        (p.publishGeneric serialized).result ≠ .not_offered ∧
        (p.publishGeneric serialized).publisher.calls
          = app.calls ++
              .offer_event p.service_id_ p.instance_id_ p.event_id_or_group_
                  (if p.is_eventgroup_ then [p.event_id_or_group_] else []) ::
              (match serialized with
               | none => []
               | some serialized_data =>
                 [if p.is_eventgroup_ then
                    .fire_event p.service_id_ p.instance_id_ p.event_id_or_group_
                      serialized_data
                  else
                    .notify p.service_id_ p.instance_id_ p.event_id_or_group_
                      serialized_data])) := by
  constructor
  · intro topic_name app service_id instance_id event is_eventgroup hoff
    cases app with
    | none => exact ⟨rfl, Publisher.publishGeneric_null _ _ rfl, rfl⟩
    | some app => rw [Publisher.new_of_handle] at hoff; simp at hoff
  · intro p app happ hoff
    rw [Publisher.publishGeneric_not_offered p app serialized happ hoff]
    have hoffer := Publisher.offer_of_not_offered p app happ hoff
    rw [Publisher.publishGeneric_offered p.offer _ serialized (by rw [hoffer]) (by rw [hoffer])]
    cases serialized with
    | none =>
      rw [hoffer]
      simp [Publisher.calls, Application.call]
    | some serialized_data =>
      rw [hoffer]
      simp [Publisher.calls, Application.call]

/-- C12 (amended), at concrete inputs: the publisher constructed with a null handle, and
the publisher of `publisher_test.cpp` with its flag reset to not offered. -/
theorem publish_when_not_offered_witness :
    null_publisher.publishGeneric (some [8, 3])
      = { publisher := null_publisher, result := .no_application } ∧
    (({ test_publisher with is_offered_ := false } : Publisher).publishGeneric
        (some [8, 3])).publisher.calls
      = [.offer_event 0x1111 0x0001 0x9100 [0x9100],
         .offer_event 0x1111 0x0001 0x9100 [0x9100],
         .fire_event 0x1111 0x0001 0x9100 [8, 3]] :=
  ⟨((publish_when_not_offered (some [8, 3])).1 "TestTopic" none 0x1111 0x0001 0x9100 true
      (by decide)).2.1,
   ((publish_when_not_offered (some [8, 3])).2 { test_publisher with is_offered_ := false }
      { client := 0x0101, session := 1, calls := [.offer_event 0x1111 0x0001 0x9100 [0x9100]] }
      (by decide) (by decide)).2.2⟩

/-- C13: for a publisher in any state it can reach (constructed with any handle, after any
number of publish calls): if it is offered, the destructor issues exactly one call on the
transport handle, `stop_offer_event` for the bound service, instance and event-or-group
id, and clears the flag; if it is not offered, the destructor issues no call and leaves
the publisher as it is. -/
theorem Publisher_destructor_stops_offer (topic_name : String) (app : Option Application)
    (service_id instance_id event : Nat) (is_eventgroup : Bool)
    (messages : List (Option (List Nat))) :
    (((Publisher.new topic_name app service_id instance_id event is_eventgroup).run
          messages).is_offered_ = true →
      ((Publisher.new topic_name app service_id instance_id event is_eventgroup).run
          messages).destructor.calls
        = ((Publisher.new topic_name app service_id instance_id event is_eventgroup).run
              messages).calls ++
            [.stop_offer_event
              ((Publisher.new topic_name app service_id instance_id event is_eventgroup).run
                messages).service_id_
              ((Publisher.new topic_name app service_id instance_id event is_eventgroup).run
                messages).instance_id_
              ((Publisher.new topic_name app service_id instance_id event is_eventgroup).run
                messages).event_id_or_group_] ∧
      ((Publisher.new topic_name app service_id instance_id event is_eventgroup).run
          messages).destructor.is_offered_ = false) ∧
    (((Publisher.new topic_name app service_id instance_id event is_eventgroup).run
          messages).is_offered_ = false →
      ((Publisher.new topic_name app service_id instance_id event is_eventgroup).run
          messages).destructor
        = (Publisher.new topic_name app service_id instance_id event is_eventgroup).run
            messages) := by
  have hinv := Publisher.run_live_when_offered messages _
    (Publisher.new_live_when_offered topic_name app service_id instance_id event is_eventgroup)
  generalize (Publisher.new topic_name app service_id instance_id event is_eventgroup).run
    messages = p at hinv
  constructor
  · intro hoff
    have hlive := hinv hoff
    cases happ : p.vsomeip_app_ with
    | none => simp [happ] at hlive
    | some app₁ => simp [Publisher.destructor, Publisher.calls, Application.call, happ, hoff]
  · intro hoff
    unfold Publisher.destructor
    cases p.vsomeip_app_ <;> simp [hoff]

/-- C13, at concrete inputs: the publisher of `publisher_test.cpp` after one publish, and
the publisher constructed with a null handle. -/
theorem Publisher_destructor_stops_offer_witness :
    (test_publisher.run [some [8, 3]]).destructor.calls
      = [.offer_event 0x1111 0x0001 0x9100 [0x9100], .fire_event 0x1111 0x0001 0x9100 [8, 3],
         .stop_offer_event 0x1111 0x0001 0x9100] ∧
    null_publisher.destructor = null_publisher :=
  ⟨((Publisher_destructor_stops_offer "TestTopic" (some test_app) 0x1111 0x0001 0x9100 true
      [some [8, 3]]).1 (by decide)).1,
   (Publisher_destructor_stops_offer "TestTopic" none 0x1111 0x0001 0x9100 true []).2
      (by decide)⟩

/-! ## Subscriber: subscribe and unsubscribe -/

theorem Subscriber.register_calls (s : Subscriber) (app : Application) :
    (s.register app).calls = app.calls ++
      [.register_availability_handler s.service_id_ s.instance_id_,
       .register_message_handler s.service_id_ s.instance_id_ s.event_id_or_group_,
       .request_event s.service_id_ s.instance_id_ s.event_id_or_group_
         (if s.is_eventgroup_ then s.subscribed_eventgroups_ else [])] := by
  unfold Subscriber.register
  cases s.is_eventgroup_ <;> simp [Application.call]

theorem Subscriber.subscribe_first (s : Subscriber) (app : Application) (callback : Option Nat)
    (happ : s.vsomeip_app_ = some app) (hsub : s.is_subscribed_ = false) :
    s.subscribe callback =
      { subscriber := { s with
          vsomeip_app_ := some (s.register app), notification_callback_ := callback,
          generic_callback_ := none, is_subscribed_ := true },
        result := true } := by
  simp only [Subscriber.subscribe, happ, hsub]
  rfl

theorem Subscriber.subscribe_again (s : Subscriber) (app : Application) (callback : Option Nat)
    (happ : s.vsomeip_app_ = some app) (hsub : s.is_subscribed_ = true) :
    s.subscribe callback =
      { subscriber := { s with notification_callback_ := callback, generic_callback_ := none },
        result := true } := by
  simp only [Subscriber.subscribe, happ, hsub, if_true]

theorem Subscriber.subscribeGeneric_first (s : Subscriber) (app : Application)
    (callback : Option Nat)
    (happ : s.vsomeip_app_ = some app) (hsub : s.is_subscribed_ = false) :
    s.subscribeGeneric callback =
      { subscriber := { s with
          vsomeip_app_ := some (s.register app), notification_callback_ := none,
          generic_callback_ := callback, is_subscribed_ := true },
        result := true } := by
  simp only [Subscriber.subscribeGeneric, happ, hsub]
  rfl

theorem Subscriber.subscribeGeneric_again (s : Subscriber) (app : Application)
    (callback : Option Nat)
    (happ : s.vsomeip_app_ = some app) (hsub : s.is_subscribed_ = true) :
    s.subscribeGeneric callback =
      { subscriber := { s with generic_callback_ := callback, notification_callback_ := none },
        result := true } := by
  simp only [Subscriber.subscribeGeneric, happ, hsub, if_true]

theorem Subscriber.unsubscribe_subscribed (s : Subscriber) (app : Application)
    (happ : s.vsomeip_app_ = some app) (hsub : s.is_subscribed_ = true) :
    s.unsubscribe =
      { subscriber := { s with
          vsomeip_app_ := some
            { app with calls := app.calls ++
                [.unregister_message_handler s.service_id_ s.instance_id_ s.event_id_or_group_,
                 .release_event s.service_id_ s.instance_id_ s.event_id_or_group_
                   (if s.is_eventgroup_ then s.subscribed_eventgroups_ else []),
                 .unregister_availability_handler s.service_id_ s.instance_id_] },
          notification_callback_ := none, generic_callback_ := none,
          is_subscribed_ := false, service_available_ := false },
        result := true } := by
  cases hgroup : s.is_eventgroup_ <;>
    simp [Subscriber.unsubscribe, happ, hsub, hgroup, Application.call]

theorem Subscriber.unsubscribe_not_subscribed (s : Subscriber) (app : Application)
    (happ : s.vsomeip_app_ = some app) (hsub : s.is_subscribed_ = false) :
    s.unsubscribe = { subscriber := s, result := true } := by
  simp [Subscriber.unsubscribe, happ, hsub]

/-- C14 (counterexample): the subscriber of `subscriber_test.cpp`, which holds a live
transport handle and has already subscribed once, is asked to subscribe with the callback
2 and then with the callback 3. Both calls return true, and neither issues a transport
call: the two calls together register no handler and request no event (not one of each). -/
theorem subscribe_twice_when_already_subscribed :
    subscribed_subscriber.vsomeip_app_.isSome = true ∧
    (subscribed_subscriber.subscribe (some 2)).result = true ∧
    ((subscribed_subscriber.subscribe (some 2)).subscriber.subscribe (some 3)).result = true ∧
    ((subscribed_subscriber.subscribe (some 2)).subscriber.subscribe (some 3)).subscriber.calls
      = subscribed_subscriber.calls ∧
    ((((subscribed_subscriber.subscribe (some 2)).subscriber.subscribe
        (some 3)).subscriber.calls.drop subscribed_subscriber.calls.length).filter
          AppCall.is_request_event).length = 0 := by
  decide

/-- C14 (amended): for a subscriber with a live transport that is not yet subscribed and
any two callbacks, `subscribe(cb1)` followed by `subscribe(cb2)` returns true both times;
the first call issues, in this order, one availability-handler registration, one
message-handler registration and one `request_event` for the binding, the second call
issues nothing; afterwards `cb2` is the typed callback, no generic callback is bound and
the subscriber is subscribed. -/
theorem subscribe_twice (s : Subscriber) (app : Application) (cb₁ cb₂ : Option Nat)
    (happ : s.vsomeip_app_ = some app) (hsub : s.is_subscribed_ = false) :
    (s.subscribe cb₁).result = true ∧
    ((s.subscribe cb₁).subscriber.subscribe cb₂).result = true ∧
    (s.subscribe cb₁).subscriber.calls = app.calls ++
      [.register_availability_handler s.service_id_ s.instance_id_,
       .register_message_handler s.service_id_ s.instance_id_ s.event_id_or_group_,
       .request_event s.service_id_ s.instance_id_ s.event_id_or_group_
         (if s.is_eventgroup_ then s.subscribed_eventgroups_ else [])] ∧
    ((s.subscribe cb₁).subscriber.subscribe cb₂).subscriber.calls
      = (s.subscribe cb₁).subscriber.calls ∧
    ((s.subscribe cb₁).subscriber.subscribe cb₂).subscriber.notification_callback_ = cb₂ ∧
    ((s.subscribe cb₁).subscriber.subscribe cb₂).subscriber.generic_callback_ = none ∧
    ((s.subscribe cb₁).subscriber.subscribe cb₂).subscriber.is_subscribed_ = true := by
  rw [Subscriber.subscribe_first s app cb₁ happ hsub]
  dsimp only
  rw [Subscriber.subscribe_again _ (s.register app) cb₂ rfl rfl]
  refine ⟨rfl, rfl, ?_, rfl, rfl, rfl, rfl⟩
  exact Subscriber.register_calls s app

/-- C14 (amended), at the input of `subscriber_test.cpp`: the subscriber as constructed
subscribes with the callback 1 and then with the callback 2. -/
theorem subscribe_twice_witness :
    ((test_subscriber.subscribe (some 1)).subscriber.subscribe (some 2)).subscriber.calls
      = [.register_availability_handler 0x1111 0x0001,
         .register_message_handler 0x1111 0x0001 0x9100,
         .request_event 0x1111 0x0001 0x9100 [0x9100]] ∧
    ((test_subscriber.subscribe (some 1)).subscriber.subscribe
        (some 2)).subscriber.notification_callback_ = some 2 :=
  have h := subscribe_twice test_subscriber test_app (some 1) (some 2) (by decide) (by decide)
  ⟨h.2.2.2.1.trans h.2.2.1, h.2.2.2.2.1⟩

theorem Subscriber.SameBinding.refl (s : Subscriber) : s.SameBinding s :=
  ⟨rfl, rfl, rfl, rfl, rfl, rfl, rfl⟩

theorem Subscriber.SameBinding.trans {s t u : Subscriber} (h₁ : s.SameBinding t)
    (h₂ : t.SameBinding u) : s.SameBinding u :=
  ⟨h₁.1.trans h₂.1, h₁.2.1.trans h₂.2.1, h₁.2.2.1.trans h₂.2.2.1,
    h₁.2.2.2.1.trans h₂.2.2.2.1, h₁.2.2.2.2.1.trans h₂.2.2.2.2.1,
    h₁.2.2.2.2.2.1.trans h₂.2.2.2.2.2.1, h₁.2.2.2.2.2.2.trans h₂.2.2.2.2.2.2⟩

theorem Subscriber.subscribe_inv (s : Subscriber) (callback : Option Nat)
    (h : s.LiveWhenSubscribed) :
    (s.subscribe callback).subscriber.SameBinding s ∧
    (s.subscribe callback).subscriber.LiveWhenSubscribed := by
  cases happ : s.vsomeip_app_ with
  | none =>
    have hs : s.subscribe callback = { subscriber := s, result := false } := by
      simp [Subscriber.subscribe, happ]
    rw [hs]
    exact ⟨Subscriber.SameBinding.refl s, h⟩
  | some app =>
    cases hsub : s.is_subscribed_ with
    | true =>
      rw [Subscriber.subscribe_again s app callback happ hsub]
      exact ⟨⟨rfl, rfl, rfl, rfl, rfl, rfl, rfl⟩, fun _ => by simp [happ]⟩
    | false =>
      rw [Subscriber.subscribe_first s app callback happ hsub]
      exact ⟨⟨rfl, rfl, rfl, rfl, rfl, rfl, by simp [happ]⟩, fun _ => rfl⟩

theorem Subscriber.subscribeGeneric_inv (s : Subscriber) (callback : Option Nat)
    (h : s.LiveWhenSubscribed) :
    (s.subscribeGeneric callback).subscriber.SameBinding s ∧
    (s.subscribeGeneric callback).subscriber.LiveWhenSubscribed := by
  cases happ : s.vsomeip_app_ with
  | none =>
    have hs : s.subscribeGeneric callback = { subscriber := s, result := false } := by
      simp [Subscriber.subscribeGeneric, happ]
    rw [hs]
    exact ⟨Subscriber.SameBinding.refl s, h⟩
  | some app =>
    cases hsub : s.is_subscribed_ with
    | true =>
      rw [Subscriber.subscribeGeneric_again s app callback happ hsub]
      exact ⟨⟨rfl, rfl, rfl, rfl, rfl, rfl, rfl⟩, fun _ => by simp [happ]⟩
    | false =>
      rw [Subscriber.subscribeGeneric_first s app callback happ hsub]
      exact ⟨⟨rfl, rfl, rfl, rfl, rfl, rfl, by simp [happ]⟩, fun _ => rfl⟩

theorem Subscriber.unsubscribe_inv (s : Subscriber) (h : s.LiveWhenSubscribed) :
    s.unsubscribe.subscriber.SameBinding s ∧ s.unsubscribe.subscriber.LiveWhenSubscribed := by
  cases happ : s.vsomeip_app_ with
  | none =>
    have hs : s.unsubscribe = { subscriber := s, result := !s.is_subscribed_ } := by
      simp [Subscriber.unsubscribe, happ]
    rw [hs]
    exact ⟨Subscriber.SameBinding.refl s, h⟩
  | some app =>
    cases hsub : s.is_subscribed_ with
    | true =>
      rw [Subscriber.unsubscribe_subscribed s app happ hsub]
      exact ⟨⟨rfl, rfl, rfl, rfl, rfl, rfl, by simp [happ]⟩, fun _ => rfl⟩
    | false =>
      rw [Subscriber.unsubscribe_not_subscribed s app happ hsub]
      exact ⟨Subscriber.SameBinding.refl s, h⟩

theorem Subscriber.onMessageReceived_subscriber (pb : Proto protos.SimpleNotification)
    (s : Subscriber) (msg : Message) : (s.onMessageReceived pb msg).subscriber = s := by
  unfold Subscriber.onMessageReceived
  split
  · split
    · rfl
    · split
      · rfl
      · split
        · split <;> rfl
        · rfl
  · rfl

theorem Subscriber.step_keeps_binding (pb : Proto protos.SimpleNotification) (s : Subscriber)
    (event : SubscriberEvent) (h : s.LiveWhenSubscribed) :
    (s.step pb event).SameBinding s ∧ (s.step pb event).LiveWhenSubscribed := by
  cases event with
  | subscribe callback => exact Subscriber.subscribe_inv s callback h
  | subscribeGeneric callback => exact Subscriber.subscribeGeneric_inv s callback h
  | unsubscribe => exact Subscriber.unsubscribe_inv s h
  | onAvailabilityChanged service instance_ is_available =>
    simp only [Subscriber.step, Subscriber.onAvailabilityChanged]
    split
    · exact ⟨⟨rfl, rfl, rfl, rfl, rfl, rfl, rfl⟩, h⟩
    · exact ⟨Subscriber.SameBinding.refl s, h⟩
  | onMessageReceived msg =>
    simp only [Subscriber.step, Subscriber.onMessageReceived_subscriber]
    exact ⟨Subscriber.SameBinding.refl s, h⟩

theorem Subscriber.run_keeps_binding (pb : Proto protos.SimpleNotification)
    (events : List SubscriberEvent) :
    ∀ s : Subscriber, s.LiveWhenSubscribed →
      (s.run pb events).SameBinding s ∧ (s.run pb events).LiveWhenSubscribed := by
  induction events with
  | nil => exact fun s h => ⟨Subscriber.SameBinding.refl s, h⟩
  | cons event rest ih =>
    intro s h
    have hstep := Subscriber.step_keeps_binding pb s event h
    have hrest := ih (s.step pb event) hstep.2
    exact ⟨hrest.1.trans hstep.1, hrest.2⟩

theorem Subscriber.new_live_when_subscribed (topic_name : String) (app : Option Application)
    (service_id instance_id event : Nat) (is_eventgroup : Bool) :
    (Subscriber.new topic_name app service_id instance_id event is_eventgroup).LiveWhenSubscribed := by
  intro h
  cases app with
  | none => simp [Subscriber.new] at h
  | some app => cases is_eventgroup <;> simp [Subscriber.new] at h

/-- C15: for a subscriber in any state it can reach (constructed with any handle, after any
sequence of subscribe, subscribeGeneric, unsubscribe, availability and message events)
that is subscribed: `unsubscribe()` returns true and issues three transport calls, of
which exactly one is a `release_event`; a second `unsubscribe()` returns true as well,
issues no transport call and changes nothing. -/
theorem unsubscribe_twice (pb : Proto protos.SimpleNotification) (topic_name : String)
    (app : Option Application) (service_id instance_id event : Nat) (is_eventgroup : Bool)
    (events : List SubscriberEvent) (s : Subscriber)
    (hreach : s = (Subscriber.new topic_name app service_id instance_id event
      is_eventgroup).run pb events)
    (hsub : s.is_subscribed_ = true) :
    s.unsubscribe.result = true ∧
    s.unsubscribe.subscriber.unsubscribe
      = { subscriber := s.unsubscribe.subscriber, result := true } ∧
    s.unsubscribe.subscriber.calls = s.calls ++
      [.unregister_message_handler s.service_id_ s.instance_id_ s.event_id_or_group_,
       .release_event s.service_id_ s.instance_id_ s.event_id_or_group_
         (if s.is_eventgroup_ then s.subscribed_eventgroups_ else []),
       .unregister_availability_handler s.service_id_ s.instance_id_] ∧
    (s.unsubscribe.subscriber.unsubscribe.subscriber.calls.filter
        AppCall.is_release_event).length
      = (s.calls.filter AppCall.is_release_event).length + 1 := by
  have hinv := (Subscriber.run_keeps_binding pb events _
    (Subscriber.new_live_when_subscribed topic_name app service_id instance_id event is_eventgroup)).2
  rw [← hreach] at hinv
  have hlive := hinv hsub
  cases happ : s.vsomeip_app_ with
  | none => simp [happ] at hlive
  | some app₁ =>
    rw [Subscriber.unsubscribe_subscribed s app₁ happ hsub]
    dsimp only
    rw [Subscriber.unsubscribe_not_subscribed _ _ rfl rfl]
    refine ⟨rfl, rfl, ?_, ?_⟩
    · simp [Subscriber.calls, happ]
    · simp [Subscriber.calls, happ, List.filter_append, List.filter_cons,
        AppCall.is_release_event]

/-- C15, at the input of `subscriber_test.cpp`: the subscriber after `subscribe`, then
`unsubscribe()` twice. -/
theorem unsubscribe_twice_witness :
    subscribed_subscriber.unsubscribe.subscriber.unsubscribe
      = { subscriber := subscribed_subscriber.unsubscribe.subscriber, result := true } ∧
    (subscribed_subscriber.unsubscribe.subscriber.unsubscribe.subscriber.calls.filter
        AppCall.is_release_event) = [.release_event 0x1111 0x0001 0x9100 [0x9100]] :=
  ⟨(unsubscribe_twice notification_codec "TestTopic" (some test_app) 0x1111 0x0001 0x9100 true
      [.subscribe (some 1)] subscribed_subscriber rfl (by decide)).2.1,
   by decide⟩

theorem Subscriber.new_of_live_handle (topic_name : String) (app : Application)
    (service_id instance_id event : Nat) (is_eventgroup : Bool) :
    Subscriber.new topic_name (some app) service_id instance_id event is_eventgroup =
      { topic_name_ := topic_name, vsomeip_app_ := some app, service_id_ := service_id,
        instance_id_ := instance_id, event_id_or_group_ := event,
        is_eventgroup_ := is_eventgroup, notification_callback_ := none,
        generic_callback_ := none, is_subscribed_ := false, service_available_ := false,
        subscribed_eventgroups_ := if is_eventgroup then [event] else [] } := by
  cases is_eventgroup <;> simp [Subscriber.new]

/-- C16: for a subscriber in any state it can reach that is subscribed, whatever callback
is bound and whatever availability was last seen: `unsubscribe()` issues the unregistration
of the message handler, the release of the event binding and the unregistration of the
availability handler, and the subscriber it leaves is the one the constructor builds from
the same arguments on the same transport handle: not subscribed, no typed and no generic
callback, availability false, topic, endpoint and binding as before. -/
theorem unsubscribe_resets (pb : Proto protos.SimpleNotification) (topic_name : String)
    (app : Option Application) (service_id instance_id event : Nat) (is_eventgroup : Bool)
    (events : List SubscriberEvent) (s : Subscriber)
    (hreach : s = (Subscriber.new topic_name app service_id instance_id event
      is_eventgroup).run pb events)
    (hsub : s.is_subscribed_ = true) :
    s.unsubscribe.subscriber.calls = s.calls ++
      [.unregister_message_handler service_id instance_id event,
       .release_event service_id instance_id event (if is_eventgroup then [event] else []),
       .unregister_availability_handler service_id instance_id] ∧
    s.unsubscribe.subscriber =
      Subscriber.new topic_name s.unsubscribe.subscriber.vsomeip_app_
        service_id instance_id event is_eventgroup ∧
    s.unsubscribe.subscriber.vsomeip_app_.isSome = true ∧
    s.unsubscribe.subscriber.is_subscribed_ = false ∧
    s.unsubscribe.subscriber.notification_callback_ = none ∧
    s.unsubscribe.subscriber.generic_callback_ = none ∧
    s.unsubscribe.subscriber.service_available_ = false ∧
    s.unsubscribe.subscriber.SameBinding s := by
  have hinv := Subscriber.run_keeps_binding pb events _
    (Subscriber.new_live_when_subscribed topic_name app service_id instance_id event is_eventgroup)
  rw [← hreach] at hinv
  obtain ⟨hsame, hlive⟩ := hinv
  have hsome := hlive hsub
  cases happ : s.vsomeip_app_ with
  | none => simp [happ] at hsome
  | some app₁ =>
    cases app with
    | none =>
      have := hsame.2.2.2.2.2.2
      simp [happ, Subscriber.new] at this
    | some app₀ =>
      rw [Subscriber.new_of_live_handle] at hsame
      obtain ⟨h₁, h₂, h₃, h₄, h₅, h₆, _⟩ := hsame
      dsimp only at h₁ h₂ h₃ h₄ h₅ h₆
      rw [Subscriber.unsubscribe_subscribed s app₁ happ hsub]
      dsimp only
      rw [Subscriber.new_of_live_handle]
      refine ⟨?_, ?_, rfl, rfl, rfl, rfl, rfl, ⟨rfl, rfl, rfl, rfl, rfl, rfl, by simp [happ]⟩⟩
      · simp only [Subscriber.calls, happ, h₂, h₃, h₄, h₅, h₆]
        cases is_eventgroup <;> rfl
      · simp only [h₁, h₂, h₃, h₄, h₅, h₆]

/-- C16, at the input of `subscriber_test.cpp`: the subscriber after `subscribe` and an
availability notification, then `unsubscribe()`. -/
theorem unsubscribe_resets_witness :
    ((subscribed_subscriber.onAvailabilityChanged 0x1111 0x0001 true).unsubscribe).subscriber
      = Subscriber.new "TestTopic"
          (some { test_app with calls :=
            [.register_availability_handler 0x1111 0x0001,
             .register_message_handler 0x1111 0x0001 0x9100,
             .request_event 0x1111 0x0001 0x9100 [0x9100],
             .unregister_message_handler 0x1111 0x0001 0x9100,
             .release_event 0x1111 0x0001 0x9100 [0x9100],
             .unregister_availability_handler 0x1111 0x0001] })
          0x1111 0x0001 0x9100 true :=
  (unsubscribe_resets notification_codec "TestTopic" (some test_app) 0x1111 0x0001 0x9100 true
      [.subscribe (some 1), .onAvailabilityChanged 0x1111 0x0001 true]
      (subscribed_subscriber.onAvailabilityChanged 0x1111 0x0001 true) rfl
      (by decide)).2.1

/-! ## Subscriber: inbound messages -/

/-- C17 (counterexample): the subscribers are bound to service 0x1111, instance 1. A
message of service 0x1111 but instance 2 is handed to the bound callback all the same,
by the subscriber bound to an eventgroup and by the one bound to a single event. -/
theorem onMessageReceived_delivers_other_instance :
    subscribed_subscriber.service_id_ = 0x1111 ∧ subscribed_subscriber.instance_id_ = 1 ∧
    ({ notification_message with instance_ := 2 } : Message).instance_ = 2 ∧
    (subscribed_subscriber.onMessageReceived notification_codec
        { notification_message with instance_ := 2 }).called
      = [.notification 1 notification_3] ∧
    event_subscriber.is_eventgroup_ = false ∧ event_subscriber.instance_id_ = 1 ∧
    (event_subscriber.onMessageReceived notification_codec
        { notification_message with instance_ := 2 }).called
      = [.notification 1 notification_3] := by
  decide

/-- C17 (amended): for every subscriber state and every message. (1) A message whose
service identifier differs from the subscriber's bound service identifier, and a message to
a non-group binding whose event id differs from the bound event id, calls no callback and
leaves the subscriber as it is. (2) The instance identifier of the message is not looked
at: replacing it by any other value never changes what `onMessageReceived` does, whether
the message is filtered out or dispatched. (3) So a message of the bound service (and, for
a non-group binding, of the bound event) that carries any instance identifier whatever and
a decodable payload of at least one byte is handed to the bound typed callback. -/
theorem Subscriber_onMessageReceived_filters (pb : Proto protos.SimpleNotification)
    (s : Subscriber) (msg : Message) :
    ((msg.service ≠ s.service_id_ ∨
        (s.is_eventgroup_ = false ∧ msg.get_event ≠ s.event_id_or_group_)) →
      s.onMessageReceived pb msg = { subscriber := s, called := [] }) ∧
    (∀ instance_, s.onMessageReceived pb { msg with instance_ := instance_ }
      = s.onMessageReceived pb msg) ∧
    (∀ instance_ callback data notification,
      msg.service = s.service_id_ →
      (s.is_eventgroup_ = true ∨ msg.get_event = s.event_id_or_group_) →
      s.notification_callback_ = some callback →
      msg.payload = some data → data.length ≠ 0 →
      pb.ParseFromArray data = some notification →
      s.onMessageReceived pb { msg with instance_ := instance_ }
        = { subscriber := s, called := [.notification callback notification] }) := by
  refine ⟨?_, fun _ => rfl, ?_⟩
  · intro h
    have hfilter : ¬ (msg.service = s.service_id_ ∧
        (s.is_eventgroup_ = true ∨ msg.get_event = s.event_id_or_group_)) := by
      rintro ⟨h₁, h₂⟩
      rcases h with h | ⟨hg, he⟩
      · exact h h₁
      · rcases h₂ with h₂ | h₂
        · rw [hg] at h₂
          exact Bool.false_ne_true h₂
        · exact he h₂
    simp only [Subscriber.onMessageReceived, hfilter, if_false]
  · intro instance_ callback data notification hservice hevent hcallback hpayload hlength
      hparse
    have hfilter : msg.service = s.service_id_ ∧
        (s.is_eventgroup_ = true ∨ msg.get_event = s.event_id_or_group_) :=
      ⟨hservice, hevent⟩
    show s.onMessageReceived pb msg = _
    simp only [Subscriber.onMessageReceived, hfilter, if_true, hpayload, hlength, if_false,
      hcallback, hparse, and_self]

/-- C17 (amended), at concrete inputs: a message of another service to the eventgroup
subscriber, a message of another event to the single-event subscriber, and a message of
the bound service and event from instance 2 to the subscriber bound to instance 1. -/
theorem Subscriber_onMessageReceived_filters_witness :
    subscribed_subscriber.onMessageReceived notification_codec
        { notification_message with service := 0x2222 }
      = { subscriber := subscribed_subscriber, called := [] } ∧
    event_subscriber.onMessageReceived notification_codec
        { notification_message with method := 0x8002 }
      = { subscriber := event_subscriber, called := [] } ∧
    event_subscriber.instance_id_ = 1 ∧
    event_subscriber.onMessageReceived notification_codec
        { notification_message with instance_ := 2 }
      = { subscriber := event_subscriber, called := [.notification 1 notification_3] } :=
  ⟨(Subscriber_onMessageReceived_filters notification_codec subscribed_subscriber
      { notification_message with service := 0x2222 }).1 (Or.inl (by decide)),
   (Subscriber_onMessageReceived_filters notification_codec event_subscriber
      { notification_message with method := 0x8002 }).1 (Or.inr (by decide)),
   by decide,
   (Subscriber_onMessageReceived_filters notification_codec event_subscriber
      notification_message).2.2 2 1 _ notification_3 (by decide) (by decide) (by decide)
      rfl (by decide) (by decide)⟩

/-- C18: for a message that passes the filter of `onMessageReceived` while a typed
callback is bound: a payload of at least one byte that the decoder accepts makes the
subscriber call that callback exactly once, with the decoded notification; an absent
payload, a zero-length payload and a payload the decoder rejects make it call nothing.
In every case the operation returns normally and the subscriber is as it was. -/
theorem Subscriber_dispatch (pb : Proto protos.SimpleNotification) (s : Subscriber)
    (msg : Message) (callback : Nat)
    (hfilter : msg.service = s.service_id_ ∧
      (s.is_eventgroup_ = true ∨ msg.get_event = s.event_id_or_group_))
    (hcallback : s.notification_callback_ = some callback) :
    (∀ data notification, msg.payload = some data → data.length ≠ 0 →
      pb.ParseFromArray data = some notification →
      s.onMessageReceived pb msg
        = { subscriber := s, called := [.notification callback notification] }) ∧
    (msg.payload = none → s.onMessageReceived pb msg = { subscriber := s, called := [] }) ∧
    (msg.payload = some [] → s.onMessageReceived pb msg = { subscriber := s, called := [] }) ∧
    (∀ data, msg.payload = some data → pb.ParseFromArray data = none →
      s.onMessageReceived pb msg = { subscriber := s, called := [] }) ∧
    (s.onMessageReceived pb msg).subscriber = s := by
  refine ⟨?_, ?_, ?_, ?_, Subscriber.onMessageReceived_subscriber pb s msg⟩
  · intro data notification hpayload hlength hparse
    simp only [Subscriber.onMessageReceived, hfilter, and_self, if_true, hpayload, hlength,
      if_false, hcallback, hparse]
  · intro hpayload
    simp only [Subscriber.onMessageReceived, hfilter, and_self, if_true, hpayload]
  · intro hpayload
    simp only [Subscriber.onMessageReceived, hfilter, and_self, if_true, hpayload,
      List.length_nil]
  · intro data hpayload hparse
    simp only [Subscriber.onMessageReceived, hfilter, and_self, if_true, hpayload, hcallback,
      hparse]
    split <;> rfl

/-- C18, at concrete inputs: the eventgroup subscriber with the callback 1 receives a
message that carries `notification_3`, a message without payload bytes, and a message
whose bytes `[18, 5, 72, 105]` the decoder rejects. -/
theorem Subscriber_dispatch_witness :
    subscribed_subscriber.onMessageReceived notification_codec notification_message
      = { subscriber := subscribed_subscriber, called := [.notification 1 notification_3] } ∧
    subscribed_subscriber.onMessageReceived notification_codec
        { notification_message with payload := some [] }
      = { subscriber := subscribed_subscriber, called := [] } ∧
    subscribed_subscriber.onMessageReceived notification_codec
        { notification_message with payload := some [18, 5, 72, 105] }
      = { subscriber := subscribed_subscriber, called := [] } :=
  ⟨(Subscriber_dispatch notification_codec subscribed_subscriber notification_message 1
      (by decide) (by decide)).1 [8, 3, 18, 2, 72, 105] notification_3 rfl (by decide)
        (by decide),
   (Subscriber_dispatch notification_codec subscribed_subscriber
      { notification_message with payload := some [] } 1 (by decide) (by decide)).2.2.1 rfl,
   (Subscriber_dispatch notification_codec subscribed_subscriber
      { notification_message with payload := some [18, 5, 72, 105] } 1 (by decide)
        (by decide)).2.2.2.1 [18, 5, 72, 105] rfl (by decide)⟩

/-! ## Server side: the reply -/

theorem CommunicationManager.sent_by_Echo_done (pb : Protos) (rt : Runtime) (req_msg : Message)
    (response : protos.EchoResponse) :
    sentByHandler (CommunicationManager.Echo_done pb rt req_msg response) =
      [match pb.EchoResponse.SerializeToString response with
       | none => { rt.create_response req_msg with return_code := .E_SERIALIZATION }
       | some bytes => { rt.create_response req_msg with payload := some bytes }] := by
  unfold CommunicationManager.Echo_done
  cases pb.EchoResponse.SerializeToString response <;> rfl

theorem CommunicationManager.sent_by_Add_done (pb : Protos) (rt : Runtime) (req_msg : Message)
    (response : protos.AddResponse) :
    sentByHandler (CommunicationManager.Add_done pb rt req_msg response) =
      [match pb.AddResponse.SerializeToString response with
       | none => { rt.create_response req_msg with return_code := .E_SERIALIZATION }
       | some bytes => { rt.create_response req_msg with payload := some bytes }] := by
  unfold CommunicationManager.Add_done
  cases pb.AddResponse.SerializeToString response <;> rfl

/-- C21: for a request that was decoded (payload of at least one byte, accepted by the
decoder) and a service implementation that completes, that is, runs the completion closure
with the response `response`: the handler sends exactly one message. When encoding the
response fails it is `create_response` of the request with the return code
`E_SERIALIZATION` and the payload `create_response` gave it; otherwise it is
`create_response` of the request with the encoded response bytes as payload and the
return code `create_response` gave it. -/
theorem handler_sends_one_reply_on_completion (pb : Protos) (rt : Runtime)
    (service_impl : SampleRpc) (req_msg : Message) (data : List Nat)
    (hpayload : req_msg.payload = some data) (hlength : data.length ≠ 0) :
    (∀ request response, pb.EchoRequest.ParseFromArray data = some request →
      service_impl.Echo request = some response →
      (pb.EchoResponse.SerializeToString response = none →
        sentByHandler (CommunicationManager.Echo_handler pb rt service_impl req_msg)
          = [{ rt.create_response req_msg with return_code := .E_SERIALIZATION }]) ∧
      (∀ bytes, pb.EchoResponse.SerializeToString response = some bytes →
        sentByHandler (CommunicationManager.Echo_handler pb rt service_impl req_msg)
          = [{ rt.create_response req_msg with payload := some bytes }]) ∧
      (sentByHandler (CommunicationManager.Echo_handler pb rt service_impl req_msg)).length
        = 1) ∧
    (∀ request response, pb.AddRequest.ParseFromArray data = some request →
      service_impl.Add request = some response →
      (pb.AddResponse.SerializeToString response = none →
        sentByHandler (CommunicationManager.Add_handler pb rt service_impl req_msg)
          = [{ rt.create_response req_msg with return_code := .E_SERIALIZATION }]) ∧
      (∀ bytes, pb.AddResponse.SerializeToString response = some bytes →
        sentByHandler (CommunicationManager.Add_handler pb rt service_impl req_msg)
          = [{ rt.create_response req_msg with payload := some bytes }]) ∧
      (sentByHandler (CommunicationManager.Add_handler pb rt service_impl req_msg)).length
        = 1) := by
  have hlen : data.length > 0 := Nat.pos_of_ne_zero hlength
  constructor
  · intro request response hparse himpl
    have h : sentByHandler (CommunicationManager.Echo_handler pb rt service_impl req_msg)
        = sentByHandler (CommunicationManager.Echo_done pb rt req_msg response) := by
      simp only [CommunicationManager.Echo_handler, hpayload, hlen, if_true, hparse, himpl,
        sentByHandler]
    rw [h, CommunicationManager.sent_by_Echo_done]
    refine ⟨fun hser => by rw [hser], fun bytes hser => by rw [hser], rfl⟩
  · intro request response hparse himpl
    have h : sentByHandler (CommunicationManager.Add_handler pb rt service_impl req_msg)
        = sentByHandler (CommunicationManager.Add_done pb rt req_msg response) := by
      simp only [CommunicationManager.Add_handler, hpayload, hlen, if_true, hparse, himpl,
        sentByHandler]
    rw [h, CommunicationManager.sent_by_Add_done]
    refine ⟨fun hser => by rw [hser], fun bytes hser => by rw [hser], rfl⟩

/-- C21, at a concrete input: the Add request `(10, 32)` handled over the sample
implementation; the one message sent is the reply whose payload encodes `sum = 42`. -/
theorem handler_sends_one_reply_on_completion_witness :
    sentByHandler (CommunicationManager.Add_handler wire_codec vsomeip_runtime MySampleRpcImpl
        request_7_41)
      = [{ vsomeip_runtime.create_response request_7_41 with payload := some [8, 42] }] :=
  ((handler_sends_one_reply_on_completion wire_codec vsomeip_runtime MySampleRpcImpl
    request_7_41 [8, 10, 16, 32] rfl (by decide)).2 ⟨10, 32⟩ ⟨42⟩ (by decide) (by decide)).2.1
      [8, 42] (by decide)

/-! ## The sample implementation -/

/-- C26: for integers `a` and `b` whose sum fits in 32 bits, `MySampleRpcImpl::Add` writes
`sum = a + b` into the response; it runs the completion closure exactly once when one is
supplied, and not at all (returning normally) when none is supplied. -/
theorem MySampleRpcImpl_Add_sum (a b : Int) (done : Bool)
    (hlo : -2 ^ 31 ≤ a + b) (hhi : a + b < 2 ^ 31) :
    (MySampleRpcImpl.Add ⟨a, b⟩ done).1.sum = a + b ∧
    (MySampleRpcImpl.Add ⟨a, b⟩ true).2 = 1 ∧
    (MySampleRpcImpl.Add ⟨a, b⟩ false).2 = 0 ∧
    (MySampleRpcImpl.Add ⟨a, b⟩ false).1.sum = a + b ∧
    SampleRpc.Add MySampleRpcImpl ⟨a, b⟩ = some ⟨a + b⟩ := by
  have h := wrapInt32_of_fits (a + b) hlo hhi
  simp [MySampleRpcImpl.Add, MySampleRpcImpl, h]

/-- C26, at the input of `rpc_client_test.cpp`: 10 and 32 give 42. -/
theorem MySampleRpcImpl_Add_sum_witness :
    (MySampleRpcImpl.Add ⟨10, 32⟩ true).1.sum = 42 ∧ (MySampleRpcImpl.Add ⟨10, 32⟩ true).2 = 1 :=
  have h := MySampleRpcImpl_Add_sum 10 32 true (by decide) (by decide)
  ⟨h.1, h.2.1⟩

/-! ## Publisher: sending -/

theorem offerEventCount_append (calls₁ calls₂ : List AppCall) :
    offerEventCount (calls₁ ++ calls₂) = offerEventCount calls₁ + offerEventCount calls₂ := by
  simp [offerEventCount, List.filter_append]

theorem Publisher.publishGeneric_binding (p : Publisher) (serialized : Option (List Nat)) :
    (p.publishGeneric serialized).publisher.SameBinding p := by
  cases happ : p.vsomeip_app_ with
  | none =>
    rw [Publisher.publishGeneric_null p serialized happ]
    exact ⟨rfl, rfl, rfl, rfl, rfl⟩
  | some app =>
    have hoffered : ∀ (q : Publisher) (app₁ : Application), q.vsomeip_app_ = some app₁ →
        q.is_offered_ = true → (q.publishGeneric serialized).publisher.SameBinding q := by
      intro q app₁ hq hoff
      rw [Publisher.publishGeneric_offered q app₁ serialized hq hoff]
      cases serialized <;> exact ⟨rfl, rfl, rfl, rfl, rfl⟩
    cases hoff : p.is_offered_ with
    | true => exact hoffered p app happ hoff
    | false =>
      rw [Publisher.publishGeneric_not_offered p app serialized happ hoff]
      have hoffer := Publisher.offer_of_not_offered p app happ hoff
      have h := hoffered p.offer _ (by rw [hoffer]) (by rw [hoffer])
      have hb : p.offer.SameBinding p := by rw [hoffer]; exact ⟨rfl, rfl, rfl, rfl, rfl⟩
      exact ⟨h.1.trans hb.1, h.2.1.trans hb.2.1, h.2.2.1.trans hb.2.2.1,
        h.2.2.2.1.trans hb.2.2.2.1, h.2.2.2.2.trans hb.2.2.2.2⟩

theorem Publisher.run_binding (messages : List (Option (List Nat))) :
    ∀ p : Publisher, (p.run messages).SameBinding p := by
  induction messages with
  | nil => exact fun p => ⟨rfl, rfl, rfl, rfl, rfl⟩
  | cons serialized rest ih =>
    intro p
    have h := ih (p.publishGeneric serialized).publisher
    have hb := Publisher.publishGeneric_binding p serialized
    exact ⟨h.1.trans hb.1, h.2.1.trans hb.2.1, h.2.2.1.trans hb.2.2.1,
      h.2.2.2.1.trans hb.2.2.2.1, h.2.2.2.2.trans hb.2.2.2.2⟩

theorem Publisher.new_binding (topic_name : String) (app : Option Application)
    (service_id instance_id event : Nat) (is_eventgroup : Bool) :
    (Publisher.new topic_name app service_id instance_id event is_eventgroup).service_id_
      = service_id ∧
    (Publisher.new topic_name app service_id instance_id event is_eventgroup).instance_id_
      = instance_id ∧
    (Publisher.new topic_name app service_id instance_id event is_eventgroup).event_id_or_group_
      = event ∧
    (Publisher.new topic_name app service_id instance_id event is_eventgroup).is_eventgroup_
      = is_eventgroup := by
  cases app with
  | none => exact ⟨rfl, rfl, rfl, rfl⟩
  | some app => rw [Publisher.new_of_handle]; exact ⟨rfl, rfl, rfl, rfl⟩

/-- C25: for a publisher in any state it can reach (constructed with any handle, after any
number of publish calls) that is offered, and any message: when encoding yields `bytes`,
`publish` issues exactly one transport call, `fire_event` for a group binding and `notify`
otherwise, with the service id, instance id and event-or-group id the publisher was
constructed with and the payload `bytes`, and returns true; when encoding fails it returns
false and leaves the publisher, hence the transport, as it was. The publisher is offered
afterwards in both cases. -/
theorem publish_sends_to_binding (pb : Proto protos.SimpleNotification) (topic_name : String)
    (app : Option Application) (service_id instance_id event : Nat) (is_eventgroup : Bool)
    (messages : List (Option (List Nat))) (p : Publisher)
    (message : protos.SimpleNotification)
    (hreach : p = (Publisher.new topic_name app service_id instance_id event
      is_eventgroup).run messages)
    (hoff : p.is_offered_ = true) :
    (∀ bytes, pb.SerializeToString message = some bytes →
      (p.publish pb message).publisher.calls = p.calls ++
        [if is_eventgroup then .fire_event service_id instance_id event bytes
         else .notify service_id instance_id event bytes] ∧
      (p.publish pb message).result = .published ∧
      (p.publish pb message).result.toBool = true ∧
      (p.publish pb message).publisher.is_offered_ = true) ∧
    (pb.SerializeToString message = none →
      (p.publish pb message).publisher = p ∧
      (p.publish pb message).result = .serialize_failed ∧
      (p.publish pb message).result.toBool = false) := by
  have hinv := Publisher.run_live_when_offered messages _
    (Publisher.new_live_when_offered topic_name app service_id instance_id event is_eventgroup)
  have hbind := Publisher.run_binding messages
    (Publisher.new topic_name app service_id instance_id event is_eventgroup)
  have hnew := Publisher.new_binding topic_name app service_id instance_id event is_eventgroup
  rw [← hreach] at hinv hbind
  obtain ⟨_, hb₁, hb₂, hb₃, hb₄⟩ := hbind
  rw [hnew.1] at hb₁
  rw [hnew.2.1] at hb₂
  rw [hnew.2.2.1] at hb₃
  rw [hnew.2.2.2] at hb₄
  have hlive := hinv hoff
  cases happ : p.vsomeip_app_ with
  | none => simp [happ] at hlive
  | some app₁ =>
    constructor
    · intro bytes hser
      have h : p.publish pb message = p.publishGeneric (some bytes) := by
        unfold Publisher.publish
        rw [hser]
      rw [h, Publisher.publishGeneric_offered p app₁ _ happ hoff]
      refine ⟨?_, rfl, rfl, hoff⟩
      simp only [Publisher.calls, happ, Application.call, hb₁, hb₂, hb₃, hb₄]
    · intro hser
      have h : p.publish pb message = p.publishGeneric none := by
        unfold Publisher.publish
        rw [hser]
      rw [h, Publisher.publishGeneric_offered p app₁ _ happ hoff]
      exact ⟨rfl, rfl, rfl⟩

/-- C25, at the input of `publisher_test.cpp`: the publisher of "TestTopic" (an eventgroup)
publishes `notification_3`. -/
theorem publish_sends_to_binding_witness :
    (test_publisher.publish notification_codec notification_3).publisher.calls
      = [.offer_event 0x1111 0x0001 0x9100 [0x9100],
         .fire_event 0x1111 0x0001 0x9100 [8, 3, 18, 2, 72, 105]] :=
  ((publish_sends_to_binding notification_codec "TestTopic" (some test_app) 0x1111 0x0001
      0x9100 true [] test_publisher notification_3 rfl (by decide)).1
    [8, 3, 18, 2, 72, 105] (by decide)).1

theorem Publisher.new_offered_once (topic_name : String) (app : Application)
    (service_id instance_id event : Nat) (is_eventgroup : Bool) :
    Publisher.OfferedOnce app
      (Publisher.new topic_name (some app) service_id instance_id event is_eventgroup)
      (Publisher.new topic_name (some app) service_id instance_id event is_eventgroup) := by
  refine ⟨?_, ?_, ⟨rfl, rfl, rfl, rfl, rfl⟩, ?_⟩
  · rw [Publisher.new_of_handle]; rfl
  · rw [Publisher.new_of_handle]
  · rw [Publisher.new_of_handle]
    simp [Publisher.calls, Application.call, offerEventCount_append]
    rfl

theorem Publisher.publishGeneric_offered_once (app : Application) (origin p : Publisher)
    (serialized : Option (List Nat)) (h : Publisher.OfferedOnce app origin p) :
    Publisher.OfferedOnce app origin (p.publishGeneric serialized).publisher ∧
    (p.publishGeneric serialized).result =
      (match serialized with
       | none => PublishResult.serialize_failed
       | some _ => PublishResult.published) := by
  obtain ⟨hlive, hoff, hbind, hcount⟩ := h
  cases happ : p.vsomeip_app_ with
  | none => simp [happ] at hlive
  | some app₁ =>
    rw [Publisher.publishGeneric_offered p app₁ serialized happ hoff]
    cases serialized with
    | none => exact ⟨⟨hlive, hoff, hbind, hcount⟩, rfl⟩
    | some bytes =>
      refine ⟨⟨rfl, hoff, hbind, ?_⟩, rfl⟩
      rw [← hcount]
      simp only [Publisher.calls, happ, Application.call, offerEventCount_append]
      cases p.is_eventgroup_ <;> rfl

theorem Publisher.run_offered_once (app : Application) (origin : Publisher)
    (messages : List (Option (List Nat))) :
    ∀ p : Publisher, Publisher.OfferedOnce app origin p →
      Publisher.OfferedOnce app origin (p.run messages) := by
  induction messages with
  | nil => exact fun p h => h
  | cons serialized rest ih =>
    exact fun p h => ih _ (Publisher.publishGeneric_offered_once app origin p serialized h).1

/-- C27: a publisher constructed with a non-null handle is offered right after
construction and after any number of publish calls. Up to and including its destruction
it has issued exactly one `offer_event` (`offer()` on it changes nothing), so
`publishGeneric` never leaves through the exit of a failed offer: it returns true when
the message is encoded and false, through the serialization exit, only when encoding
fails. -/
theorem live_publisher_is_always_offered (topic_name : String) (app : Application)
    (service_id instance_id event : Nat) (is_eventgroup : Bool)
    (messages : List (Option (List Nat))) (p : Publisher)
    (hreach : p = (Publisher.new topic_name (some app) service_id instance_id event
      is_eventgroup).run messages) :
    (Publisher.new topic_name (some app) service_id instance_id event
      is_eventgroup).isOffered = true ∧
    p.isOffered = true ∧
    offerEventCount p.calls = offerEventCount app.calls + 1 ∧
    offerEventCount p.destructor.calls = offerEventCount app.calls + 1 ∧
    p.offer = p ∧
    ∀ serialized,
      (p.publishGeneric serialized).result ≠ .not_offered ∧
      (p.publishGeneric serialized).result ≠ .no_application ∧
      ((p.publishGeneric serialized).result.toBool = false ↔ serialized = none) := by
  have hnew := Publisher.new_offered_once topic_name app service_id instance_id event
    is_eventgroup
  have hinv := Publisher.run_offered_once app _ messages _ hnew
  rw [← hreach] at hinv
  obtain ⟨hlive, hoff, hbind, hcount⟩ := hinv
  refine ⟨hnew.2.1, hoff, hcount, ?_, ?_, ?_⟩
  · cases happ : p.vsomeip_app_ with
    | none => simp [happ] at hlive
    | some app₁ =>
      rw [← hcount]
      simp only [Publisher.destructor, Publisher.calls, happ, hoff, if_true, Application.call,
        offerEventCount_append]
      rfl
  · cases happ : p.vsomeip_app_ with
    | none => simp [happ] at hlive
    | some app₁ => simp [Publisher.offer, happ, hoff]
  · intro serialized
    rw [(Publisher.publishGeneric_offered_once app _ p serialized
      ⟨hlive, hoff, hbind, hcount⟩).2]
    cases serialized <;> simp [PublishResult.toBool]

/-- C27, at the input of `publisher_test.cpp`: the publisher of "TestTopic" after two
publish calls, one of which failed to encode. -/
theorem live_publisher_is_always_offered_witness :
    (test_publisher.run [some [8, 3], none]).isOffered = true ∧
    offerEventCount (test_publisher.run [some [8, 3], none]).destructor.calls = 1 :=
  have h := live_publisher_is_always_offered "TestTopic" test_app 0x1111 0x0001 0x9100 true
    [some [8, 3], none] (test_publisher.run [some [8, 3], none]) rfl
  ⟨h.2.1, h.2.2.2.1⟩

/-! ## The correlation table: registering over an existing key -/

theorem PendingMap.mem_of_find {m : PendingMap} {key : ExchangeKey} {ctx : PromiseContext}
    (h : m.find key = some ctx) : (key, ctx) ∈ m.entries := by
  simp only [PendingMap.find, Option.map_eq_some'] at h
  obtain ⟨e, he, hctx⟩ := h
  have hmem := List.mem_of_find?_eq_some he
  have hkey : e.1 = key := by simpa using List.find?_some he
  have : e = (key, ctx) := Prod.ext hkey hctx
  rw [← this]
  exact hmem

theorem PendingMap.find_assign_of_ne (m : PendingMap) {key other : ExchangeKey}
    (ctx : PromiseContext) (h : other ≠ key) : (m.assign key ctx).find other = m.find other := by
  have h₁ : (m.assign key ctx).find other = (m.erase key).find other := by
    simp only [PendingMap.find, PendingMap.assign]
    rw [List.find?_cons_of_neg]
    simpa using fun hk => h hk.symm
  rw [h₁, PendingMap.find_erase_of_ne m h]

theorem PendingMap.size_assign_of_find (m : PendingMap) {key : ExchangeKey}
    {old : PromiseContext} (ctx : PromiseContext) (h : m.find key = some old) :
    (m.assign key ctx).size = m.size := by
  rw [← PendingMap.size_erase_of_find m h]
  rfl

theorem PendingMap.mem_keys_assign (m : PendingMap) (key other : ExchangeKey)
    (ctx : PromiseContext) :
    other ∈ (m.assign key ctx).keys ↔ other = key ∨ other ∈ m.keys := by
  simp only [PendingMap.keys, PendingMap.assign, PendingMap.erase, List.map_cons,
    List.mem_cons, List.mem_map, List.mem_filter]
  constructor
  · rintro (h | ⟨e, ⟨he, _⟩, hk⟩)
    · exact Or.inl h
    · exact Or.inr ⟨e, he, hk⟩
  · rintro (h | ⟨e, he, hk⟩)
    · exact Or.inl h
    · by_cases hkey : other = key
      · exact Or.inl hkey
      · exact Or.inr ⟨e, ⟨he, by simpa [hk] using hkey⟩, hk⟩

theorem PendingMap.promises_assign_subset (m : PendingMap) (key : ExchangeKey)
    (ctx : PromiseContext) (promise : Nat) (h : promise ∈ (m.assign key ctx).promises) :
    promise = ctx.promise ∨ promise ∈ m.promises := by
  simp only [PendingMap.promises, PendingMap.assign, PendingMap.erase, List.map_cons,
    List.mem_cons, List.mem_map, List.mem_filter] at h ⊢
  rcases h with h | ⟨e, ⟨he, _⟩, hp⟩
  · exact Or.inl h
  · exact Or.inr ⟨e, he, hp⟩

theorem PendingMap.promises_assign (m : PendingMap) (key : ExchangeKey)
    (ctx : PromiseContext) :
    (m.assign key ctx).promises = ctx.promise :: (m.erase key).promises := rfl

theorem PendingMap.erase_assign (m : PendingMap) (key : ExchangeKey) (ctx : PromiseContext) :
    (m.assign key ctx).erase key = m.erase key := by
  apply PendingMap.ext_entries
  have h := (PendingMap.erase_erase m key)
  have h₁ : ((m.erase key).erase key).entries = (m.erase key).entries := by rw [h]
  simp only [PendingMap.assign, PendingMap.erase] at h₁ ⊢
  rw [List.filter_cons_of_neg (by simp)]
  exact h₁

theorem PendingMap.promises_erase_subset (m : PendingMap) (key : ExchangeKey) (promise : Nat)
    (h : promise ∈ (m.erase key).promises) : promise ∈ m.promises := by
  simp only [PendingMap.promises, PendingMap.erase, List.mem_map, List.mem_filter] at h ⊢
  obtain ⟨e, ⟨he, _⟩, hp⟩ := h
  exact ⟨e, he, hp⟩

theorem RpcClient.deliver_resolves_pending (pb : Protos) (msgs : List Message) :
    ∀ c : RpcClient, ∀ r ∈ (c.deliver pb msgs).resolved, r.1 ∈ c.pending_requests_.promises := by
  induction msgs with
  | nil => intro c r hr; simp [RpcClient.deliver] at hr
  | cons msg rest ih =>
    intro c r hr
    simp only [RpcClient.deliver, List.mem_append] at hr
    by_cases hf : msg.client = c.client_id_ ∧
        (msg.message_type = .MT_RESPONSE ∨ msg.message_type = .MT_ERROR)
    · cases hfind : c.pending_requests_.find (c.client_id_, msg.session) with
      | none =>
        rw [RpcClient.onMessageReceived_miss pb c msg hfind] at hr
        rcases hr with hr | hr
        · simp at hr
        · exact ih c r hr
      | some ctx =>
        rw [RpcClient.onMessageReceived_hit pb c msg ctx hf.1 hf.2 hfind] at hr
        rcases hr with hr | hr
        · simp only [List.mem_singleton] at hr
          rw [hr]
          exact List.mem_map_of_mem (fun e => e.2.promise) (PendingMap.mem_of_find hfind)
        · exact PendingMap.promises_erase_subset _ _ _ (ih _ r hr)
    · rw [RpcClient.onMessageReceived_other pb c msg hf] at hr
      rcases hr with hr | hr
      · simp at hr
      · exact ih c r hr

theorem RpcClient.step_registers (pb : Protos) (rt : Runtime) (c : RpcClient)
    (e : ClientEvent) (ctx : PromiseContext)
    (happ : c.vsomeip_app_.isSome = true) (havailable : c.service_available_ = true)
    (hctx : e.context = some ctx) (hencodes : e.encodes pb = true) :
    (c.step pb rt e).pending_requests_
      = c.pending_requests_.assign (rt.create_request.client, rt.create_request.session) ctx ∧
    (c.step pb rt e).vsomeip_app_.isSome = true ∧
    (c.step pb rt e).service_available_ = true := by
  cases happ₁ : c.vsomeip_app_ with
  | none => simp [happ₁] at happ
  | some app =>
    cases e with
    | Echo promise request =>
      simp only [ClientEvent.context, Option.some.injEq] at hctx
      simp only [ClientEvent.encodes, Option.isSome_iff_exists] at hencodes
      obtain ⟨bytes, hbytes⟩ := hencodes
      subst hctx
      simp only [RpcClient.step, RpcClient.Echo, happ₁, havailable, hbytes]
      exact ⟨rfl, rfl, havailable⟩
    | Add promise request =>
      simp only [ClientEvent.context, Option.some.injEq] at hctx
      simp only [ClientEvent.encodes, Option.isSome_iff_exists] at hencodes
      obtain ⟨bytes, hbytes⟩ := hencodes
      subst hctx
      simp only [RpcClient.step, RpcClient.Add, happ₁, havailable, hbytes]
      exact ⟨rfl, rfl, havailable⟩
    | onAvailabilityChanged service instance_ is_available => simp [ClientEvent.context] at hctx
    | onMessageReceived msg => simp [ClientEvent.context] at hctx

/-- C28: registering under a key that is already in the table keeps the size and the set
of keys, puts the new operation under the key and leaves the other entries alone; the
registration itself yields no resolution, and once the previous operation is replaced no
delivery of messages resolves its promise (the promise being held by no other entry).
Consequently, when two consecutive calls (each `Echo` or `Add`, on an available client,
with requests that encode) register under the same key, the one the created request
carries, the table holds the second call's operation under that key, is as large as
after the first call, and no delivery of messages resolves the first call's promise. -/
theorem registerPromise_replaces_entry :
    (∀ (c : RpcClient) (res_proto : ResProto) (client_id session_id promise : Nat)
        (old : PromiseContext),
      c.pending_requests_.find (client_id, session_id) = some old →
      (c.registerPromise res_proto client_id session_id promise).pending_requests_.size
        = c.pending_requests_.size ∧
      (∀ key, key ∈ (c.registerPromise res_proto client_id session_id
          promise).pending_requests_.keys ↔ key ∈ c.pending_requests_.keys) ∧
      (c.registerPromise res_proto client_id session_id promise).pending_requests_.find
        (client_id, session_id) = some ⟨res_proto, promise⟩ ∧
      (∀ key, key ≠ (client_id, session_id) →
        (c.registerPromise res_proto client_id session_id promise).pending_requests_.find key
          = c.pending_requests_.find key) ∧
      (old.promise ≠ promise →
        (∀ e ∈ c.pending_requests_.entries, e.2.promise = old.promise →
          e.1 = (client_id, session_id)) →
        ∀ (pb : Protos) (msgs : List Message),
          ∀ r ∈ ((c.registerPromise res_proto client_id session_id promise).deliver pb
            msgs).resolved, r.1 ≠ old.promise)) ∧
    (∀ (pb : Protos) (rt : Runtime) (c : RpcClient) (e₁ e₂ : ClientEvent)
        (ctx₁ ctx₂ : PromiseContext),
      c.vsomeip_app_.isSome = true → c.service_available_ = true →
      e₁.context = some ctx₁ → e₂.context = some ctx₂ →
      e₁.encodes pb = true → e₂.encodes pb = true →
      ((c.step pb rt e₁).step pb rt e₂).pending_requests_.find
        (rt.create_request.client, rt.create_request.session) = some ctx₂ ∧
      ((c.step pb rt e₁).step pb rt e₂).pending_requests_.size
        = (c.step pb rt e₁).pending_requests_.size ∧
      (∀ key, key ∈ ((c.step pb rt e₁).step pb rt e₂).pending_requests_.keys ↔
        key ∈ (c.step pb rt e₁).pending_requests_.keys) ∧
      (ctx₁.promise ≠ ctx₂.promise → ctx₁.promise ∉ c.pending_requests_.promises →
        ∀ msgs, ∀ r ∈ (((c.step pb rt e₁).step pb rt e₂).deliver pb msgs).resolved,
          r.1 ≠ ctx₁.promise)) := by
  constructor
  · intro c res_proto client_id session_id promise old hfind
    have hkeymem : (client_id, session_id) ∈ c.pending_requests_.keys :=
      List.mem_map_of_mem Prod.fst (PendingMap.mem_of_find hfind)
    refine ⟨PendingMap.size_assign_of_find _ _ hfind, ?_, PendingMap.find_assign_self _ _ _,
      fun key hne => PendingMap.find_assign_of_ne _ _ hne, ?_⟩
    · intro key
      simp only [RpcClient.registerPromise, PendingMap.mem_keys_assign]
      constructor
      · rintro (h | h)
        · rw [h]; exact hkeymem
        · exact h
      · exact fun h => Or.inr h
    · intro hne honly pb msgs r hr heq
      have hmem := RpcClient.deliver_resolves_pending pb msgs _ r hr
      rw [heq] at hmem
      simp only [RpcClient.registerPromise, PendingMap.promises, PendingMap.assign,
        PendingMap.erase, List.map_cons, List.mem_cons, List.mem_map, List.mem_filter] at hmem
      rcases hmem with h | ⟨e, ⟨he, hk⟩, hp⟩
      · exact hne h
      · have := honly e he hp
        simp [this] at hk
  · intro pb rt c e₁ e₂ ctx₁ ctx₂ happ havailable hctx₁ hctx₂ henc₁ henc₂
    obtain ⟨hp₁, happ₁, hav₁⟩ := RpcClient.step_registers pb rt c e₁ ctx₁ happ havailable
      hctx₁ henc₁
    obtain ⟨hp₂, _, _⟩ := RpcClient.step_registers pb rt (c.step pb rt e₁) e₂ ctx₂ happ₁ hav₁
      hctx₂ henc₂
    have hfind₁ : (c.step pb rt e₁).pending_requests_.find
        (rt.create_request.client, rt.create_request.session) = some ctx₁ := by
      rw [hp₁]; exact PendingMap.find_assign_self _ _ _
    have hkeymem : (rt.create_request.client, rt.create_request.session)
        ∈ (c.step pb rt e₁).pending_requests_.keys :=
      List.mem_map_of_mem Prod.fst (PendingMap.mem_of_find hfind₁)
    refine ⟨by rw [hp₂]; exact PendingMap.find_assign_self _ _ _,
      by rw [hp₂]; exact PendingMap.size_assign_of_find _ _ hfind₁, ?_, ?_⟩
    · intro key
      rw [hp₂, PendingMap.mem_keys_assign]
      constructor
      · rintro (h | h)
        · rw [h]; exact hkeymem
        · exact h
      · exact fun h => Or.inr h
    · intro hne hfresh msgs r hr heq
      have hmem := RpcClient.deliver_resolves_pending pb msgs _ r hr
      rw [heq, hp₂, hp₁, PendingMap.promises_assign, PendingMap.erase_assign,
        List.mem_cons] at hmem
      rcases hmem with h | h
      · exact hne h
      · exact hfresh (PendingMap.promises_erase_subset _ _ _ h)

/-- C28, at a concrete input: on the test client with the runtime whose fresh requests
carry `(0, 0)`, an `Echo` call with promise 1 followed by an `Add` call with promise 2
leaves the Add operation with promise 2 under the key `(0, 0)`. -/
theorem registerPromise_replaces_entry_witness :
    ((test_client.step wire_codec vsomeip_runtime (.Echo 1 ⟨"Hello RPC World!"⟩)).step
        wire_codec vsomeip_runtime (.Add 2 ⟨10, 32⟩)).pending_requests_.find (0, 0)
      = some ⟨.AddResponse, 2⟩ ∧
    ((test_client.step wire_codec vsomeip_runtime (.Echo 1 ⟨"Hello RPC World!"⟩)).step
        wire_codec vsomeip_runtime (.Add 2 ⟨10, 32⟩)).pending_requests_.size = 1 :=
  ⟨(registerPromise_replaces_entry.2 wire_codec vsomeip_runtime test_client
      (.Echo 1 ⟨"Hello RPC World!"⟩) (.Add 2 ⟨10, 32⟩) ⟨.EchoResponse, 1⟩ ⟨.AddResponse, 2⟩
      (by decide) (by decide) rfl rfl (by decide) (by decide)).1,
   by decide⟩

/-! ## Subscriber: balance of registrations -/

theorem callCount_append (kind : AppCall → Bool) (calls₁ calls₂ : List AppCall) :
    callCount kind (calls₁ ++ calls₂) = callCount kind calls₁ + callCount kind calls₂ := by
  simp [callCount, List.filter_append]

theorem Subscriber.balanced_of_from (base : List AppCall) (s : Subscriber)
    (h : s.BalancedFrom base) : s.Balanced base := by
  obtain ⟨own, hcalls, hbal⟩ := h
  have hown : s.ownCalls base = own := by
    simp [Subscriber.ownCalls, hcalls]
  unfold Subscriber.Balanced
  rw [hown]
  exact hbal

theorem Subscriber.subscribe_balanced (base : List AppCall) (s : Subscriber)
    (callback : Option Nat) (h : s.BalancedFrom base) :
    (s.subscribe callback).subscriber.BalancedFrom base := by
  obtain ⟨own, hcalls, hbal⟩ := h
  cases happ : s.vsomeip_app_ with
  | none =>
    have hs : s.subscribe callback = { subscriber := s, result := false } := by
      simp [Subscriber.subscribe, happ]
    rw [hs]
    exact ⟨own, hcalls, hbal⟩
  | some app =>
    cases hsub : s.is_subscribed_ with
    | true =>
      rw [Subscriber.subscribe_again s app callback happ hsub]
      refine ⟨own, ?_, ?_⟩
      · simpa [Subscriber.calls, happ] using hcalls
      · simpa [hsub] using hbal
    | false =>
      rw [Subscriber.subscribe_first s app callback happ hsub]
      have hc : app.calls = base ++ own := by simpa [Subscriber.calls, happ] using hcalls
      refine ⟨own ++ [.register_availability_handler s.service_id_ s.instance_id_,
        .register_message_handler s.service_id_ s.instance_id_ s.event_id_or_group_,
        .request_event s.service_id_ s.instance_id_ s.event_id_or_group_
          (if s.is_eventgroup_ then s.subscribed_eventgroups_ else [])], ?_, ?_⟩
      · simp only [Subscriber.calls, Subscriber.register_calls, hc, List.append_assoc]
      · rw [hsub] at hbal
        obtain ⟨h₁, h₂, h₃⟩ := hbal
        simp only [balancedCalls, callCount_append, h₁, h₂, h₃]
        simp [callCount, AppCall.is_request_event, AppCall.is_release_event,
          AppCall.is_register_message_handler, AppCall.is_unregister_message_handler,
          AppCall.is_register_availability_handler,
          AppCall.is_unregister_availability_handler]

theorem Subscriber.subscribeGeneric_balanced (base : List AppCall) (s : Subscriber)
    (callback : Option Nat) (h : s.BalancedFrom base) :
    (s.subscribeGeneric callback).subscriber.BalancedFrom base := by
  obtain ⟨own, hcalls, hbal⟩ := h
  cases happ : s.vsomeip_app_ with
  | none =>
    have hs : s.subscribeGeneric callback = { subscriber := s, result := false } := by
      simp [Subscriber.subscribeGeneric, happ]
    rw [hs]
    exact ⟨own, hcalls, hbal⟩
  | some app =>
    cases hsub : s.is_subscribed_ with
    | true =>
      rw [Subscriber.subscribeGeneric_again s app callback happ hsub]
      refine ⟨own, ?_, ?_⟩
      · simpa [Subscriber.calls, happ] using hcalls
      · simpa [hsub] using hbal
    | false =>
      rw [Subscriber.subscribeGeneric_first s app callback happ hsub]
      have hc : app.calls = base ++ own := by simpa [Subscriber.calls, happ] using hcalls
      refine ⟨own ++ [.register_availability_handler s.service_id_ s.instance_id_,
        .register_message_handler s.service_id_ s.instance_id_ s.event_id_or_group_,
        .request_event s.service_id_ s.instance_id_ s.event_id_or_group_
          (if s.is_eventgroup_ then s.subscribed_eventgroups_ else [])], ?_, ?_⟩
      · simp only [Subscriber.calls, Subscriber.register_calls, hc, List.append_assoc]
      · rw [hsub] at hbal
        obtain ⟨h₁, h₂, h₃⟩ := hbal
        simp only [balancedCalls, callCount_append, h₁, h₂, h₃]
        simp [callCount, AppCall.is_request_event, AppCall.is_release_event,
          AppCall.is_register_message_handler, AppCall.is_unregister_message_handler,
          AppCall.is_register_availability_handler,
          AppCall.is_unregister_availability_handler]

theorem Subscriber.unsubscribe_balanced (base : List AppCall) (s : Subscriber)
    (h : s.BalancedFrom base) : s.unsubscribe.subscriber.BalancedFrom base := by
  obtain ⟨own, hcalls, hbal⟩ := h
  cases happ : s.vsomeip_app_ with
  | none =>
    have hs : s.unsubscribe = { subscriber := s, result := !s.is_subscribed_ } := by
      simp [Subscriber.unsubscribe, happ]
    rw [hs]
    exact ⟨own, hcalls, hbal⟩
  | some app =>
    cases hsub : s.is_subscribed_ with
    | false =>
      rw [Subscriber.unsubscribe_not_subscribed s app happ hsub]
      exact ⟨own, hcalls, hbal⟩
    | true =>
      rw [Subscriber.unsubscribe_subscribed s app happ hsub]
      have hc : app.calls = base ++ own := by simpa [Subscriber.calls, happ] using hcalls
      refine ⟨own ++
        [.unregister_message_handler s.service_id_ s.instance_id_ s.event_id_or_group_,
         .release_event s.service_id_ s.instance_id_ s.event_id_or_group_
           (if s.is_eventgroup_ then s.subscribed_eventgroups_ else []),
         .unregister_availability_handler s.service_id_ s.instance_id_], ?_, ?_⟩
      · simp only [Subscriber.calls, hc, List.append_assoc]
      · rw [hsub] at hbal
        obtain ⟨h₁, h₂, h₃⟩ := hbal
        simp only [balancedCalls, callCount_append, h₁, h₂, h₃]
        simp [callCount, AppCall.is_request_event, AppCall.is_release_event,
          AppCall.is_register_message_handler, AppCall.is_unregister_message_handler,
          AppCall.is_register_availability_handler,
          AppCall.is_unregister_availability_handler]

theorem Subscriber.step_balanced (pb : Proto protos.SimpleNotification) (base : List AppCall)
    (s : Subscriber) (event : SubscriberEvent) (h : s.BalancedFrom base) :
    (s.step pb event).BalancedFrom base := by
  cases event with
  | subscribe callback => exact Subscriber.subscribe_balanced base s callback h
  | subscribeGeneric callback => exact Subscriber.subscribeGeneric_balanced base s callback h
  | unsubscribe => exact Subscriber.unsubscribe_balanced base s h
  | onAvailabilityChanged service instance_ is_available =>
    simp only [Subscriber.step, Subscriber.onAvailabilityChanged]
    split
    · exact h
    · exact h
  | onMessageReceived msg =>
    simp only [Subscriber.step, Subscriber.onMessageReceived_subscriber]
    exact h

theorem Subscriber.run_balanced (pb : Proto protos.SimpleNotification) (base : List AppCall)
    (events : List SubscriberEvent) :
    ∀ s : Subscriber, s.BalancedFrom base → (s.run pb events).BalancedFrom base := by
  induction events with
  | nil => exact fun s h => h
  | cons event rest ih => exact fun s h => ih _ (Subscriber.step_balanced pb base s event h)

theorem Subscriber.destructor_balanced (base : List AppCall) (s : Subscriber)
    (h : s.BalancedFrom base) :
    s.destructor.BalancedFrom base ∧ (s.LiveWhenSubscribed → s.destructor.is_subscribed_ = false) := by
  unfold Subscriber.destructor
  split
  · rename_i hcond
    refine ⟨Subscriber.unsubscribe_balanced base s h, fun _ => ?_⟩
    cases happ : s.vsomeip_app_ with
    | none => simp [happ] at hcond
    | some app => rw [Subscriber.unsubscribe_subscribed s app happ hcond.1]
  · rename_i hcond
    refine ⟨h, fun hlive => ?_⟩
    cases hsub : s.is_subscribed_ with
    | false => rfl
    | true => exact absurd ⟨hsub, hlive hsub⟩ hcond

theorem Subscriber.new_balanced (topic_name : String) (app : Option Application)
    (service_id instance_id event : Nat) (is_eventgroup : Bool) :
    (Subscriber.new topic_name app service_id instance_id event is_eventgroup).BalancedFrom
      (Subscriber.new topic_name app service_id instance_id event is_eventgroup).calls := by
  refine ⟨[], by simp, ?_⟩
  have hsub : (Subscriber.new topic_name app service_id instance_id event
      is_eventgroup).is_subscribed_ = false := by
    cases app with
    | none => rfl
    | some app => rw [Subscriber.new_of_live_handle]
  rw [hsub]
  exact ⟨rfl, rfl, rfl⟩

/-- C29: take a subscriber constructed with any handle, let it go through any sequence of
subscribe, subscribeGeneric and unsubscribe calls (availability and message events may
come in between), and count only the calls it issued itself. At every point the number of
`request_event` calls exceeds the number of `release_event` calls by one when the
subscriber is subscribed and by none otherwise, and the same holds for registrations
against unregistrations of the message handler and of the availability handler. After
the destructor the subscriber is not subscribed and all three pairs of counts are equal. -/
theorem Subscriber_registrations_balanced (pb : Proto protos.SimpleNotification)
    (topic_name : String) (app : Option Application) (service_id instance_id event : Nat)
    (is_eventgroup : Bool) (events : List SubscriberEvent) :
    ((Subscriber.new topic_name app service_id instance_id event is_eventgroup).run pb
        events).Balanced
      (Subscriber.new topic_name app service_id instance_id event is_eventgroup).calls ∧
    ((Subscriber.new topic_name app service_id instance_id event is_eventgroup).run pb
        events).destructor.Balanced
      (Subscriber.new topic_name app service_id instance_id event is_eventgroup).calls ∧
    ((Subscriber.new topic_name app service_id instance_id event is_eventgroup).run pb
        events).destructor.is_subscribed_ = false ∧
    balancedCalls
      (((Subscriber.new topic_name app service_id instance_id event is_eventgroup).run pb
        events).destructor.ownCalls
          (Subscriber.new topic_name app service_id instance_id event is_eventgroup).calls)
      false := by
  have hbal := Subscriber.run_balanced pb _ events _
    (Subscriber.new_balanced topic_name app service_id instance_id event is_eventgroup)
  have hlive := (Subscriber.run_keeps_binding pb events _
    (Subscriber.new_live_when_subscribed topic_name app service_id instance_id event
      is_eventgroup)).2
  have hd := Subscriber.destructor_balanced _ _ hbal
  have hfinal := Subscriber.balanced_of_from _ _ hd.1
  refine ⟨Subscriber.balanced_of_from _ _ hbal, hfinal, hd.2 hlive, ?_⟩
  unfold Subscriber.Balanced at hfinal
  rw [hd.2 hlive] at hfinal
  exact hfinal

/-! ## Subscriber: the generic callback -/

theorem Subscriber.step_at_most_one (pb : Proto protos.SimpleNotification) (s : Subscriber)
    (event : SubscriberEvent) (h : s.AtMostOneCallback) : (s.step pb event).AtMostOneCallback := by
  cases event with
  | subscribe callback =>
    simp only [Subscriber.step, Subscriber.subscribe]
    cases s.vsomeip_app_ with
    | none => exact h
    | some app =>
      dsimp only
      split
      · exact Or.inr rfl
      · exact Or.inr rfl
  | subscribeGeneric callback =>
    simp only [Subscriber.step, Subscriber.subscribeGeneric]
    cases s.vsomeip_app_ with
    | none => exact h
    | some app =>
      dsimp only
      split
      · exact Or.inl rfl
      · exact Or.inl rfl
  | unsubscribe =>
    simp only [Subscriber.step, Subscriber.unsubscribe]
    cases s.vsomeip_app_ with
    | none => exact h
    | some app =>
      dsimp only
      split
      · exact h
      · exact Or.inl rfl
  | onAvailabilityChanged service instance_ is_available =>
    simp only [Subscriber.step, Subscriber.onAvailabilityChanged]
    split
    · exact h
    · exact h
  | onMessageReceived msg =>
    simp only [Subscriber.step, Subscriber.onMessageReceived_subscriber]
    exact h

theorem Subscriber.run_at_most_one (pb : Proto protos.SimpleNotification)
    (events : List SubscriberEvent) :
    ∀ s : Subscriber, s.AtMostOneCallback → (s.run pb events).AtMostOneCallback := by
  induction events with
  | nil => exact fun s h => h
  | cons event rest ih => exact fun s h => ih _ (Subscriber.step_at_most_one pb s event h)

theorem Subscriber.onMessageReceived_without_typed (pb : Proto protos.SimpleNotification)
    (s : Subscriber) (msg : Message) (h : s.notification_callback_ = none) :
    s.onMessageReceived pb msg = { subscriber := s, called := [] } := by
  unfold Subscriber.onMessageReceived
  split
  · split
    · rfl
    · split
      · rfl
      · simp only [h]
  · rfl

theorem Subscriber.onMessageReceived_no_generic (pb : Proto protos.SimpleNotification)
    (s : Subscriber) (msg : Message) :
    (s.onMessageReceived pb msg).called.filter CallbackCall.is_generic = [] := by
  unfold Subscriber.onMessageReceived
  split
  · split
    · rfl
    · split
      · rfl
      · split
        · split <;> rfl
        · rfl
  · rfl

/-- C30: after `subscribeGeneric(cb)` on a subscriber with a live transport the typed
callback is empty and the generic callback is `cb`, and then `onMessageReceived` calls no
callback at all, whatever the message; in no state does `onMessageReceived` call a generic
callback. `subscribe` leaves the generic callback empty and `subscribeGeneric` leaves the
typed callback empty, and in every state a subscriber can reach at most one of the two
callbacks is bound. -/
theorem generic_subscription_never_delivers (pb : Proto protos.SimpleNotification) :
    (∀ (s : Subscriber) (app : Application) (cb : Option Nat), s.vsomeip_app_ = some app →
      (s.subscribeGeneric cb).result = true ∧
      (s.subscribeGeneric cb).subscriber.notification_callback_ = none ∧
      (s.subscribeGeneric cb).subscriber.generic_callback_ = cb ∧
      (∀ msg, (s.subscribeGeneric cb).subscriber.onMessageReceived pb msg
        = { subscriber := (s.subscribeGeneric cb).subscriber, called := [] }) ∧
      (s.subscribe cb).subscriber.generic_callback_ = none ∧
      (s.subscribe cb).subscriber.notification_callback_ = cb) ∧
    (∀ (s : Subscriber) (msg : Message),
      (s.onMessageReceived pb msg).called.filter CallbackCall.is_generic = []) ∧
    (∀ (topic_name : String) (app : Option Application) (service_id instance_id event : Nat)
        (is_eventgroup : Bool) (events : List SubscriberEvent),
      ((Subscriber.new topic_name app service_id instance_id event is_eventgroup).run pb
        events).AtMostOneCallback) := by
  refine ⟨?_, Subscriber.onMessageReceived_no_generic pb, ?_⟩
  · intro s app cb happ
    have hg : (s.subscribeGeneric cb).result = true ∧
        (s.subscribeGeneric cb).subscriber.notification_callback_ = none ∧
        (s.subscribeGeneric cb).subscriber.generic_callback_ = cb := by
      cases hsub : s.is_subscribed_ with
      | true =>
        rw [Subscriber.subscribeGeneric_again s app cb happ hsub]
        exact ⟨rfl, rfl, rfl⟩
      | false =>
        rw [Subscriber.subscribeGeneric_first s app cb happ hsub]
        exact ⟨rfl, rfl, rfl⟩
    have ht : (s.subscribe cb).subscriber.generic_callback_ = none ∧
        (s.subscribe cb).subscriber.notification_callback_ = cb := by
      cases hsub : s.is_subscribed_ with
      | true =>
        rw [Subscriber.subscribe_again s app cb happ hsub]
        exact ⟨rfl, rfl⟩
      | false =>
        rw [Subscriber.subscribe_first s app cb happ hsub]
        exact ⟨rfl, rfl⟩
    exact ⟨hg.1, hg.2.1, hg.2.2,
      fun msg => Subscriber.onMessageReceived_without_typed pb _ msg hg.2.1, ht.1, ht.2⟩
  · intro topic_name app service_id instance_id event is_eventgroup events
    apply Subscriber.run_at_most_one
    cases app with
    | none => exact Or.inl rfl
    | some app => rw [Subscriber.new_of_live_handle]; exact Or.inl rfl

/-- C30, at the input of `subscriber_test.cpp`: the subscriber subscribes with the generic
callback 5; the message that carries `notification_3` then reaches no callback. -/
theorem generic_subscription_never_delivers_witness :
    (test_subscriber.subscribeGeneric (some 5)).subscriber.generic_callback_ = some 5 ∧
    (test_subscriber.subscribeGeneric (some 5)).subscriber.onMessageReceived notification_codec
        notification_message
      = { subscriber := (test_subscriber.subscribeGeneric (some 5)).subscriber, called := [] } :=
  have h := (generic_subscription_never_delivers notification_codec).1 test_subscriber test_app
    (some 5) (by decide)
  ⟨h.2.2.1, h.2.2.2.1 notification_message⟩

/-! ## CommunicationManager: get-or-create, shutdown -/

theorem cacheFind_append_same {α : Type} (name : String) (value : α)
    (cache : List (String × α)) (hfind : cacheFind name cache = none) :
    cacheFind name (cache ++ [(name, value)]) = some value := by
  unfold cacheFind at hfind ⊢
  rw [Option.map_eq_none'] at hfind
  simp [List.find?_append, hfind]

theorem cacheFind_append_other {α : Type} (name other : String) (value : α)
    (cache : List (String × α)) (hne : other ≠ name) :
    cacheFind other (cache ++ [(name, value)]) = cacheFind other cache := by
  unfold cacheFind
  cases hfind : cache.find? fun e => decide (e.1 = other) with
  | none => simp [List.find?_append, hfind, Ne.symm hne]
  | some e => simp [List.find?_append, hfind]

theorem cacheAssign_absent {α : Type} (name : String) (value : α)
    (cache : List (String × α)) (hfind : cacheFind name cache = none) :
    cacheAssign name value cache = cache ++ [(name, value)] := by
  unfold cacheFind at hfind
  rw [Option.map_eq_none'] at hfind
  simp [cacheAssign, hfind]

theorem RpcClient.new_keeps_live_handle (service_name : String) (app : Application)
    (service_id instance_id uninit : Nat) :
    (RpcClient.new service_name (some app) service_id instance_id uninit).vsomeip_app_.isSome
      = true := by
  simp [RpcClient.new]

theorem CommunicationManager.getPublisher_created (cfg : Bindings)
    (m : CommunicationManager) (name : String) (app : Application)
    (hinit : m.is_initialized_ = true) (happ : m.vsomeip_app_ = some app)
    (hfind : cacheFind name m.publisher_cache_ = none) :
    m.getPublisher cfg name =
      ({ m with
          vsomeip_app_ := (Publisher.new name (some app) (cfg.publisher name).1
            (cfg.publisher name).2.1 (cfg.publisher name).2.2.1
            (cfg.publisher name).2.2.2).vsomeip_app_
          publisher_cache_ := m.publisher_cache_ ++ [(name, Publisher.new name (some app)
            (cfg.publisher name).1 (cfg.publisher name).2.1 (cfg.publisher name).2.2.1
            (cfg.publisher name).2.2.2)] },
        some (Publisher.new name (some app) (cfg.publisher name).1 (cfg.publisher name).2.1
          (cfg.publisher name).2.2.1 (cfg.publisher name).2.2.2)) := by
  simp [CommunicationManager.getPublisher, hinit, happ, hfind, cacheAssign_absent]

theorem CommunicationManager.getSubscriber_created (cfg : Bindings)
    (m : CommunicationManager) (name : String) (app : Application)
    (hinit : m.is_initialized_ = true) (happ : m.vsomeip_app_ = some app)
    (hfind : cacheFind name m.subscriber_cache_ = none) :
    m.getSubscriber cfg name =
      ({ m with
          vsomeip_app_ := (Subscriber.new name (some app) (cfg.subscriber name).1
            (cfg.subscriber name).2.1 (cfg.subscriber name).2.2.1
            (cfg.subscriber name).2.2.2).vsomeip_app_
          subscriber_cache_ := m.subscriber_cache_ ++ [(name, Subscriber.new name (some app)
            (cfg.subscriber name).1 (cfg.subscriber name).2.1 (cfg.subscriber name).2.2.1
            (cfg.subscriber name).2.2.2)] },
        some (Subscriber.new name (some app) (cfg.subscriber name).1 (cfg.subscriber name).2.1
          (cfg.subscriber name).2.2.1 (cfg.subscriber name).2.2.2)) := by
  simp [CommunicationManager.getSubscriber, hinit, happ, hfind, cacheAssign_absent]

theorem CommunicationManager.getRpcClient_created (cfg : Bindings)
    (m : CommunicationManager) (name : String) (app : Application)
    (hinit : m.is_initialized_ = true) (happ : m.vsomeip_app_ = some app)
    (hfind : cacheFind name m.rpc_client_cache_ = none) :
    m.getRpcClient cfg name =
      ({ m with
          vsomeip_app_ := (RpcClient.new name (some app) (cfg.rpc_client name).1
            (cfg.rpc_client name).2 0).vsomeip_app_
          rpc_client_cache_ := m.rpc_client_cache_ ++ [(name, RpcClient.new name (some app)
            (cfg.rpc_client name).1 (cfg.rpc_client name).2 0)] },
        some (RpcClient.new name (some app) (cfg.rpc_client name).1
          (cfg.rpc_client name).2 0)) := by
  simp [CommunicationManager.getRpcClient, hinit, happ, hfind, cacheAssign_absent]

theorem CommunicationManager.getPublisher_cached (cfg : Bindings)
    (m : CommunicationManager) (name : String) (publisher : Publisher)
    (hinit : m.is_initialized_ = true) (happ : m.vsomeip_app_.isSome = true)
    (hfind : cacheFind name m.publisher_cache_ = some publisher) :
    m.getPublisher cfg name = (m, some publisher) := by
  simp [CommunicationManager.getPublisher, hinit, Option.isSome_iff_ne_none.mp happ, hfind]

theorem CommunicationManager.getSubscriber_cached (cfg : Bindings)
    (m : CommunicationManager) (name : String) (subscriber : Subscriber)
    (hinit : m.is_initialized_ = true) (happ : m.vsomeip_app_.isSome = true)
    (hfind : cacheFind name m.subscriber_cache_ = some subscriber) :
    m.getSubscriber cfg name = (m, some subscriber) := by
  simp [CommunicationManager.getSubscriber, hinit, Option.isSome_iff_ne_none.mp happ, hfind]

theorem CommunicationManager.getRpcClient_cached (cfg : Bindings)
    (m : CommunicationManager) (name : String) (client : RpcClient)
    (hinit : m.is_initialized_ = true) (happ : m.vsomeip_app_.isSome = true)
    (hfind : cacheFind name m.rpc_client_cache_ = some client) :
    m.getRpcClient cfg name = (m, some client) := by
  simp [CommunicationManager.getRpcClient, hinit, Option.isSome_iff_ne_none.mp happ, hfind]

/-- C22: get-or-create of the manager, for every binding of names to identifiers, every
manager state and every name, and for each of `getPublisher`, `getSubscriber` and
`getRpcClient`. (1) When the manager is not initialized (the flag is false or the
application handle is null) the call returns nothing and leaves the manager, hence every
cache, unchanged. (2) When it is initialized and the name is cached, the call returns the
cached instance and leaves the manager unchanged. (3) When it is initialized and the name is
not cached, the call returns the one instance the constructor builds on the manager's
application handle, stores it under that name as one new entry of its own cache, leaves the
other two caches unchanged, and a second lookup of the same name returns the same instance
and changes nothing. -/
theorem registry_get_or_create (cfg : Bindings) (m : CommunicationManager) (name : String) :
    ((m.is_initialized_ = false ∨ m.vsomeip_app_ = none) →
      m.getPublisher cfg name = (m, none) ∧ m.getSubscriber cfg name = (m, none) ∧
      m.getRpcClient cfg name = (m, none)) ∧
    (m.is_initialized_ = true → m.vsomeip_app_.isSome = true →
      (∀ publisher, cacheFind name m.publisher_cache_ = some publisher →
        m.getPublisher cfg name = (m, some publisher)) ∧
      (∀ subscriber, cacheFind name m.subscriber_cache_ = some subscriber →
        m.getSubscriber cfg name = (m, some subscriber)) ∧
      (∀ client, cacheFind name m.rpc_client_cache_ = some client →
        m.getRpcClient cfg name = (m, some client))) ∧
    (m.is_initialized_ = true → m.vsomeip_app_.isSome = true →
      (cacheFind name m.publisher_cache_ = none →
        ∀ r, r = m.getPublisher cfg name →
          r.2 = some (Publisher.new name m.vsomeip_app_ (cfg.publisher name).1
            (cfg.publisher name).2.1 (cfg.publisher name).2.2.1 (cfg.publisher name).2.2.2) ∧
          (∀ created, r.2 = some created →
            r.1.publisher_cache_ = m.publisher_cache_ ++ [(name, created)]) ∧
          r.1.subscriber_cache_ = m.subscriber_cache_ ∧
          r.1.rpc_client_cache_ = m.rpc_client_cache_ ∧
          r.1.getPublisher cfg name = r) ∧
      (cacheFind name m.subscriber_cache_ = none →
        ∀ r, r = m.getSubscriber cfg name →
          r.2 = some (Subscriber.new name m.vsomeip_app_ (cfg.subscriber name).1
            (cfg.subscriber name).2.1 (cfg.subscriber name).2.2.1
            (cfg.subscriber name).2.2.2) ∧
          (∀ created, r.2 = some created →
            r.1.subscriber_cache_ = m.subscriber_cache_ ++ [(name, created)]) ∧
          r.1.publisher_cache_ = m.publisher_cache_ ∧
          r.1.rpc_client_cache_ = m.rpc_client_cache_ ∧
          r.1.getSubscriber cfg name = r) ∧
      (cacheFind name m.rpc_client_cache_ = none →
        ∀ r, r = m.getRpcClient cfg name →
          r.2 = some (RpcClient.new name m.vsomeip_app_ (cfg.rpc_client name).1
            (cfg.rpc_client name).2 0) ∧
          (∀ created, r.2 = some created →
            r.1.rpc_client_cache_ = m.rpc_client_cache_ ++ [(name, created)]) ∧
          r.1.publisher_cache_ = m.publisher_cache_ ∧
          r.1.subscriber_cache_ = m.subscriber_cache_ ∧
          r.1.getRpcClient cfg name = r)) := by
  refine ⟨?_, ?_, ?_⟩
  · rintro (h | h) <;>
      simp [CommunicationManager.getPublisher, CommunicationManager.getSubscriber,
        CommunicationManager.getRpcClient, h]
  · intro hinit happ
    exact ⟨fun _ h => CommunicationManager.getPublisher_cached cfg m name _ hinit happ h,
      fun _ h => CommunicationManager.getSubscriber_cached cfg m name _ hinit happ h,
      fun _ h => CommunicationManager.getRpcClient_cached cfg m name _ hinit happ h⟩
  · intro hinit happ
    obtain ⟨app, happ⟩ := Option.isSome_iff_exists.mp happ
    refine ⟨?_, ?_, ?_⟩
    · intro hfind r hr
      rw [CommunicationManager.getPublisher_created cfg m name app hinit happ hfind] at hr
      subst hr
      refine ⟨by rw [happ], ?_, rfl, rfl, ?_⟩
      · intro created hcreated
        cases hcreated
        rfl
      apply CommunicationManager.getPublisher_cached
      · exact hinit
      · simp [Publisher.new_of_handle]
      · exact cacheFind_append_same name _ _ hfind
    · intro hfind r hr
      rw [CommunicationManager.getSubscriber_created cfg m name app hinit happ hfind] at hr
      subst hr
      refine ⟨by rw [happ], ?_, rfl, rfl, ?_⟩
      · intro created hcreated
        cases hcreated
        rfl
      apply CommunicationManager.getSubscriber_cached
      · exact hinit
      · simp [Subscriber.new_of_live_handle]
      · exact cacheFind_append_same name _ _ hfind
    · intro hfind r hr
      rw [CommunicationManager.getRpcClient_created cfg m name app hinit happ hfind] at hr
      subst hr
      refine ⟨by rw [happ], ?_, rfl, rfl, ?_⟩
      · intro created hcreated
        cases hcreated
        rfl
      apply CommunicationManager.getRpcClient_cached
      · exact hinit
      · simp [RpcClient.new]
      · exact cacheFind_append_same name _ _ hfind

theorem registry_get_or_create_witness :
    (CommunicationManager.new.is_initialized_ = false ∧
      CommunicationManager.new.getSubscriber test_bindings "TestTopic" =
        (CommunicationManager.new, none)) ∧
    (server_manager.is_initialized_ = true ∧ server_manager.vsomeip_app_.isSome = true ∧
      cacheFind "TestTopic" server_manager.publisher_cache_ =
        some (Publisher.new "TestTopic" (registered_manager.getSubscriber test_bindings
          "TestTopic").1.vsomeip_app_ 0x1111 0x0001 0x9100 true) ∧
      server_manager.getPublisher test_bindings "TestTopic" =
        (server_manager, some (Publisher.new "TestTopic" (registered_manager.getSubscriber
          test_bindings "TestTopic").1.vsomeip_app_ 0x1111 0x0001 0x9100 true))) ∧
    (test_manager.is_initialized_ = true ∧ test_manager.vsomeip_app_.isSome = true ∧
      cacheFind "SampleRpc" test_manager.rpc_client_cache_ = none ∧
      (test_manager.getRpcClient test_bindings "SampleRpc").2 =
        some (RpcClient.new "SampleRpc" test_manager.vsomeip_app_ 0x2222 0x0001 0) ∧
      (test_manager.getRpcClient test_bindings "SampleRpc").1.getRpcClient test_bindings
        "SampleRpc" = test_manager.getRpcClient test_bindings "SampleRpc") :=
  ⟨⟨by decide,
      ((registry_get_or_create test_bindings CommunicationManager.new "TestTopic").1
        (Or.inl (by decide))).2.1⟩,
    ⟨by decide, by decide, by decide,
      ((registry_get_or_create test_bindings server_manager "TestTopic").2.1
        (by decide) (by decide)).1 _ (by decide)⟩,
    ⟨by decide, by decide, by decide,
      ((((registry_get_or_create test_bindings test_manager "SampleRpc").2.2
        (by decide) (by decide)).2.2) (by decide) _ rfl).1,
      ((((registry_get_or_create test_bindings test_manager "SampleRpc").2.2
        (by decide) (by decide)).2.2) (by decide) _ rfl).2.2.2.2⟩⟩

theorem CommunicationManager.shutdown_initialized (env : CacheClearing)
    (m : CommunicationManager) (app : Application)
    (hinit : m.is_initialized_ = true) (happ : m.vsomeip_app_ = some app) :
    m.shutdown env =
      { manager := { m with
          rpc_client_cache_ := [], subscriber_cache_ := [], publisher_cache_ := [],
          rpc_service_registry_ := [], vsomeip_app_ := none, is_initialized_ := false },
        app := some ((destroyPublishers env.held_publisher
          (destroySubscribers env.held_subscriber
            (destroyClients env.held_rpc_client { app := app, steps := [] }
              (env.order_rpc_clients m.rpc_client_cache_))
            (env.order_subscribers m.subscriber_cache_))
          (env.order_publishers m.publisher_cache_)).app.call .stop),
        steps := (destroyPublishers env.held_publisher
          (destroySubscribers env.held_subscriber
            (destroyClients env.held_rpc_client { app := app, steps := [] }
              (env.order_rpc_clients m.rpc_client_cache_))
            (env.order_subscribers m.subscriber_cache_))
          (env.order_publishers m.publisher_cache_)).steps ++
            [.rpc_service_registry] ++ [.stop] } := by
  simp [CommunicationManager.shutdown, hinit, happ]

theorem CommunicationManager.shutdown_of_empty_caches (env : CacheClearing)
    (m : CommunicationManager) (app : Application)
    (hinit : m.is_initialized_ = true) (happ : m.vsomeip_app_ = some app)
    (hclients : m.rpc_client_cache_ = []) (hsubscribers : m.subscriber_cache_ = [])
    (hpublishers : m.publisher_cache_ = []) :
    (m.shutdown env).steps = [.rpc_service_registry, .stop] ∧
    (m.shutdown env).calls = m.calls ++ [.stop] := by
  have h₁ : env.order_rpc_clients m.rpc_client_cache_ = [] := by
    rw [hclients]
    exact (env.perm_rpc_clients []).eq_nil
  have h₂ : env.order_subscribers m.subscriber_cache_ = [] := by
    rw [hsubscribers]
    exact (env.perm_subscribers []).eq_nil
  have h₃ : env.order_publishers m.publisher_cache_ = [] := by
    rw [hpublishers]
    exact (env.perm_publishers []).eq_nil
  rw [CommunicationManager.shutdown_initialized env m app hinit happ, h₁, h₂, h₃]
  simp [destroyClients, destroySubscribers, destroyPublishers, ShutdownOutcome.calls,
    CommunicationManager.calls, happ, Application.call]

/-- C24: the manager of the server test, initialized on a fresh application object,
registers "SampleRpc" (service 0x2222, instance 1, implementation 1) and is then shut
down. The registration issues `offer_service` for (0x2222, 1) and registers the two
handlers; the shutdown issues nothing but the stop: no withdrawal of the service offer and
no unregistration of a handler. The stored implementation is still in
`actual_rpc_services_` after the shutdown, and this holds for every manager state:
`shutdown()` never changes `actual_rpc_services_`. What callers hold and the order in which
a map destroys its elements play no part: the caches are empty. -/
theorem shutdown_keeps_service_offered :
    registered_manager.is_initialized_ = true ∧
    test_manager.calls = [.init, .start] ∧
    registered_manager.calls =
      [.init, .start, .offer_service 0x2222 0x0001,
        .register_message_handler 0x2222 ANY_INSTANCE METHOD_ID_ECHO,
        .register_message_handler 0x2222 ANY_INSTANCE METHOD_ID_ADD] ∧
    registered_manager.actual_rpc_services_ = [("SampleRpc", 1)] ∧
    (∀ env, (registered_manager.shutdown env).steps = [.rpc_service_registry, .stop]) ∧
    (∀ env, (registered_manager.shutdown env).calls = registered_manager.calls ++ [.stop]) ∧
    (∀ env, AppCall.stop_offer_service 0x2222 0x0001 ∉
      (registered_manager.shutdown env).calls) ∧
    (∀ env, (registered_manager.shutdown env).manager.actual_rpc_services_
      = [("SampleRpc", 1)]) ∧
    (∀ (env : CacheClearing) (m : CommunicationManager),
      (m.shutdown env).manager.actual_rpc_services_ = m.actual_rpc_services_) := by
  have hempty := fun env => CommunicationManager.shutdown_of_empty_caches env
    registered_manager _ (by decide) rfl rfl rfl rfl
  have hkeeps : ∀ (env : CacheClearing) (m : CommunicationManager),
      (m.shutdown env).manager.actual_rpc_services_ = m.actual_rpc_services_ := by
    intro env m
    unfold CommunicationManager.shutdown
    cases m.vsomeip_app_ with
    | none => rfl
    | some app => cases m.is_initialized_ <;> rfl
  refine ⟨by decide, by decide, by decide, by decide, fun env => (hempty env).1,
    fun env => (hempty env).2, fun env => ?_, fun env => ?_, hkeeps⟩
  · rw [(hempty env).2]
    decide
  · rw [hkeeps]
    decide

/-! ## The Add exchange end to end -/

theorem RpcClient.deliver_all_missed (pb : Protos) (c : RpcClient) (msgs : List Message)
    (hmiss : ∀ m ∈ msgs, c.pending_requests_.find (c.client_id_, m.session) = none) :
    c.deliver pb msgs = { client := c, resolved := [] } := by
  induction msgs with
  | nil => rfl
  | cons msg rest ih =>
    simp only [RpcClient.deliver,
      RpcClient.onMessageReceived_miss pb c msg (hmiss msg (List.mem_cons_self _ _)),
      ih (fun m hm => hmiss m (List.mem_cons_of_mem _ hm)), List.append_nil]

theorem CommunicationManager.Add_handler_sent_shape (pb : Protos) (rt : Runtime)
    (service_impl : SampleRpc) (req_msg : Message) :
    ∀ m ∈ sentByHandler (CommunicationManager.Add_handler pb rt service_impl req_msg),
      m.session = (rt.create_response req_msg).session ∧
      m.message_type = (rt.create_response req_msg).message_type := by
  intro m hm
  unfold CommunicationManager.Add_handler at hm
  have hmal : ∀ m ∈ sentByHandler [.send (CommunicationManager.malformed_reply rt req_msg)],
      m.session = (rt.create_response req_msg).session ∧
      m.message_type = (rt.create_response req_msg).message_type := by
    intro m hm
    simp only [sentByHandler, List.mem_singleton] at hm
    subst hm
    exact ⟨rfl, rfl⟩
  cases hpayload : req_msg.payload with
  | none =>
    rw [hpayload] at hm
    exact hmal m hm
  | some data =>
    rw [hpayload] at hm
    dsimp only at hm
    split at hm
    · cases hparse : pb.AddRequest.ParseFromArray data with
      | none =>
        rw [hparse] at hm
        exact hmal m hm
      | some request =>
        rw [hparse] at hm
        cases himpl : service_impl.Add request with
        | none => simp [himpl, sentByHandler] at hm
        | some response =>
          simp only [himpl, sentByHandler, CommunicationManager.Add_done] at hm
          cases hser : pb.AddResponse.SerializeToString response with
          | none =>
            simp only [hser, sentByHandler, List.mem_singleton] at hm
            subst hm
            exact ⟨rfl, rfl⟩
          | some bytes =>
            simp only [hser, sentByHandler, List.mem_singleton] at hm
            subst hm
            exact ⟨rfl, rfl⟩
    · exact hmal m hm

/-- C7: the Add exchange never resolves the future. Take a client with a live handle
whose service is available, a runtime whose fresh request is a request that does not yet
carry the key the transport gives it at `send`, and whose responses are replies with the
session of the request; the client's table has no entry under the key the request goes out
with. When the request `(a, b)` is encoded, `Add` puts one request on the wire, tagged with
the transport's caller-id and exchange-id, but has registered the call under the key the
request carried before `send`. Whatever the Add handler of the server sends back carries
the key of the wire, so delivering it to `onMessageReceived` resolves nothing: the
exchange performs no resolution at all, and the entry of the call is still in the table
under the pre-send key when the exchange is over. -/
theorem Add_round_trip_resolves_nothing (pb : Protos) (rt : Runtime)
    (service_impl : SampleRpc) (server app : Application) (c : RpcClient) (promise : Nat)
    (request : protos.AddRequest) (request_bytes : List Nat)
    (happ : c.vsomeip_app_ = some app)
    (havailable : c.service_available_ = true)
    (hclient : c.client_id_ = app.client)
    (hrequest : rt.create_request.message_type = .MT_REQUEST)
    (hpresend : (rt.create_request.client, rt.create_request.session)
      ≠ (app.client, app.session))
    (hresponse : ∀ req_msg,
      (rt.create_response req_msg).session = req_msg.session ∧
      (rt.create_response req_msg).message_type = .MT_RESPONSE)
    (hfree : c.pending_requests_.find (app.client, app.session) = none)
    (hencode : pb.AddRequest.SerializeToString request = some request_bytes) :
    (Add_round_trip pb rt service_impl server c promise request).resolved = [] ∧
    (Add_round_trip pb rt service_impl server c promise request).client.sent
      = c.sent ++ [{ rt.create_request with
          service := c.service_id_, instance_ := c.instance_id_, method := METHOD_ID_ADD,
          client := app.client, session := app.session, payload := some request_bytes }] ∧
    (Add_round_trip pb rt service_impl server c promise request).client.pending_requests_.find
      (rt.create_request.client, rt.create_request.session) = some ⟨.AddResponse, promise⟩ ∧
    (Add_round_trip pb rt service_impl server c promise request).client.pending_requests_.find
      (app.client, app.session) = none := by
  -- the request as the client builds it, and as it goes out
  obtain ⟨rpc_request, hrq⟩ : ∃ m : Message, m = { rt.create_request with
      service := c.service_id_, instance_ := c.instance_id_, method := METHOD_ID_ADD,
      payload := some request_bytes } := ⟨_, rfl⟩
  obtain ⟨wire, hw⟩ : ∃ m : Message, m = { rt.create_request with
      service := c.service_id_, instance_ := c.instance_id_, method := METHOD_ID_ADD,
      client := app.client, session := app.session, payload := some request_bytes } :=
    ⟨_, rfl⟩
  have hwire : app.wire rpc_request = wire := by
    rw [hrq, hw]
    simp [Application.wire, Message.is_request, hrequest]
  have hwire_session : wire.session = app.session := by rw [hw]
  -- the client after the call
  obtain ⟨c₁, hc₁⟩ : ∃ c₁ : RpcClient, c₁ =
      { c.registerPromise .AddResponse rt.create_request.client rt.create_request.session
          promise with vsomeip_app_ := some (app.send rpc_request) } := ⟨_, rfl⟩
  have hcall : c.Add pb rt promise request = { client := c₁, resolved := [] } := by
    simp only [RpcClient.Add, happ, havailable, hencode, hc₁, hrq]
    rfl
  have hsent : c₁.sent = c.sent ++ [wire] := by
    rw [hc₁]
    simp only [RpcClient.sent, happ, Application.send, sentMessages_append_send, hwire]
  have hc₁_client : c₁.client_id_ = app.client := by rw [hc₁]; exact hclient
  have hregistered : c₁.pending_requests_.find
      (rt.create_request.client, rt.create_request.session)
      = some ⟨.AddResponse, promise⟩ := by
    rw [hc₁]
    exact PendingMap.find_assign_self _ _ _
  have hnone : c₁.pending_requests_.find (app.client, app.session) = none := by
    rw [hc₁]
    show (c.pending_requests_.assign _ _).find _ = none
    rw [PendingMap.find_assign_of_ne _ _ (Ne.symm hpresend), hfree]
  -- what the server sends back reaches the client as it is, under the key of the wire
  have hreplies : ∀ m ∈ (sentByHandler
      (CommunicationManager.Add_handler pb rt service_impl wire)).map server.wire,
      c₁.pending_requests_.find (c₁.client_id_, m.session) = none := by
    intro m hm
    obtain ⟨reply, hreply, rfl⟩ := List.mem_map.mp hm
    obtain ⟨hsession, hkind⟩ :=
      CommunicationManager.Add_handler_sent_shape pb rt service_impl wire reply hreply
    have hkind₁ : reply.message_type = .MT_RESPONSE := by rw [hkind]; exact (hresponse wire).2
    have hsame : server.wire reply = reply := by
      simp [Application.wire, Message.is_request, hkind₁]
    rw [hsame, hsession, (hresponse wire).1, hwire_session, hc₁_client]
    exact hnone
  have hround : Add_round_trip pb rt service_impl server c promise request
      = { client := c₁, resolved := [] } := by
    unfold Add_round_trip
    simp only [hcall, hsent, List.drop_left, List.flatMap_cons, List.flatMap_nil,
      List.append_nil, RpcClient.deliver_all_missed pb c₁ _ hreplies]
  rw [hround]
  exact ⟨rfl, by rw [hsent, hw], hregistered, hnone⟩

/-- C7, at the input of the spec: the available test client (caller-id 7, next
exchange-id 41) calls `Add` with `a = 10`, `b = 32` against the sample server. The request
goes out tagged `(7, 41)`, the server answers it with `sum = 42` under `(7, 41)`, and
nothing is resolved: the call is still pending under `(0, 0)` afterwards. -/
theorem Add_round_trip_resolves_nothing_witness :
    test_client.service_available_ = true ∧
    CommunicationManager.Add_handler wire_codec vsomeip_runtime MySampleRpcImpl request_7_41
      = [.invoke_Add ⟨10, 32⟩, .send reply_7_41] ∧
    (Add_round_trip wire_codec vsomeip_runtime MySampleRpcImpl test_server test_client 0
        ⟨10, 32⟩).resolved = [] ∧
    (Add_round_trip wire_codec vsomeip_runtime MySampleRpcImpl test_server test_client 0
        ⟨10, 32⟩).client.pending_requests_.find (0, 0) = some ⟨.AddResponse, 0⟩ :=
  ⟨by decide, by decide,
    (Add_round_trip_resolves_nothing wire_codec vsomeip_runtime MySampleRpcImpl test_server
      { client := 7, session := 41, calls :=
          [.register_availability_handler 0x2222 0x0001,
           .register_message_handler ANY_SERVICE ANY_INSTANCE ANY_METHOD,
           .request_service 0x2222 0x0001] }
      test_client 0 ⟨10, 32⟩ [8, 10, 16, 32]
      (by decide) (by decide) (by decide) rfl (by decide) (fun _ => ⟨rfl, rfl⟩)
      (by decide) (by decide)).1,
    (Add_round_trip_resolves_nothing wire_codec vsomeip_runtime MySampleRpcImpl test_server
      { client := 7, session := 41, calls :=
          [.register_availability_handler 0x2222 0x0001,
           .register_message_handler ANY_SERVICE ANY_INSTANCE ANY_METHOD,
           .request_service 0x2222 0x0001] }
      test_client 0 ⟨10, 32⟩ [8, 10, 16, 32]
      (by decide) (by decide) (by decide) rfl (by decide) (fun _ => ⟨rfl, rfl⟩)
      (by decide) (by decide)).2.2.1⟩

end comms_stack
